import Mathlib

/-!
# Discovery and selection of MTP devices (package mtp, select.go)

A shallow embedding of `candidateFromDeviceDescriptor`, `FindDevices`,
`selectDevice`, `selectDeviceByFilter` and the exported `SelectDevice`,
`SelectDeviceByFilter` and `SelectDeviceWithDebugging`.  Pointers to `Device`
are addresses into a heap, every call into the USB layer is recorded in a
trace, and the answers of the USB layer are fields of the device they concern.
-/

set_option linter.unusedVariables false

namespace Mtp

/-! ## Package usb: descriptors -/

/-- Direction bit of an endpoint address: device to host. -/
def ENDPOINT_IN : Nat := 0x80
/-- Direction bit of an endpoint address: host to device. -/
def ENDPOINT_OUT : Nat := 0x00
/-- Mask of the direction bit in an endpoint address. -/
def ENDPOINT_DIR_MASK : Nat := 0x80
/-- Mask of the transfer type in the endpoint attributes. -/
def TRANSFER_TYPE_MASK : Nat := 0x03
/-- Transfer type of a bulk endpoint. -/
def TRANSFER_TYPE_BULK : Nat := 2
/-- Transfer type of an interrupt endpoint. -/
def TRANSFER_TYPE_INTERRUPT : Nat := 3

/-- An endpoint descriptor of package usb; both fields are bytes. -/
structure EndpointDescriptor where
  EndpointAddress : Nat := 0
  Attributes : Nat := 0
  deriving DecidableEq, Repr

/-- Direction of the endpoint: the direction bit of its address. -/
def EndpointDescriptor.Direction (s : EndpointDescriptor) : Nat :=
  s.EndpointAddress &&& ENDPOINT_DIR_MASK

/-- Transfer type of the endpoint: the low two bits of its attributes. -/
def EndpointDescriptor.TransferType (s : EndpointDescriptor) : Nat :=
  s.Attributes &&& TRANSFER_TYPE_MASK

/-- An interface descriptor of package usb: one alt-setting of an interface. -/
structure InterfaceDescriptor where
  InterfaceNumber : Nat := 0
  AlternateSetting : Nat := 0
  InterfaceClass : Nat := 0
  EndPoints : List EndpointDescriptor := []
  deriving DecidableEq, Repr

/-- An interface of package usb: the list of its alt-settings. -/
structure Interface where
  AltSetting : List InterfaceDescriptor := []
  deriving DecidableEq, Repr

/-- A configuration descriptor of package usb. -/
structure ConfigDescriptor where
  ConfigurationValue : Nat := 0
  Interfaces : List Interface := []
  deriving DecidableEq, Repr

/-- A device descriptor of package usb. -/
structure DeviceDescriptor where
  IdVendor : Nat := 0
  IdProduct : Nat := 0
  NumConfigurations : Nat := 0
  deriving DecidableEq, Repr

/-- A device of package usb.  Besides the descriptor tree it carries the
reference count kept by the library and the answers the device gives to the
calls select.go makes on it or on its handle. -/
structure UsbDevice where
  /-- answer of GetDeviceDescriptor -/
  descr : Except String DeviceDescriptor := .error "no descriptor"
  /-- answers of GetConfigDescriptor, by configuration index -/
  configs : List (Except String ConfigDescriptor) := []
  /-- answer of GetBusNumber -/
  busNumber : Nat := 0
  /-- answer of GetDevicePath -/
  devicePath : List Nat := []
  /-- reference count of the device -/
  refs : Int := 0
  /-- error of opening a handle on the device, when it cannot be opened -/
  openErr : Option String := none
  /-- answer to the identity query made through an open handle -/
  idRes : Except String String := .ok ""
  /-- error of GetConfiguration on the handle, when the query fails -/
  getConfigErr : Option String := none
  /-- error of SetConfiguration on the handle, when the call fails -/
  setConfigErr : Option String := none
  /-- the active configuration of the device -/
  config : Nat := 0

/-- Answer of GetDeviceDescriptor. -/
def UsbDevice.GetDeviceDescriptor (d : UsbDevice) : Except String DeviceDescriptor :=
  d.descr

/-- Answer of GetConfigDescriptor for a configuration index; an index the
device has no answer for is an error. -/
def UsbDevice.GetConfigDescriptor (d : UsbDevice) (i : Nat) : Except String ConfigDescriptor :=
  match d.configs.get? i with
  | some r => r
  | none => .error "not found"

/-- Ref takes one more reference on the device and returns the device. -/
def UsbDevice.Ref (d : UsbDevice) : UsbDevice :=
  { d with refs := d.refs + 1 }

/-- Unref gives one reference on the device back. -/
def UsbDevice.Unref (d : UsbDevice) : UsbDevice :=
  { d with refs := d.refs - 1 }

/-! ## Package mtp: the Device record -/

/-- The fields of mtp.Device that select.go reads or writes.  The field
opened stands for the handle h: it is true while h is set. -/
structure Device where
  opened : Bool := false
  dev : UsbDevice := {}
  devDescr : DeviceDescriptor := {}
  ifaceDescr : InterfaceDescriptor := {}
  configValue : Nat := 0
  sendEP : Nat := 0
  fetchEP : Nat := 0
  eventEP : Nat := 0
  busNum : Nat := 0
  path : List Nat := []
  USBDebug : Bool := false
  DataDebug : Bool := false
  MTPDebug : Bool := false

instance : Inhabited Device := ⟨{}⟩

/-! ## candidateFromDeviceDescriptor -/

/-- First case of the switch: an interrupt endpoint towards the host. -/
def isInterruptIn (s : EndpointDescriptor) : Bool :=
  s.Direction == ENDPOINT_IN && s.TransferType == TRANSFER_TYPE_INTERRUPT

/-- Second case of the switch: a bulk endpoint towards the host. -/
def isBulkIn (s : EndpointDescriptor) : Bool :=
  s.Direction == ENDPOINT_IN && s.TransferType == TRANSFER_TYPE_BULK

/-- Third case of the switch: a bulk endpoint towards the device. -/
def isBulkOut (s : EndpointDescriptor) : Bool :=
  s.Direction == ENDPOINT_OUT && s.TransferType == TRANSFER_TYPE_BULK

/-- Body of the loop over the endpoints of an alt-setting: the switch that
records the address of the endpoint under the role it has. -/
def assignEndpoint (m : Device) (s : EndpointDescriptor) : Device :=
  if isInterruptIn s then { m with eventEP := s.EndpointAddress }
  else if isBulkIn s then { m with fetchEP := s.EndpointAddress }
  else if isBulkOut s then { m with sendEP := s.EndpointAddress }
  else m

/-- Loop over the alt-settings of one interface.  An alt-setting whose
endpoint count is not three is skipped; otherwise a fresh Device collects the
endpoint addresses, and when all three are set the candidate is returned. -/
def scanAltSettings (d : UsbDevice) (dd : DeviceDescriptor) (cdecs : ConfigDescriptor) :
    List InterfaceDescriptor → Option Device
  | [] => none
  | a :: rest =>
    if a.EndPoints.length ≠ 3 then scanAltSettings d dd cdecs rest
    else
      let m := a.EndPoints.foldl assignEndpoint {}
      if m.sendEP > 0 ∧ m.fetchEP > 0 ∧ m.eventEP > 0 then
        some { m with devDescr := dd, ifaceDescr := a, dev := d.Ref,
                      configValue := cdecs.ConfigurationValue }
      else scanAltSettings d dd cdecs rest

/-- Loop over the interfaces of one configuration. -/
def scanInterfaces (d : UsbDevice) (dd : DeviceDescriptor) (cdecs : ConfigDescriptor) :
    List Interface → Option Device
  | [] => none
  | iface :: rest =>
    match scanAltSettings d dd cdecs iface.AltSetting with
    | some m => some m
    | none => scanInterfaces d dd cdecs rest

/-- What a scan of one device leaves behind: the candidate if there is one,
the configuration indexes passed to GetConfigDescriptor in call order, and
the device with its reference count after the scan. -/
structure ScanResult where
  cand : Option Device
  fetched : List Nat
  dev : UsbDevice

/-- Loop over the configuration indexes still to visit; fetched holds the
indexes already retrieved. -/
def scanConfigs (d : UsbDevice) (dd : DeviceDescriptor) :
    List Nat → List Nat → ScanResult
  | [], fetched => ⟨none, fetched, d⟩
  | i :: rest, fetched =>
    match d.GetConfigDescriptor i with
    | .error _ => ⟨none, fetched ++ [i], d⟩
    | .ok cdecs =>
      match scanInterfaces d dd cdecs cdecs.Interfaces with
      | some m => ⟨some m, fetched ++ [i], m.dev⟩
      | none => scanConfigs d dd rest (fetched ++ [i])

/-- The scanner: candidateFromDeviceDescriptor of select.go. -/
def candidateFromDeviceDescriptor (d : UsbDevice) : ScanResult :=
  match d.GetDeviceDescriptor with
  | .error _ => ⟨none, [], d⟩
  | .ok dd => scanConfigs d dd (List.range dd.NumConfigurations) []

/-! ## Shapes of alt-settings -/

/-- The test the scanner applies to an alt-setting: three endpoints, and
after the loop over them all three address fields are set. -/
def rolesFilled (a : InterfaceDescriptor) : Bool :=
  a.EndPoints.length == 3 &&
    (decide ((a.EndPoints.foldl assignEndpoint {}).sendEP > 0) &&
      (decide ((a.EndPoints.foldl assignEndpoint {}).fetchEP > 0) &&
        decide ((a.EndPoints.foldl assignEndpoint {}).eventEP > 0)))

/-- The shape named by the specification: exactly three endpoints, of which
exactly one is interrupt-in, one is bulk-in and one is bulk-out. -/
def hasMtpShape (a : InterfaceDescriptor) : Bool :=
  a.EndPoints.length == 3 &&
    (a.EndPoints.countP isInterruptIn == 1 &&
      (a.EndPoints.countP isBulkIn == 1 && a.EndPoints.countP isBulkOut == 1))

/-- No bulk-out endpoint of the alt-setting has the address zero. -/
def sendAddressSet (a : InterfaceDescriptor) : Bool :=
  a.EndPoints.all (fun s => !isBulkOut s || s.EndpointAddress != 0)

/-! ## The scan as a search for the first accepted alt-setting -/

/-- The candidate the scanner builds from an alt-setting it accepts. -/
def buildCandidate (d : UsbDevice) (dd : DeviceDescriptor) (cdecs : ConfigDescriptor)
    (a : InterfaceDescriptor) : Device :=
  { a.EndPoints.foldl assignEndpoint {} with
    devDescr := dd, ifaceDescr := a, dev := d.Ref,
    configValue := cdecs.ConfigurationValue }

/-- The alt-settings of a configuration, interface by interface. -/
def altSettingsOf (cdecs : ConfigDescriptor) : List InterfaceDescriptor :=
  cdecs.Interfaces.flatMap (fun iface => iface.AltSetting)

/-- The alt-settings of the configuration at an index, each with the index
and the configuration it belongs to; none when the configuration descriptor
cannot be retrieved. -/
def altSettingsAt (d : UsbDevice) (i : Nat) :
    List (Nat × ConfigDescriptor × InterfaceDescriptor) :=
  match d.GetConfigDescriptor i with
  | .ok cdecs => (altSettingsOf cdecs).map (fun a => (i, cdecs, a))
  | .error _ => []

/-- All alt-settings of a device in configuration-index, then interface, then
alt-setting order. -/
def allAltSettings (d : UsbDevice) (dd : DeviceDescriptor) :
    List (Nat × ConfigDescriptor × InterfaceDescriptor) :=
  (List.range dd.NumConfigurations).flatMap (altSettingsAt d)

/-- The first alt-setting, in scan order, that passes a test. -/
def firstAltSetting (good : InterfaceDescriptor → Bool) (d : UsbDevice)
    (dd : DeviceDescriptor) : Option (Nat × ConfigDescriptor × InterfaceDescriptor) :=
  (allAltSettings d dd).find? (fun x => good x.2.2)

/-- Some alt-setting of some interface of some configuration of the device
passes a test. -/
def SomeAltSetting (good : InterfaceDescriptor → Bool) (d : UsbDevice)
    (dd : DeviceDescriptor) : Prop :=
  ∃ i cdecs iface a, i < dd.NumConfigurations ∧ d.GetConfigDescriptor i = .ok cdecs ∧
    iface ∈ cdecs.Interfaces ∧ a ∈ iface.AltSetting ∧ good a = true

/-- The shape of the specification together with a non-zero bulk-out address. -/
def hasUsableShape (a : InterfaceDescriptor) : Bool :=
  hasMtpShape a && sendAddressSet a

/-! ## Sample descriptor trees -/

/-- An alt-setting with a bulk-in, a bulk-out and an interrupt-in endpoint. -/
def mtpAlt : InterfaceDescriptor :=
  { InterfaceNumber := 0, AlternateSetting := 1, InterfaceClass := 6,
    EndPoints := [⟨0x81, 2⟩, ⟨0x02, 2⟩, ⟨0x83, 3⟩] }

/-- An alt-setting with one endpoint of each kind whose bulk-out endpoint has
the address zero. -/
def zeroSendAlt : InterfaceDescriptor :=
  { InterfaceNumber := 0, AlternateSetting := 0, InterfaceClass := 6,
    EndPoints := [⟨0x81, 3⟩, ⟨0x82, 2⟩, ⟨0x00, 2⟩] }

/-- A device descriptor announcing one configuration. -/
def oneConfigDescr : DeviceDescriptor :=
  { IdVendor := 0x04e8, IdProduct := 0x6860, NumConfigurations := 1 }

/-- A configuration whose only interface has the alt-settings given. -/
def configOf (alts : List InterfaceDescriptor) : ConfigDescriptor :=
  { ConfigurationValue := 1, Interfaces := [{ AltSetting := alts }] }

/-- A device whose only alt-setting is mtpAlt. -/
def mtpDevice : UsbDevice :=
  { descr := .ok oneConfigDescr, configs := [.ok (configOf [mtpAlt])], refs := 1 }

/-- A device whose only alt-setting is zeroSendAlt. -/
def zeroSendDevice : UsbDevice :=
  { descr := .ok oneConfigDescr, configs := [.ok (configOf [zeroSendAlt])], refs := 1 }

/-- A device with the alt-settings zeroSendAlt and mtpAlt, in this order. -/
def twoAltDevice : UsbDevice :=
  { descr := .ok oneConfigDescr, configs := [.ok (configOf [zeroSendAlt, mtpAlt])],
    refs := 1 }

/-! ## Package regexp -/

/-- A compiled regular expression of package regexp, given by what a search
computes: the text of the leftmost match of the expression in a string, or
nothing when the expression matches nowhere in it. -/
structure Regexp where
  leftmost : String → Option String

/-- FindString returns the text of the leftmost match, and the empty string
when there is no match. -/
def Regexp.FindString (re : Regexp) (s : String) : String :=
  (re.leftmost s).getD ""

/-- MatchString reports whether the expression matches some substring. -/
def Regexp.MatchString (re : Regexp) (s : String) : Bool :=
  (re.leftmost s).isSome

/-! ## Methods of Device and of its handle -/

/-- Modelled from the spec: Device.Open of mtp.go acquires a handle on the
device; when the device cannot be opened it returns the error and leaves the
handle unset. -/
def Device.Open (d : Device) : Device × Option String :=
  match d.dev.openErr with
  | some err => (d, some err)
  | none => ({ d with opened := true }, none)

/-- Modelled from the spec: Device.Close of mtp.go closes the handle. -/
def Device.Close (d : Device) : Device :=
  { d with opened := false }

/-- Modelled from the spec: Device.Done of mtp.go releases the reference the
candidate holds on the underlying device. -/
def Device.Done (d : Device) : Device :=
  { d with dev := d.dev.Unref }

/-- Modelled from the spec: Device.ID of mtp.go retrieves the identity string
of an opened device, or fails. -/
def Device.ID (d : Device) : Except String String :=
  d.dev.idRes

/-- GetConfiguration on the handle: the active configuration, or an error. -/
def Device.GetConfiguration (d : Device) : Except String Nat :=
  match d.dev.getConfigErr with
  | some err => .error err
  | none => .ok d.dev.config

/-- SetConfiguration on the handle: makes the value the active configuration,
or fails and leaves the device as it is. -/
def Device.SetConfiguration (d : Device) (v : Nat) : Device × Option String :=
  match d.dev.setConfigErr with
  | some err => (d, some err)
  | none => ({ d with dev := { d.dev with config := v } }, none)

/-! ## Heap and trace -/

deriving instance DecidableEq for Except

/-- The calls select.go makes on a candidate or on its handle. -/
inductive Call where
  | Open
  | ID
  | Filter
  | Close
  | Done
  | GetConfiguration
  | SetConfiguration (v : Nat)
  deriving DecidableEq, Repr

/-- One call, with the address of the candidate it is made on. -/
structure Event where
  cand : Nat
  call : Call
  deriving DecidableEq, Repr

/-- The heap: the Device record behind every address. -/
abbrev Heap := Nat → Device

/-- Store a Device record at an address. -/
def Heap.set (h : Heap) (p : Nat) (d : Device) : Heap :=
  fun q => if q = p then d else h q

/-- The heap together with the calls made so far, oldest first. -/
structure World where
  heap : Heap
  trace : List Event

/-- Record a call that leaves the heap as it is. -/
def World.log (w : World) (p : Nat) (c : Call) : World :=
  ⟨w.heap, w.trace ++ [⟨p, c⟩]⟩

/-- Record a call and store the record it leaves at the address. -/
def World.call (w : World) (p : Nat) (c : Call) (d : Device) : World :=
  ⟨w.heap.set p d, w.trace ++ [⟨p, c⟩]⟩

/-- The call cand.Open(). -/
def World.Open (w : World) (cand : Nat) : World × Option String :=
  (w.call cand .Open (w.heap cand).Open.1, (w.heap cand).Open.2)

/-- The call cand.Close(). -/
def World.Close (w : World) (cand : Nat) : World :=
  w.call cand .Close (w.heap cand).Close

/-- The call cand.Done(). -/
def World.Done (w : World) (cand : Nat) : World :=
  w.call cand .Done (w.heap cand).Done

/-- The call cand.ID(). -/
def World.ID (w : World) (cand : Nat) : World × Except String String :=
  (w.log cand .ID, (w.heap cand).ID)

/-- The call cand.h.GetConfiguration(). -/
def World.GetConfiguration (w : World) (cand : Nat) : World × Except String Nat :=
  (w.log cand .GetConfiguration, (w.heap cand).GetConfiguration)

/-- The call cand.h.SetConfiguration(v). -/
def World.SetConfiguration (w : World) (cand : Nat) (v : Nat) : World × Option String :=
  (w.call cand (.SetConfiguration v) ((w.heap cand).SetConfiguration v).1,
    ((w.heap cand).SetConfiguration v).2)

/-! ## Errors of selection -/

/-- The errors selectDevice and selectDeviceByFilter return, one constructor
for each place an error is made, carrying the values its message is built
from. -/
inductive SelectError where
  /-- the error of regexp.Compile, returned as it is -/
  | compile (err : String)
  /-- no candidate could be opened -/
  | noDevicesFound
  /-- the identity of the opened candidate at an index could not be retrieved -/
  | idDev (i : Nat) (err : String)
  /-- no opened candidate was kept -/
  | noDeviceMatched
  /-- pattern mode: more than one candidate was kept; ids are their identities -/
  | moreThanOne (ids : List String)
  /-- predicate mode: more than one candidate was kept -/
  | moreThanOneByFilter
  /-- pattern mode: GetConfiguration failed -/
  | getConfiguration (id : String) (err : String)
  /-- predicate mode: GetConfiguration failed -/
  | getConfigurationByFilter (err : String)
  /-- pattern mode: SetConfiguration failed -/
  | setConfiguration (id : String) (err : String)
  /-- predicate mode: SetConfiguration failed on the candidate at an address -/
  | setConfigurationByFilter (cand : Nat) (err : String)
  /-- the error of FindDevices, returned as it is by the exported functions -/
  | findDevices (err : String)
  deriving DecidableEq, Repr

/-- The message of an error.  The last message names the candidate by its
address, where the source prints the Device record. -/
def SelectError.Error : SelectError → String
  | .compile err => err
  | .noDevicesFound => "no MTP devices found"
  | .idDev i err => "Id dev " ++ toString i ++ ": " ++ err
  | .noDeviceMatched => "no device matched"
  | .moreThanOne ids => "mtp: more than 1 device: " ++ ",".intercalate ids
  | .moreThanOneByFilter => "mtp: more than 1 device"
  | .getConfiguration id err => "could not get configuration of " ++ id ++ ": " ++ err
  | .getConfigurationByFilter err => "could not get configuration, " ++ err
  | .setConfiguration id err => "could not set configuration of " ++ id ++ ": " ++ err
  | .setConfigurationByFilter cand err =>
    "could not set configuration of " ++ toString cand ++ ": " ++ err
  | .findDevices err => err

/-- What a selection returns: the address of the selected device or an error,
and the heap and trace it leaves. -/
structure SelectResult where
  ret : Except SelectError Nat
  world : World

/-! ## selectDevice -/

/-- First loop of selectDevice and of selectDeviceByFilter: open every
candidate and collect in found those that opened. -/
def openLoop (w : World) (found : List Nat) : List Nat → World × List Nat
  | [] => (w, found)
  | cand :: rest =>
    match (w.Open cand).2 with
    | some _ => openLoop (w.Open cand).1 found rest
    | none => openLoop (w.Open cand).1 (found ++ [cand]) rest

/-- The test of selectDevice on an identity string. -/
def patternMatches (pattern : String) (re : Regexp) (id : String) : Bool :=
  pattern == "" || re.FindString id != ""

/-- Second loop of selectDevice, at index i of the opened candidates: retrieve
the identity, keep the candidate and its identity when the test passes, close
and release it otherwise; fail on the first identity that cannot be
retrieved. -/
def matchLoop (pattern : String) (re : Regexp) :
    World → List Nat → List String → Nat → List Nat →
      World × Except SelectError (List Nat × List String)
  | w, found, ids, _, [] => (w, .ok (found, ids))
  | w, found, ids, i, cand :: rest =>
    match (w.ID cand).2 with
    | .error err => ((w.ID cand).1, .error (.idDev i err))
    | .ok id =>
      if patternMatches pattern re id then
        matchLoop pattern re (w.ID cand).1 (found ++ [cand]) (ids ++ [id]) (i + 1) rest
      else
        matchLoop pattern re (((w.ID cand).1.Close cand).Done cand) found ids (i + 1) rest

/-- The loop that closes and releases every candidate of a list. -/
def closeAll (w : World) : List Nat → World
  | [] => w
  | cand :: rest => closeAll ((w.Close cand).Done cand) rest

/-- Lines 132 to 157 of select.go: what selectDevice does with the candidates
its second loop kept, found, and their identities, ids. -/
def finishSelect (w : World) (found : List Nat) (ids : List String) : SelectResult :=
  if found.length = 0 then ⟨.error .noDeviceMatched, w⟩
  else if found.length > 1 then ⟨.error (.moreThanOne ids), closeAll w found⟩
  else
    let cand := found.headD 0
    let g := w.GetConfiguration cand
    match g.2 with
    | .error err => ⟨.error (.getConfiguration (ids.headD "") err), g.1⟩
    | .ok config =>
      if config ≠ (g.1.heap cand).configValue then
        let s := g.1.SetConfiguration cand (g.1.heap cand).configValue
        match s.2 with
        | some err => ⟨.error (.setConfiguration (ids.headD "") err), s.1⟩
        | none => ⟨.ok (found.headD 0), s.1⟩
      else ⟨.ok (found.headD 0), g.1⟩

/-- The function selectDevice of select.go; compile stands for
regexp.Compile. -/
def selectDevice (compile : String → Except String Regexp) (w : World)
    (cands : List Nat) (pattern : String) : SelectResult :=
  match compile pattern with
  | .error err => ⟨.error (.compile err), w⟩
  | .ok re =>
    let o := openLoop w [] cands
    if o.2.length = 0 then ⟨.error .noDevicesFound, o.1⟩
    else
      let r := matchLoop pattern re o.1 [] [] 0 o.2
      match r.2 with
      | .error e => ⟨.error e, r.1⟩
      | .ok (found, ids) => finishSelect r.1 found ids

/-! ## selectDeviceByFilter -/

/-- The type Filter of select.go; the nil filter is none. -/
abbrev Filter := Device → Bool

/-- Second loop of selectDeviceByFilter: keep the candidates for which the
filter is set and returns true, close and release the others. -/
def filterLoop (filter : Option Filter) (w : World) (found : List Nat) :
    List Nat → World × List Nat
  | [] => (w, found)
  | cand :: rest =>
    match filter with
    | some f =>
      if f (w.heap cand) then filterLoop filter (w.log cand .Filter) (found ++ [cand]) rest
      else filterLoop filter (((w.log cand .Filter).Close cand).Done cand) found rest
    | none => filterLoop filter ((w.Close cand).Done cand) found rest

/-- Lines 185 to 209 of select.go: what selectDeviceByFilter does with the
candidates its second loop kept. -/
def finishSelectByFilter (w : World) (found : List Nat) : SelectResult :=
  if found.length = 0 then ⟨.error .noDeviceMatched, w⟩
  else if found.length > 1 then ⟨.error .moreThanOneByFilter, closeAll w found⟩
  else
    let cand := found.headD 0
    let g := w.GetConfiguration cand
    match g.2 with
    | .error err => ⟨.error (.getConfigurationByFilter err), g.1⟩
    | .ok config =>
      if config ≠ (g.1.heap cand).configValue then
        let s := g.1.SetConfiguration cand (g.1.heap cand).configValue
        match s.2 with
        | some err => ⟨.error (.setConfigurationByFilter cand err), s.1⟩
        | none => ⟨.ok cand, s.1⟩
      else ⟨.ok cand, g.1⟩

/-- The function selectDeviceByFilter of select.go. -/
def selectDeviceByFilter (w : World) (cands : List Nat) (filter : Option Filter)
    (debug : Bool) : SelectResult :=
  let o := openLoop w [] cands
  if o.2.length = 0 then ⟨.error .noDevicesFound, o.1⟩
  else
    let r := filterLoop filter o.1 [] o.2
    finishSelectByFilter r.1 r.2

/-! ## Vocabulary of the theorems on selection -/

/-- The device can be opened. -/
def canOpen (d : Device) : Bool :=
  d.dev.openErr.isNone

/-- The identity string of a device whose identity can be retrieved. -/
def idOf (d : Device) : String :=
  match d.ID with
  | .ok id => id
  | .error _ => ""

/-- The calls made on a candidate that is closed and released. -/
def releaseCalls (p : Nat) : List Event :=
  [⟨p, .Close⟩, ⟨p, .Done⟩]

/-- The calls the second loop of selectDevice makes on a candidate. -/
def matchCalls (k : Nat → Bool) (p : Nat) : List Event :=
  if k p then [⟨p, .ID⟩] else ⟨p, .ID⟩ :: releaseCalls p

/-- The calls the second loop of selectDeviceByFilter makes on a candidate when
the filter is set. -/
def filterCalls (k : Nat → Bool) (p : Nat) : List Event :=
  if k p then [⟨p, .Filter⟩] else ⟨p, .Filter⟩ :: releaseCalls p

/-- The candidates that can be opened, in the order of the list. -/
def openedCands (h : Heap) (cands : List Nat) : List Nat :=
  cands.filter (fun p => canOpen (h p))

/-- The opened candidates whose identity passes the test of selectDevice. -/
def keptCands (pattern : String) (re : Regexp) (h : Heap) (cands : List Nat) : List Nat :=
  (openedCands h cands).filter (fun p => patternMatches pattern re (idOf (h p)))

/-- What the second loop of selectDeviceByFilter decides on a candidate: the
filter is set and returns true on the candidate as Open left it. -/
def filterKeeps (filter : Option Filter) (h : Heap) (p : Nat) : Bool :=
  match filter with
  | some f => f (h p).Open.1
  | none => false

/-- The opened candidates the filter keeps. -/
def keptByFilter (filter : Option Filter) (h : Heap) (cands : List Nat) : List Nat :=
  (openedCands h cands).filter (filterKeeps filter h)

/-- The identity of every candidate that can be opened can be retrieved. -/
def IdsRetrievable (h : Heap) (cands : List Nat) : Prop :=
  ∀ p ∈ cands, canOpen (h p) = true → (h p).ID = .ok (idOf (h p))

instance (h : Heap) (cands : List Nat) : Decidable (IdsRetrievable h cands) := by
  unfold IdsRetrievable
  infer_instance

/-- The world after the first loop of a selection. -/
def afterOpen (w : World) (cands : List Nat) : World :=
  (openLoop w [] cands).1

/-- The world after the second loop of selectDevice. -/
def afterMatch (pattern : String) (re : Regexp) (w : World) (cands : List Nat) : World :=
  (matchLoop pattern re (openLoop w [] cands).1 [] [] 0 (openLoop w [] cands).2).1

/-- The world after the second loop of selectDeviceByFilter. -/
def afterFilter (filter : Option Filter) (w : World) (cands : List Nat) : World :=
  (filterLoop filter (openLoop w [] cands).1 [] (openLoop w [] cands).2).1

/-- A candidate has been closed and released: its handle is unset and it holds
one reference less than before. -/
def ClosedAndReleased (before after : Device) : Prop :=
  after.opened = false ∧ after.dev.refs = before.dev.refs - 1

instance (before after : Device) : Decidable (ClosedAndReleased before after) := by
  unfold ClosedAndReleased
  infer_instance

/-! ## A sample regular-expression library and sample heaps -/

/-- Leftmost occurrence of a text in a string, both as lists of characters. -/
def findLiteral (t : List Char) : List Char → Option (List Char)
  | [] => if t.isPrefixOf [] then some t else none
  | c :: s => if t.isPrefixOf (c :: s) then some t else findLiteral t s

/-- The expression that matches a text literally. -/
def literal (t : String) : Regexp :=
  ⟨fun s => (findLiteral t.toList s.toList).map String.mk⟩

/-- The expression c*: its leftmost match starts at the first position and is
the longest run of c there, which may be empty. -/
def star (c : Char) : Regexp :=
  ⟨fun s => some (String.mk (s.toList.takeWhile (fun x => x == c)))⟩

/-- The characters with a special meaning in a pattern. -/
def metaChars : List Char :=
  "\\.+*?()|[]\x7b\x7d^$".toList

/-- A regexp.Compile for the patterns of the examples: x* compiles to the
star of x, a pattern without special characters matches literally, and every
other pattern is refused, as the unclosed bracket is. -/
def sampleCompile (p : String) : Except String Regexp :=
  if p = "x*" then .ok (star 'x')
  else if p.toList.any (fun c => metaChars.contains c) then .error "error parsing regexp"
  else .ok (literal p)

/-- A device record as the scanner leaves it, with the answers of its device. -/
def sampleDevice (id : Except String String) (openErr : Option String) (config : Nat)
    (configValue : Nat) : Device :=
  { dev := { idRes := id, openErr := openErr, config := config, refs := 1 },
    configValue := configValue }

/-- Three candidates: at address 0 a phone in configuration 2 that requires
configuration 1, at address 1 a tablet in its required configuration, at
address 2 a device that cannot be opened. -/
def sampleHeap : Heap := fun p =>
  if p = 0 then sampleDevice (.ok "Samsung Galaxy") none 2 1
  else if p = 1 then sampleDevice (.ok "Google Nexus") none 1 1
  else if p = 2 then sampleDevice (.ok "Locked") (some "access denied") 1 1
  else {}

/-- Configuration negotiation on the device succeeds: the query answers, and
when the active configuration differs from the required one the set call
succeeds. -/
def configurable (d : Device) : Bool :=
  d.dev.getConfigErr.isNone && (d.dev.config == d.configValue || d.dev.setConfigErr.isNone)

/-- One candidate whose configuration cannot be queried. -/
def stalledHeap : Heap := fun p =>
  if p = 0 then
    { dev := { idRes := .ok "Samsung Galaxy", getConfigErr := some "pipe error",
               config := 2, refs := 1 },
      configValue := 1 }
  else {}

/-- The SetConfiguration calls of a trace, each with the candidate it is made
on and its argument. -/
def setConfigurationCalls (t : List Event) : List (Nat × Nat) :=
  t.filterMap (fun e =>
    match e.call with
    | .SetConfiguration v => some (e.cand, v)
    | _ => none)

/-- What configuration negotiation on the candidate c does between the world w
and the world after: when the active configuration equals the required value
no SetConfiguration call is added; when it differs exactly one is added, on c
and with the required value as argument, and when that call succeeds the
active configuration of c becomes the required value. -/
def Negotiated (w : World) (c : Nat) (after : World) : Prop :=
  ((w.heap c).dev.config = (w.heap c).configValue →
    setConfigurationCalls after.trace = setConfigurationCalls w.trace ∧
    (after.heap c).dev.config = (w.heap c).configValue) ∧
  ((w.heap c).dev.config ≠ (w.heap c).configValue →
    setConfigurationCalls after.trace
      = setConfigurationCalls w.trace ++ [(c, (w.heap c).configValue)] ∧
    ((w.heap c).dev.setConfigErr = none →
      (after.heap c).dev.config = (w.heap c).configValue))

/-- One candidate in configuration 2 that requires configuration 1. -/
def phoneHeap : Heap := fun p =>
  if p = 0 then sampleDevice (.ok "Samsung Galaxy") none 2 1 else {}

/-- The filter that keeps the devices whose active configuration is 2. -/
def inSecondConfiguration : Filter :=
  fun d => d.dev.config == 2

/-- The places at which a selection returns. -/
inductive Branch where
  | compileError
  | noDevicesFound
  | identifyFailed
  | noDeviceMatched
  | moreThanOne
  | configurationFailed
  | success (cand : Nat)
  | findDevicesFailed
  deriving DecidableEq, Repr

/-- The branch a selection took, read off what it returned. -/
def branchOf : Except SelectError Nat → Branch
  | .ok cand => .success cand
  | .error (.compile _) => .compileError
  | .error .noDevicesFound => .noDevicesFound
  | .error (.idDev _ _) => .identifyFailed
  | .error .noDeviceMatched => .noDeviceMatched
  | .error (.moreThanOne _) => .moreThanOne
  | .error .moreThanOneByFilter => .moreThanOne
  | .error (.getConfiguration _ _) => .configurationFailed
  | .error (.getConfigurationByFilter _) => .configurationFailed
  | .error (.setConfiguration _ _) => .configurationFailed
  | .error (.setConfigurationByFilter _ _) => .configurationFailed
  | .error (.findDevices _) => .findDevicesFailed

/-- The calls of a trace that act on a handle or a reference: all but the
identity queries and the calls of the filter. -/
def handleCalls (t : List Event) : List Event :=
  t.filter (fun e => e.call != .ID && e.call != .Filter)

/-- The filter that applies the test of selectDevice to the identity of the
device. -/
def patternFilter (pattern : String) (re : Regexp) : Filter :=
  fun d => patternMatches pattern re (idOf d)

/-- Two candidates that open; the identity of the second cannot be
retrieved. -/
def muteHeap : Heap := fun p =>
  if p = 0 then sampleDevice (.ok "Samsung Galaxy") none 1 1
  else if p = 1 then sampleDevice (.error "stall") none 1 1
  else {}

/-! ## Sample devices with a configuration that cannot be retrieved -/

/-- A device descriptor announcing two configurations. -/
def twoConfigDescr : DeviceDescriptor :=
  { IdVendor := 0x04e8, IdProduct := 0x6860, NumConfigurations := 2 }

/-- A device whose first configuration holds mtpAlt and whose second
configuration descriptor cannot be retrieved. -/
def laterConfigLostDevice : UsbDevice :=
  { descr := .ok twoConfigDescr,
    configs := [.ok (configOf [mtpAlt]), .error "pipe error"], refs := 1 }

/-- A device whose first configuration holds only zeroSendAlt and whose second
configuration descriptor cannot be retrieved. -/
def lostConfigDevice : UsbDevice :=
  { descr := .ok twoConfigDescr,
    configs := [.ok (configOf [zeroSendAlt]), .error "pipe error"], refs := 1 }

/-! ## FindDevices -/

/-- A context of package usb, given by the answer of GetDeviceList: the
attached devices, the reference the list holds on each of them counted in its
refs, or an error. -/
structure Context where
  deviceList : Except String (List UsbDevice)

/-- Answer of GetDeviceList. -/
def Context.GetDeviceList (c : Context) : Except String (List UsbDevice) :=
  c.deviceList

/-- Answer of GetBusNumber. -/
def UsbDevice.GetBusNumber (d : UsbDevice) : Nat :=
  d.busNumber

/-- Answer of GetDevicePath. -/
def UsbDevice.GetDevicePath (d : UsbDevice) : List Nat :=
  d.devicePath

/-- Done of a device list gives back the reference the list holds on each of
its devices. -/
def DeviceList.Done (l : List UsbDevice) : List UsbDevice :=
  l.map UsbDevice.Unref

/-- A candidate shares its device with the device list, so the release of the
list shows in the reference count seen through the candidate. -/
def Device.afterListDone (m : Device) : Device :=
  { m with dev := m.dev.Unref }

/-- Loop of FindDevices over the device list: cands collects the candidates,
seen the devices as their scan leaves them. -/
def findLoop : List UsbDevice → List Device → List UsbDevice → List Device × List UsbDevice
  | [], cands, seen => (cands, seen)
  | d :: rest, cands, seen =>
    let busNumber := d.GetBusNumber
    let paths := d.GetDevicePath
    match (candidateFromDeviceDescriptor d).cand with
    | some cand =>
      findLoop rest (cands ++ [{ cand with busNum := busNumber, path := paths }])
        (seen ++ [(candidateFromDeviceDescriptor d).dev])
    | none => findLoop rest cands (seen ++ [(candidateFromDeviceDescriptor d).dev])

/-- What FindDevices leaves behind: the candidates or the error, the listed
devices as the call leaves them, and whether Done was called on the list. -/
structure FindResult where
  ret : Except String (List Device)
  devices : List UsbDevice
  released : Bool

/-- The function FindDevices of select.go. -/
def FindDevices (c : Context) : FindResult :=
  match c.GetDeviceList with
  | .error err => ⟨.error err, [], false⟩
  | .ok l =>
    if l.length > 0 then
      ⟨.ok ((findLoop l [] []).1.map Device.afterListDone),
        DeviceList.Done (findLoop l [] []).2, true⟩
    else ⟨.ok (findLoop l [] []).1, (findLoop l [] []).2, false⟩

/-- The candidate FindDevices makes of one listed device: the candidate of the
scanner with the bus number and the path of the device. -/
def foundCandidate (d : UsbDevice) : Option Device :=
  (candidateFromDeviceDescriptor d).cand.map
    (fun cand => { cand with busNum := d.GetBusNumber, path := d.GetDevicePath })

/-- A plain device without MTP interface. -/
def plainDevice : UsbDevice :=
  { descr := .ok oneConfigDescr,
    configs := [.ok (configOf [{ InterfaceClass := 3, EndPoints := [⟨0x81, 3⟩] }])],
    busNumber := 1, devicePath := [2], refs := 1 }

/-- The device mtpDevice at port 1 of the hub at port 4 of bus 1. -/
def busMtpDevice : UsbDevice :=
  { mtpDevice with busNumber := 1, devicePath := [4, 1] }

/-- A bus with a plain device and an MTP device. -/
def sampleBus : Context :=
  { deviceList := .ok [plainDevice, busMtpDevice] }

/-- A bus without devices. -/
def emptyBus : Context :=
  { deviceList := .ok [] }

/-- A bus whose device list cannot be retrieved. -/
def brokenBus : Context :=
  { deviceList := .error "no access" }

/-! ## Changes a selection cannot see -/

/-- A change of Device records that no call made by a selection can see: it
commutes with every call and leaves every answer and the required
configuration as they are. -/
structure Unseen (g : Device → Device) : Prop where
  open_fst : ∀ d, (g d).Open.1 = g d.Open.1
  open_snd : ∀ d, (g d).Open.2 = d.Open.2
  close : ∀ d, (g d).Close = g d.Close
  done : ∀ d, (g d).Done = g d.Done
  id : ∀ d, (g d).ID = d.ID
  getConfiguration : ∀ d, (g d).GetConfiguration = d.GetConfiguration
  setConfiguration_fst : ∀ d v, ((g d).SetConfiguration v).1 = g (d.SetConfiguration v).1
  setConfiguration_snd : ∀ d v, ((g d).SetConfiguration v).2 = (d.SetConfiguration v).2
  configValue : ∀ d, (g d).configValue = d.configValue

/-- A change of traces that commutes with the recording of a call. -/
def KeepsCalls (τ : List Event → List Event) : Prop :=
  ∀ t e, τ (t ++ [e]) = τ t ++ [e]

/-- A world seen through a change of its records and a change of its trace. -/
def World.view (g : Device → Device) (τ : List Event → List Event) (w : World) : World :=
  ⟨fun p => g (w.heap p), τ w.trace⟩

/-- The result of a selection with its world seen through such changes. -/
def SelectResult.view (g : Device → Device) (τ : List Event → List Event)
    (r : SelectResult) : SelectResult :=
  ⟨r.ret, r.world.view g τ⟩

/-- A Device record with its three debug flags cleared. -/
def eraseDebug (d : Device) : Device :=
  { d with USBDebug := false, DataDebug := false, MTPDebug := false }

/-! ## The exported functions -/

/-- The heap in which the candidates returned by FindDevices live: the
candidate at index p of the list is at address p. -/
def heapOf (devs : List Device) : Heap :=
  fun p => devs.getD p {}

/-- The addresses of the candidates returned by FindDevices, in list order. -/
def addressesOf (devs : List Device) : List Nat :=
  List.range devs.length

/-- The function SelectDevice of select.go; c stands for the context that
usb.NewContext returns. -/
def SelectDevice (compile : String → Except String Regexp) (c : Context)
    (pattern : String) (path : String) : SelectResult :=
  match (FindDevices c).ret with
  | .error err => ⟨.error (.findDevices err), ⟨heapOf [], []⟩⟩
  | .ok devs =>
    if devs.length = 0 then ⟨.error .noDevicesFound, ⟨heapOf devs, []⟩⟩
    else selectDevice compile ⟨heapOf devs, []⟩ (addressesOf devs) pattern

/-- The function SelectDeviceByFilter of select.go. -/
def SelectDeviceByFilter (c : Context) (filter : Option Filter) (debug : Bool) :
    SelectResult :=
  match (FindDevices c).ret with
  | .error err => ⟨.error (.findDevices err), ⟨heapOf [], []⟩⟩
  | .ok devs =>
    if devs.length = 0 then ⟨.error .noDevicesFound, ⟨heapOf devs, []⟩⟩
    else selectDeviceByFilter ⟨heapOf devs, []⟩ (addressesOf devs) filter debug

/-- The loop of SelectDeviceWithDebugging over the candidates, run when
allowDebugging is set. -/
def setDebugging (allowDebugging : Bool) (devs : List Device) : List Device :=
  if allowDebugging then
    devs.map (fun dev => { dev with USBDebug := allowDebugging, DataDebug := allowDebugging,
                                    MTPDebug := allowDebugging })
  else devs

/-- The function SelectDeviceWithDebugging of select.go. -/
def SelectDeviceWithDebugging (compile : String → Except String Regexp) (c : Context)
    (pattern : String) (allowDebugging : Bool) : SelectResult :=
  match (FindDevices c).ret with
  | .error err => ⟨.error (.findDevices err), ⟨heapOf [], []⟩⟩
  | .ok devs =>
    if devs.length = 0 then ⟨.error .noDevicesFound, ⟨heapOf devs, []⟩⟩
    else
      selectDevice compile ⟨heapOf (setDebugging allowDebugging devs), []⟩
        (addressesOf (setDebugging allowDebugging devs)) pattern

/-- The filter that rejects every device. -/
def rejectAll : Filter :=
  fun _ => false

/-- The calls a selection adds to the trace of the world it starts from. -/
def callsMade (w : World) (r : SelectResult) : List Event :=
  r.world.trace.drop w.trace.length

/-- One candidate whose configuration can be queried but not set. -/
def lockedHeap : Heap := fun p =>
  if p = 0 then
    { dev := { idRes := .ok "Samsung Galaxy", setConfigErr := some "busy",
               config := 2, refs := 1 },
      configValue := 1 }
  else {}

/-- Lines 109 to 157 of select.go: what selectDevice does, with the compiled
pattern, after its first loop has left the opened candidates in found. -/
def selectOpened (pattern : String) (re : Regexp) (w : World) (found : List Nat) :
    SelectResult :=
  if found.length = 0 then ⟨.error .noDevicesFound, w⟩
  else
    match (matchLoop pattern re w [] [] 0 found).2 with
    | .error e => ⟨.error e, (matchLoop pattern re w [] [] 0 found).1⟩
    | .ok (found2, ids) => finishSelect (matchLoop pattern re w [] [] 0 found).1 found2 ids

/-- Lines 168 to 209 of select.go: what selectDeviceByFilter does after its
first loop has left the opened candidates in found. -/
def selectOpenedByFilter (filter : Option Filter) (w : World) (found : List Nat) :
    SelectResult :=
  if found.length = 0 then ⟨.error .noDevicesFound, w⟩
  else finishSelectByFilter (filterLoop filter w [] found).1 (filterLoop filter w [] found).2

/-! # Theorems -/

/-! ## The scanner -/

theorem land_pos_of_eq_in (x : Nat) (h : x &&& 0x80 = 0x80) : 0 < x := by
  rcases Nat.eq_zero_or_pos x with h0 | h0
  · subst h0; simp at h
  · exact h0

theorem interruptIn_pos (s : EndpointDescriptor) (h : isInterruptIn s = true) :
    0 < s.EndpointAddress := by
  simp [isInterruptIn, EndpointDescriptor.Direction, ENDPOINT_IN, ENDPOINT_DIR_MASK] at h
  exact land_pos_of_eq_in _ h.1

theorem bulkIn_pos (s : EndpointDescriptor) (h : isBulkIn s = true) :
    0 < s.EndpointAddress := by
  simp [isBulkIn, EndpointDescriptor.Direction, ENDPOINT_IN, ENDPOINT_DIR_MASK] at h
  exact land_pos_of_eq_in _ h.1

theorem interruptIn_not_bulkIn (s : EndpointDescriptor) (h : isInterruptIn s = true) :
    isBulkIn s = false := by
  simp [isInterruptIn, isBulkIn, TRANSFER_TYPE_INTERRUPT, TRANSFER_TYPE_BULK] at h ⊢
  intro _; rw [h.2]; decide

theorem interruptIn_not_bulkOut (s : EndpointDescriptor) (h : isInterruptIn s = true) :
    isBulkOut s = false := by
  simp [isInterruptIn, isBulkOut, TRANSFER_TYPE_INTERRUPT, TRANSFER_TYPE_BULK] at h ⊢
  intro _; rw [h.2]; decide

theorem bulkIn_not_bulkOut (s : EndpointDescriptor) (h : isBulkIn s = true) :
    isBulkOut s = false := by
  simp [isBulkIn, isBulkOut, ENDPOINT_IN, ENDPOINT_OUT] at h ⊢
  intro h2; rw [h.1] at h2; exact absurd h2 (by decide)

/-- The three cases of the switch exclude one another, and an endpoint
towards the host has a non-zero address. -/
theorem role_cases (s : EndpointDescriptor) :
    (isInterruptIn s = true ∧ isBulkIn s = false ∧ isBulkOut s = false ∧
        s.EndpointAddress ≠ 0) ∨
    (isInterruptIn s = false ∧ isBulkIn s = true ∧ isBulkOut s = false ∧
        s.EndpointAddress ≠ 0) ∨
    (isInterruptIn s = false ∧ isBulkIn s = false ∧ isBulkOut s = true) ∨
    (isInterruptIn s = false ∧ isBulkIn s = false ∧ isBulkOut s = false) := by
  cases i : isInterruptIn s
  · cases b : isBulkIn s
    · cases o : isBulkOut s <;> simp
    · exact Or.inr (Or.inl ⟨rfl, rfl, bulkIn_not_bulkOut s b,
        Nat.pos_iff_ne_zero.mp (bulkIn_pos s b)⟩)
  · exact Or.inl ⟨rfl, interruptIn_not_bulkIn s i, interruptIn_not_bulkOut s i,
      Nat.pos_iff_ne_zero.mp (interruptIn_pos s i)⟩

theorem decide_eq_zero_beq (x : Nat) : decide (x = 0) = (x == 0) := by
  cases x <;> simp

theorem rolesFilled_eq (a : InterfaceDescriptor) :
    rolesFilled a = (hasMtpShape a && sendAddressSet a) := by
  unfold rolesFilled hasMtpShape sendAddressSet
  rcases h : a.EndPoints with _ | ⟨s1, _ | ⟨s2, _ | ⟨s3, _ | ⟨s4, r⟩⟩⟩⟩
  · rfl
  · have : (List.length [s1] == 3) = false := rfl
    rw [this]; rfl
  · have : (List.length [s1, s2] == 3) = false := rfl
    rw [this]; rfl
  · rcases role_cases s1 with ⟨i1, b1, o1, n1⟩ | ⟨i1, b1, o1, n1⟩ | ⟨i1, b1, o1⟩ | ⟨i1, b1, o1⟩ <;>
    rcases role_cases s2 with ⟨i2, b2, o2, n2⟩ | ⟨i2, b2, o2, n2⟩ | ⟨i2, b2, o2⟩ | ⟨i2, b2, o2⟩ <;>
    rcases role_cases s3 with ⟨i3, b3, o3, n3⟩ | ⟨i3, b3, o3, n3⟩ | ⟨i3, b3, o3⟩ | ⟨i3, b3, o3⟩ <;>
    simp [List.foldl, assignEndpoint, List.countP_cons, Nat.pos_iff_ne_zero, bne, *] <;>
    exact decide_eq_zero_beq _
  · have : (List.length (s1 :: s2 :: s3 :: s4 :: r) == 3) = false := by
      simp
    rw [this]; rfl

theorem scanAltSettings_eq (d : UsbDevice) (dd : DeviceDescriptor) (cdecs : ConfigDescriptor)
    (alts : List InterfaceDescriptor) :
    scanAltSettings d dd cdecs alts
      = (alts.find? rolesFilled).map (buildCandidate d dd cdecs) := by
  induction alts with
  | nil => rfl
  | cons a rest ih =>
    unfold scanAltSettings
    by_cases hlen : a.EndPoints.length = 3
    · by_cases hs : 0 < (a.EndPoints.foldl assignEndpoint {}).sendEP
      · by_cases hf : 0 < (a.EndPoints.foldl assignEndpoint {}).fetchEP
        · by_cases he : 0 < (a.EndPoints.foldl assignEndpoint {}).eventEP
          · have hr : rolesFilled a = true := by simp [rolesFilled, hlen, hs, hf, he]
            simp [hlen, hs, hf, he, hr, List.find?_cons, buildCandidate]
          · have hr : rolesFilled a = false := by simp [rolesFilled, he]
            simp [hlen, hs, hf, he, hr, List.find?_cons, ih]
        · have hr : rolesFilled a = false := by simp [rolesFilled, hf]
          simp [hlen, hs, hf, hr, List.find?_cons, ih]
      · have hr : rolesFilled a = false := by simp [rolesFilled, hs]
        simp [hlen, hs, hr, List.find?_cons, ih]
    · have hr : rolesFilled a = false := by simp [rolesFilled, hlen]
      simp [hlen, hr, List.find?_cons, ih]

theorem scanInterfaces_eq (d : UsbDevice) (dd : DeviceDescriptor) (cdecs : ConfigDescriptor)
    (ifaces : List Interface) :
    scanInterfaces d dd cdecs ifaces
      = ((ifaces.flatMap (fun iface => iface.AltSetting)).find? rolesFilled).map
          (buildCandidate d dd cdecs) := by
  induction ifaces with
  | nil => rfl
  | cons iface rest ih =>
    unfold scanInterfaces
    rw [scanAltSettings_eq, List.flatMap_cons, List.find?_append]
    cases h : iface.AltSetting.find? rolesFilled with
    | none => simp [ih]
    | some a => simp

theorem find_altSettingsAt_ok (d : UsbDevice) (i : Nat) (cdecs : ConfigDescriptor)
    (good : InterfaceDescriptor → Bool) (h : d.GetConfigDescriptor i = .ok cdecs) :
    (altSettingsAt d i).find? (fun x => good x.2.2)
      = ((altSettingsOf cdecs).find? good).map (fun a => (i, cdecs, a)) := by
  unfold altSettingsAt
  rw [h]
  simp only [List.find?_map]
  rfl

theorem scanConfigs_some (d : UsbDevice) (dd : DeviceDescriptor) (idxs : List Nat) :
    ∀ (f : List Nat) (m : Device), (scanConfigs d dd idxs f).cand = some m →
      ∃ pre i post cdecs a, idxs = pre ++ i :: post ∧
        (∀ j ∈ pre, ∃ cj, d.GetConfigDescriptor j = .ok cj ∧
            (altSettingsOf cj).find? rolesFilled = none) ∧
        d.GetConfigDescriptor i = .ok cdecs ∧
        (altSettingsOf cdecs).find? rolesFilled = some a ∧
        m = buildCandidate d dd cdecs a ∧
        (scanConfigs d dd idxs f).fetched = f ++ pre ++ [i] ∧
        (scanConfigs d dd idxs f).dev = d.Ref := by
  induction idxs with
  | nil => intro f m h; simp [scanConfigs] at h
  | cons i rest ih =>
    intro f m h
    unfold scanConfigs at h ⊢
    cases hc : d.GetConfigDescriptor i with
    | error e => rw [hc] at h; simp at h
    | ok cdecs =>
      rw [hc] at h
      simp only [] at h ⊢
      rw [scanInterfaces_eq] at h ⊢
      cases hf : (cdecs.Interfaces.flatMap (fun iface => iface.AltSetting)).find? rolesFilled with
      | some a =>
        rw [hf] at h
        simp only [Option.map_some'] at h ⊢
        refine ⟨[], i, rest, cdecs, a, rfl, ?_, hc, hf, ?_, ?_, ?_⟩
        · intro j hj; simp at hj
        · simpa using h.symm
        · simp
        · simp [buildCandidate]
      | none =>
        rw [hf] at h
        simp only [Option.map_none'] at h ⊢
        obtain ⟨pre, k, post, ck, a, hsplit, hpre, hk, hfind, hm, hfetched, hdev⟩ :=
          ih (f ++ [i]) m h
        refine ⟨i :: pre, k, post, ck, a, ?_, ?_, hk, hfind, hm, ?_, hdev⟩
        · simp [hsplit]
        · intro j hj
          rcases List.mem_cons.mp hj with rfl | hj
          · exact ⟨cdecs, hc, hf⟩
          · exact hpre j hj
        · simpa using hfetched

theorem scanConfigs_cand (d : UsbDevice) (dd : DeviceDescriptor) (idxs : List Nat)
    (hall : ∀ i ∈ idxs, ∃ cdecs, d.GetConfigDescriptor i = .ok cdecs) :
    ∀ f : List Nat, (scanConfigs d dd idxs f).cand
      = ((idxs.flatMap (altSettingsAt d)).find? (fun x => rolesFilled x.2.2)).map
          (fun x => buildCandidate d dd x.2.1 x.2.2) := by
  induction idxs with
  | nil => intro f; rfl
  | cons i rest ih =>
    intro f
    obtain ⟨cdecs, hc⟩ := hall i (List.mem_cons_self _ _)
    have hrest : ∀ j ∈ rest, ∃ cj, d.GetConfigDescriptor j = .ok cj :=
      fun j hj => hall j (List.mem_cons_of_mem _ hj)
    unfold scanConfigs
    rw [hc]
    simp only []
    rw [scanInterfaces_eq, List.flatMap_cons, List.find?_append,
      find_altSettingsAt_ok d i cdecs rolesFilled hc]
    cases hf : (cdecs.Interfaces.flatMap (fun iface => iface.AltSetting)).find? rolesFilled with
    | some a => simp [altSettingsOf, hf]
    | none => simp [altSettingsOf, hf, ih hrest]

theorem find_flatMap_split (d : UsbDevice) (good : InterfaceDescriptor → Bool)
    (pre post : List Nat) (i : Nat) (cdecs : ConfigDescriptor) (a : InterfaceDescriptor)
    (hpre : ∀ j ∈ pre, ∃ cj, d.GetConfigDescriptor j = .ok cj ∧
        (altSettingsOf cj).find? good = none)
    (hi : d.GetConfigDescriptor i = .ok cdecs)
    (ha : (altSettingsOf cdecs).find? good = some a) :
    ((pre ++ i :: post).flatMap (altSettingsAt d)).find? (fun x => good x.2.2)
      = some (i, cdecs, a) := by
  induction pre with
  | nil =>
    simp only [List.nil_append, List.flatMap_cons, List.find?_append]
    rw [find_altSettingsAt_ok d i cdecs good hi, ha]
    rfl
  | cons j rest ih =>
    obtain ⟨cj, hj, hnone⟩ := hpre j (List.mem_cons_self _ _)
    simp only [List.cons_append, List.flatMap_cons, List.find?_append]
    rw [find_altSettingsAt_ok d j cj good hj, hnone]
    simpa using ih (fun k hk => hpre k (List.mem_cons_of_mem _ hk))

theorem range_split (n i : Nat) (pre post : List Nat)
    (h : List.range n = pre ++ i :: post) : pre ++ [i] = List.range (i + 1) := by
  have hlen : pre.length < n := by
    have := congrArg List.length h
    simp at this
    omega
  have hi : i = pre.length := by
    have h1 : (List.range n)[pre.length]? = some i := by
      rw [h, List.getElem?_append_right (Nat.le_refl _)]; simp
    rw [List.getElem?_range hlen] at h1
    exact (Option.some.inj h1).symm
  have hpre : pre = List.range pre.length := by
    have h2 := congrArg (List.take pre.length) h
    rw [List.take_range] at h2
    simp at h2
    rw [Nat.min_eq_left (Nat.le_of_lt hlen)] at h2
    exact h2.symm
  rw [hi, List.range_succ]
  exact congrArg (fun l => l ++ [pre.length]) hpre

theorem mem_altSettingsOf (cdecs : ConfigDescriptor) (a : InterfaceDescriptor) :
    a ∈ altSettingsOf cdecs ↔ ∃ iface, iface ∈ cdecs.Interfaces ∧ a ∈ iface.AltSetting := by
  simp [altSettingsOf, List.mem_flatMap]

theorem mem_altSettingsAt (d : UsbDevice) (i : Nat)
    (x : Nat × ConfigDescriptor × InterfaceDescriptor) :
    x ∈ altSettingsAt d i ↔
      x.1 = i ∧ d.GetConfigDescriptor i = .ok x.2.1 ∧ x.2.2 ∈ altSettingsOf x.2.1 := by
  obtain ⟨j, c, a⟩ := x
  unfold altSettingsAt
  cases h : d.GetConfigDescriptor i with
  | error e => simp
  | ok cdecs =>
    simp only [List.mem_map, Prod.mk.injEq, Except.ok.injEq]
    constructor
    · rintro ⟨b, hb, rfl, rfl, rfl⟩
      exact ⟨rfl, rfl, hb⟩
    · rintro ⟨rfl, rfl, hb⟩
      exact ⟨a, hb, rfl, rfl, rfl⟩

theorem find_allAltSettings_isSome (good : InterfaceDescriptor → Bool) (d : UsbDevice)
    (dd : DeviceDescriptor) :
    (firstAltSetting good d dd).isSome = true ↔ SomeAltSetting good d dd := by
  unfold firstAltSetting allAltSettings SomeAltSetting
  rw [List.find?_isSome]
  constructor
  · rintro ⟨⟨j, c, a⟩, hx, hg⟩
    obtain ⟨i, hi, hxi⟩ := List.mem_flatMap.mp hx
    obtain ⟨rfl, hc, ha⟩ := (mem_altSettingsAt d i _).mp hxi
    obtain ⟨iface, hif, hai⟩ := (mem_altSettingsOf _ _).mp ha
    exact ⟨j, c, iface, a, List.mem_range.mp hi, hc, hif, hai, hg⟩
  · rintro ⟨i, c, iface, a, hi, hc, hif, hai, hg⟩
    refine ⟨(i, c, a), List.mem_flatMap.mpr ⟨i, List.mem_range.mpr hi, ?_⟩, hg⟩
    exact (mem_altSettingsAt d i _).mpr ⟨rfl, hc, (mem_altSettingsOf _ _).mpr ⟨iface, hif, hai⟩⟩

theorem rolesFilled_eq_usable : rolesFilled = hasUsableShape :=
  funext rolesFilled_eq

/-- C1 (as amended): for a device whose device descriptor and all configuration
descriptors can be retrieved, the scanner returns a candidate exactly when some
alt-setting of some interface of some configuration has exactly three
endpoints, one interrupt-in, one bulk-in and one bulk-out, and the bulk-out
endpoint has a non-zero address. -/
theorem candidate_iff_usable_shape (d : UsbDevice) (dd : DeviceDescriptor)
    (hdd : d.GetDeviceDescriptor = .ok dd)
    (hall : ∀ i, i < dd.NumConfigurations → ∃ cdecs, d.GetConfigDescriptor i = .ok cdecs) :
    (candidateFromDeviceDescriptor d).cand.isSome = true ↔
      SomeAltSetting hasUsableShape d dd := by
  rw [← find_allAltSettings_isSome]
  unfold candidateFromDeviceDescriptor
  rw [hdd]
  simp only []
  rw [scanConfigs_cand d dd _ (fun i hi => hall i (List.mem_range.mp hi)),
    rolesFilled_eq_usable]
  unfold firstAltSetting allAltSettings
  cases ((List.range dd.NumConfigurations).flatMap (altSettingsAt d)).find?
    (fun x => hasUsableShape x.2.2) <;> simp

/-- Witness of C1: the theorem applied to a device with one matching alt-setting. -/
theorem candidate_iff_usable_shape_witness :
    mtpDevice.GetDeviceDescriptor = .ok oneConfigDescr ∧
    ((candidateFromDeviceDescriptor mtpDevice).cand.isSome = true ↔
      SomeAltSetting hasUsableShape mtpDevice oneConfigDescr) :=
  ⟨rfl, candidate_iff_usable_shape mtpDevice oneConfigDescr rfl (by
    intro i hi
    have h0 : i = 0 := by
      have : i < 1 := hi
      omega
    subst h0
    exact ⟨configOf [mtpAlt], rfl⟩)⟩

/-- C1 (as stated) fails: every descriptor of zeroSendDevice can be retrieved and
its alt-setting has exactly three endpoints, one interrupt-in, one bulk-in and
one bulk-out, but the scanner returns no candidate, because the bulk-out
endpoint has the address zero. -/
theorem candidate_iff_shape_fails :
    zeroSendDevice.GetDeviceDescriptor = .ok oneConfigDescr ∧
    (∀ i, i < oneConfigDescr.NumConfigurations →
      ∃ cdecs, zeroSendDevice.GetConfigDescriptor i = .ok cdecs) ∧
    SomeAltSetting hasMtpShape zeroSendDevice oneConfigDescr ∧
    (candidateFromDeviceDescriptor zeroSendDevice).cand.isSome = false := by
  refine ⟨rfl, ?_, ?_, by decide⟩
  · intro i hi
    have h0 : i = 0 := by
      have : i < 1 := hi
      omega
    subst h0
    exact ⟨configOf [zeroSendAlt], rfl⟩
  · exact ⟨0, configOf [zeroSendAlt], { AltSetting := [zeroSendAlt] }, zeroSendAlt,
      by decide, rfl, by simp [configOf], by simp, by decide⟩

theorem filled_addresses (a : InterfaceDescriptor) (h : rolesFilled a = true) :
    ∀ s ∈ a.EndPoints,
      (isInterruptIn s = true →
        (a.EndPoints.foldl assignEndpoint {}).eventEP = s.EndpointAddress) ∧
      (isBulkIn s = true →
        (a.EndPoints.foldl assignEndpoint {}).fetchEP = s.EndpointAddress) ∧
      (isBulkOut s = true →
        (a.EndPoints.foldl assignEndpoint {}).sendEP = s.EndpointAddress) := by
  unfold rolesFilled at h
  rcases hl : a.EndPoints with _ | ⟨s1, _ | ⟨s2, _ | ⟨s3, _ | ⟨s4, r⟩⟩⟩⟩
  · rw [hl] at h; simp at h
  · rw [hl] at h; simp at h
  · rw [hl] at h; simp at h
  · rw [hl] at h
    intro s hs
    simp only [List.mem_cons, List.mem_singleton, List.not_mem_nil, or_false] at hs
    rcases role_cases s1 with ⟨i1, b1, o1, n1⟩ | ⟨i1, b1, o1, n1⟩ | ⟨i1, b1, o1⟩ | ⟨i1, b1, o1⟩ <;>
    rcases role_cases s2 with ⟨i2, b2, o2, n2⟩ | ⟨i2, b2, o2, n2⟩ | ⟨i2, b2, o2⟩ | ⟨i2, b2, o2⟩ <;>
    rcases role_cases s3 with ⟨i3, b3, o3, n3⟩ | ⟨i3, b3, o3, n3⟩ | ⟨i3, b3, o3⟩ | ⟨i3, b3, o3⟩ <;>
    simp [List.foldl, assignEndpoint, *] at h ⊢ <;>
    rcases hs with rfl | rfl | rfl <;> simp [*]
  · rw [hl] at h; simp at h

/-- C10 (as amended): a candidate returned by the scanner is built from the
first alt-setting, in configuration-index then interface then alt-setting
order, that has exactly three endpoints, one per role, with a non-zero bulk-out
address: its event, fetch and send addresses are the addresses of that
alt-setting's interrupt-in, bulk-in and bulk-out endpoints, its interface
descriptor is that alt-setting, its configValue is the ConfigurationValue of
the configuration containing it, and the configuration descriptors retrieved
are exactly those with an index up to that configuration's. -/
theorem candidate_built_from_first_usable (d : UsbDevice) (m : Device)
    (h : (candidateFromDeviceDescriptor d).cand = some m) :
    ∃ dd i cdecs a, d.GetDeviceDescriptor = .ok dd ∧
      firstAltSetting hasUsableShape d dd = some (i, cdecs, a) ∧
      d.GetConfigDescriptor i = .ok cdecs ∧
      (∀ s ∈ a.EndPoints, isInterruptIn s = true → m.eventEP = s.EndpointAddress) ∧
      (∀ s ∈ a.EndPoints, isBulkIn s = true → m.fetchEP = s.EndpointAddress) ∧
      (∀ s ∈ a.EndPoints, isBulkOut s = true → m.sendEP = s.EndpointAddress) ∧
      m.ifaceDescr = a ∧ m.configValue = cdecs.ConfigurationValue ∧
      (candidateFromDeviceDescriptor d).fetched = List.range (i + 1) := by
  unfold candidateFromDeviceDescriptor at h ⊢
  cases hdd : d.GetDeviceDescriptor with
  | error e => rw [hdd] at h; simp at h
  | ok dd =>
    rw [hdd] at h
    simp only [] at h ⊢
    obtain ⟨pre, i, post, cdecs, a, hsplit, hpre, hi, hfind, hm, hfetched, _⟩ :=
      scanConfigs_some d dd _ [] m h
    have hfilled : rolesFilled a = true := by
      have := List.find?_some hfind
      exact this
    have haddr := filled_addresses a hfilled
    refine ⟨dd, i, cdecs, a, rfl, ?_, hi, ?_, ?_, ?_, ?_, ?_, ?_⟩
    · unfold firstAltSetting allAltSettings
      rw [hsplit, ← rolesFilled_eq_usable]
      exact find_flatMap_split d rolesFilled pre post i cdecs a hpre hi hfind
    · intro s hs hr; rw [hm]; exact (haddr s hs).1 hr
    · intro s hs hr; rw [hm]; exact (haddr s hs).2.1 hr
    · intro s hs hr; rw [hm]; exact (haddr s hs).2.2 hr
    · rw [hm]; rfl
    · rw [hm]; rfl
    · rw [hfetched, List.nil_append]
      exact range_split _ i pre post hsplit

/-- Witness of C10: the theorem applied to the candidate found on mtpDevice. -/
theorem candidate_built_from_first_usable_witness :
    ∃ m, (candidateFromDeviceDescriptor mtpDevice).cand = some m ∧
    ∃ dd i cdecs a, mtpDevice.GetDeviceDescriptor = .ok dd ∧
      firstAltSetting hasUsableShape mtpDevice dd = some (i, cdecs, a) ∧
      mtpDevice.GetConfigDescriptor i = .ok cdecs ∧
      (∀ s ∈ a.EndPoints, isInterruptIn s = true → m.eventEP = s.EndpointAddress) ∧
      (∀ s ∈ a.EndPoints, isBulkIn s = true → m.fetchEP = s.EndpointAddress) ∧
      (∀ s ∈ a.EndPoints, isBulkOut s = true → m.sendEP = s.EndpointAddress) ∧
      m.ifaceDescr = a ∧ m.configValue = cdecs.ConfigurationValue ∧
      (candidateFromDeviceDescriptor mtpDevice).fetched = List.range (i + 1) :=
  ⟨buildCandidate mtpDevice oneConfigDescr (configOf [mtpAlt]) mtpAlt, rfl,
    candidate_built_from_first_usable mtpDevice _ rfl⟩

/-- C10 (as stated) fails: on twoAltDevice the first alt-setting with exactly
three endpoints, one interrupt-in, one bulk-in and one bulk-out, is zeroSendAlt,
but the candidate returned is built from the later alt-setting mtpAlt. -/
theorem candidate_built_from_first_fails :
    firstAltSetting hasMtpShape twoAltDevice oneConfigDescr
      = some (0, configOf [zeroSendAlt, mtpAlt], zeroSendAlt) ∧
    ∃ m, (candidateFromDeviceDescriptor twoAltDevice).cand = some m ∧
      m.ifaceDescr = mtpAlt ∧ m.ifaceDescr ≠ zeroSendAlt ∧ m.sendEP = 0x02 :=
  ⟨by decide, buildCandidate twoAltDevice oneConfigDescr (configOf [zeroSendAlt, mtpAlt]) mtpAlt,
    rfl, rfl, by decide, rfl⟩

/-! ## Calls on the heap -/

theorem Heap.set_same (h : Heap) (p : Nat) (d : Device) : h.set p d p = d := by
  simp [Heap.set]

theorem Heap.set_other (h : Heap) (p q : Nat) (d : Device) (hne : q ≠ p) :
    h.set p d q = h q := by
  simp [Heap.set, hne]

theorem Device.Open_snd (d : Device) : d.Open.2 = d.dev.openErr := by
  unfold Device.Open
  cases d.dev.openErr <;> rfl

theorem Device.Open_dev (d : Device) : d.Open.1.dev = d.dev := by
  unfold Device.Open
  cases d.dev.openErr <;> rfl

theorem Device.Open_opened_of_ok (d : Device) (h : d.dev.openErr = none) :
    d.Open.1.opened = true := by
  unfold Device.Open
  rw [h]

theorem Device.Open_fst_of_err (d : Device) (e : String) (h : d.dev.openErr = some e) :
    d.Open.1 = d := by
  unfold Device.Open
  rw [h]

theorem Device.Open_ID (d : Device) : d.Open.1.ID = d.ID := by
  unfold Device.ID
  rw [Device.Open_dev]

/-! ## The loops of selection -/

theorem openLoop_spec (k : Nat → Bool) (cands : List Nat) (hnd : cands.Nodup) :
    ∀ (w : World) (found : List Nat),
      (∀ p ∈ cands, (w.heap p).dev.openErr.isNone = k p) →
      (openLoop w found cands).2 = found ++ cands.filter k ∧
      (∀ p, (openLoop w found cands).1.heap p
          = if p ∈ cands then (w.heap p).Open.1 else w.heap p) ∧
      (openLoop w found cands).1.trace
        = w.trace ++ cands.map (fun p => (⟨p, .Open⟩ : Event)) := by
  induction cands with
  | nil => intro w found _; simp [openLoop]
  | cons c rest ih =>
    intro w found hk
    have hc : c ∉ rest := (List.nodup_cons.mp hnd).1
    have hk1 : ∀ p ∈ rest, ((w.Open c).1.heap p).dev.openErr.isNone = k p := by
      intro p hp
      have hne : p ≠ c := fun h => hc (h ▸ hp)
      simp only [World.Open, World.call, Heap.set_other _ _ _ _ hne]
      exact hk p (List.mem_cons_of_mem _ hp)
    have hkc := hk c (List.mem_cons_self _ _)
    have hheap : ∀ (fnd : List Nat) (p : Nat),
        (openLoop (w.Open c).1 fnd rest).1.heap p
          = if p ∈ c :: rest then (w.heap p).Open.1 else w.heap p := by
      intro fnd p
      rw [(ih (List.nodup_cons.mp hnd).2 (w.Open c).1 fnd hk1).2.1 p]
      by_cases hpc : p = c
      · subst hpc
        simp [hc, World.Open, World.call, Heap.set_same]
      · by_cases hpr : p ∈ rest
        · simp [hpr, World.Open, World.call, Heap.set_other _ _ _ _ hpc]
        · simp [hpr, hpc, World.Open, World.call, Heap.set_other _ _ _ _ hpc]
    have htrace : ∀ (fnd : List Nat),
        (openLoop (w.Open c).1 fnd rest).1.trace
          = w.trace ++ (c :: rest).map (fun p => (⟨p, .Open⟩ : Event)) := by
      intro fnd
      rw [(ih (List.nodup_cons.mp hnd).2 (w.Open c).1 fnd hk1).2.2]
      simp [World.Open, World.call]
    unfold openLoop
    cases hopen : (w.Open c).2 with
    | some e =>
      have hkc2 : k c = false := by
        rw [← hkc]
        simp only [World.Open, Device.Open_snd] at hopen
        rw [hopen]; rfl
      simp only []
      refine ⟨?_, hheap found, htrace found⟩
      rw [(ih (List.nodup_cons.mp hnd).2 (w.Open c).1 found hk1).1]
      simp [List.filter_cons, hkc2]
    | none =>
      have hkc2 : k c = true := by
        rw [← hkc]
        simp only [World.Open, Device.Open_snd] at hopen
        rw [hopen]; rfl
      simp only []
      refine ⟨?_, hheap _, htrace _⟩
      rw [(ih (List.nodup_cons.mp hnd).2 (w.Open c).1 (found ++ [c]) hk1).1]
      simp [List.filter_cons, hkc2]

theorem World.release_heap (w : World) (c p : Nat) :
    ((w.Close c).Done c).heap p = if p = c then (w.heap c).Close.Done else w.heap p := by
  by_cases h : p = c
  · subst h
    simp [World.Close, World.Done, World.call, Heap.set_same]
  · simp [World.Close, World.Done, World.call, Heap.set_other _ _ _ _ h, h]

theorem World.release_trace (w : World) (c : Nat) :
    ((w.Close c).Done c).trace = w.trace ++ releaseCalls c := by
  simp [World.Close, World.Done, World.call, releaseCalls]

theorem closeAll_spec (xs : List Nat) (hnd : xs.Nodup) :
    ∀ w : World,
      (∀ p, (closeAll w xs).heap p = if p ∈ xs then (w.heap p).Close.Done else w.heap p) ∧
      (closeAll w xs).trace = w.trace ++ xs.flatMap releaseCalls := by
  induction xs with
  | nil => intro w; simp [closeAll]
  | cons c rest ih =>
    intro w
    have hc : c ∉ rest := (List.nodup_cons.mp hnd).1
    obtain ⟨ihh, iht⟩ := ih (List.nodup_cons.mp hnd).2 ((w.Close c).Done c)
    unfold closeAll
    constructor
    · intro p
      rw [ihh p, World.release_heap]
      by_cases hpc : p = c
      · subst hpc; simp [hc]
      · simp [hpc]
    · rw [iht, World.release_trace]
      simp

theorem matchLoop_spec (pattern : String) (re : Regexp) (ident : Nat → String)
    (xs : List Nat) (hnd : xs.Nodup) :
    ∀ (w : World) (found : List Nat) (ids : List String) (i : Nat),
      (∀ p ∈ xs, (w.heap p).ID = .ok (ident p)) →
      (matchLoop pattern re w found ids i xs).2
        = .ok (found ++ xs.filter (fun p => patternMatches pattern re (ident p)),
            ids ++ (xs.filter (fun p => patternMatches pattern re (ident p))).map ident) ∧
      (∀ p, (matchLoop pattern re w found ids i xs).1.heap p
          = if p ∈ xs ∧ patternMatches pattern re (ident p) = false
            then (w.heap p).Close.Done else w.heap p) ∧
      (matchLoop pattern re w found ids i xs).1.trace
        = w.trace ++ xs.flatMap (matchCalls (fun p => patternMatches pattern re (ident p))) := by
  induction xs with
  | nil => intro w found ids i _; simp [matchLoop]
  | cons c rest ih =>
    intro w found ids i hid
    have hc : c ∉ rest := (List.nodup_cons.mp hnd).1
    have hidc : (w.heap c).ID = .ok (ident c) := hid c (List.mem_cons_self _ _)
    unfold matchLoop
    simp only [World.ID, hidc]
    by_cases hk : patternMatches pattern re (ident c) = true
    · have hid1 : ∀ p ∈ rest, ((w.log c .ID).heap p).ID = .ok (ident p) :=
        fun p hp => hid p (List.mem_cons_of_mem _ hp)
      obtain ⟨ih1, ih2, ih3⟩ :=
        ih (List.nodup_cons.mp hnd).2 (w.log c .ID) (found ++ [c]) (ids ++ [ident c]) (i + 1) hid1
      simp only [hk, if_true]
      refine ⟨?_, ?_, ?_⟩
      · rw [ih1]; simp [List.filter_cons, hk]
      · intro p
        rw [ih2 p]
        by_cases hpc : p = c
        · subst hpc; simp [hc, hk, World.log]
        · simp [hpc, World.log]
      · rw [ih3]; simp [World.log, matchCalls, hk]
    · have hk2 : patternMatches pattern re (ident c) = false := by
        simpa using hk
      have hid1 : ∀ p ∈ rest,
          ((((w.log c .ID).Close c).Done c).heap p).ID = .ok (ident p) := by
        intro p hp
        have hne : p ≠ c := fun h => hc (h ▸ hp)
        rw [World.release_heap, if_neg hne]
        exact hid p (List.mem_cons_of_mem _ hp)
      obtain ⟨ih1, ih2, ih3⟩ :=
        ih (List.nodup_cons.mp hnd).2 (((w.log c .ID).Close c).Done c) found ids (i + 1) hid1
      simp only [hk2]
      refine ⟨?_, ?_, ?_⟩
      · simp only [Bool.false_eq_true, if_false]
        rw [ih1]; simp [List.filter_cons, hk2]
      · intro p
        simp only [Bool.false_eq_true, if_false]
        rw [ih2 p, World.release_heap]
        by_cases hpc : p = c
        · subst hpc; simp [hc, hk2, World.log]
        · simp [hpc, World.log]
      · simp only [Bool.false_eq_true, if_false]
        rw [ih3, World.release_trace]
        simp [World.log, matchCalls, hk2]

theorem filterLoop_some_spec (f : Filter) (k : Nat → Bool) (xs : List Nat) (hnd : xs.Nodup) :
    ∀ (w : World) (found : List Nat),
      (∀ p ∈ xs, f (w.heap p) = k p) →
      (filterLoop (some f) w found xs).2 = found ++ xs.filter k ∧
      (∀ p, (filterLoop (some f) w found xs).1.heap p
          = if p ∈ xs ∧ k p = false then (w.heap p).Close.Done else w.heap p) ∧
      (filterLoop (some f) w found xs).1.trace = w.trace ++ xs.flatMap (filterCalls k) := by
  induction xs with
  | nil => intro w found _; simp [filterLoop]
  | cons c rest ih =>
    intro w found hf
    have hc : c ∉ rest := (List.nodup_cons.mp hnd).1
    have hfc : f (w.heap c) = k c := hf c (List.mem_cons_self _ _)
    unfold filterLoop
    simp only [hfc]
    by_cases hk : k c = true
    · have hf1 : ∀ p ∈ rest, f ((w.log c .Filter).heap p) = k p :=
        fun p hp => hf p (List.mem_cons_of_mem _ hp)
      obtain ⟨ih1, ih2, ih3⟩ :=
        ih (List.nodup_cons.mp hnd).2 (w.log c .Filter) (found ++ [c]) hf1
      simp only [hk, if_true]
      refine ⟨?_, ?_, ?_⟩
      · rw [ih1]; simp [List.filter_cons, hk]
      · intro p
        rw [ih2 p]
        by_cases hpc : p = c
        · subst hpc; simp [hc, hk, World.log]
        · simp [hpc, World.log]
      · rw [ih3]; simp [World.log, filterCalls, hk]
    · have hk2 : k c = false := by simpa using hk
      have hf1 : ∀ p ∈ rest, f ((((w.log c .Filter).Close c).Done c).heap p) = k p := by
        intro p hp
        have hne : p ≠ c := fun h => hc (h ▸ hp)
        rw [World.release_heap, if_neg hne]
        exact hf p (List.mem_cons_of_mem _ hp)
      obtain ⟨ih1, ih2, ih3⟩ :=
        ih (List.nodup_cons.mp hnd).2 (((w.log c .Filter).Close c).Done c) found hf1
      simp only [hk2, Bool.false_eq_true, if_false]
      refine ⟨?_, ?_, ?_⟩
      · rw [ih1]; simp [List.filter_cons, hk2]
      · intro p
        rw [ih2 p, World.release_heap]
        by_cases hpc : p = c
        · subst hpc; simp [hc, hk2, World.log]
        · simp [hpc, World.log]
      · rw [ih3, World.release_trace]
        simp [World.log, filterCalls, hk2]

/-! ## The two loops of selectDevice under retrievable identities -/

theorem openLoop_found (w : World) (cands : List Nat) (hnd : cands.Nodup) :
    (openLoop w [] cands).2 = openedCands w.heap cands := by
  have h := (openLoop_spec (fun p => canOpen (w.heap p)) cands hnd w []
    (fun p _ => rfl)).1
  simpa [openedCands] using h

theorem afterOpen_heap (w : World) (cands : List Nat) (hnd : cands.Nodup) (p : Nat) :
    (afterOpen w cands).heap p = if p ∈ cands then (w.heap p).Open.1 else w.heap p :=
  (openLoop_spec (fun p => canOpen (w.heap p)) cands hnd w [] (fun p _ => rfl)).2.1 p

theorem afterOpen_trace (w : World) (cands : List Nat) (hnd : cands.Nodup) :
    (afterOpen w cands).trace = w.trace ++ cands.map (fun p => (⟨p, .Open⟩ : Event)) :=
  (openLoop_spec (fun p => canOpen (w.heap p)) cands hnd w [] (fun p _ => rfl)).2.2

theorem idOf_ok (d : Device) (id : String) (h : d.ID = .ok id) : idOf d = id := by
  simp [idOf, h]

theorem mem_openedCands (h : Heap) (cands : List Nat) (p : Nat) :
    p ∈ openedCands h cands ↔ p ∈ cands ∧ canOpen (h p) = true := by
  simp [openedCands]

theorem openedCands_nodup (h : Heap) (cands : List Nat) (hnd : cands.Nodup) :
    (openedCands h cands).Nodup :=
  hnd.filter _

theorem opened_ids (w : World) (cands : List Nat) (hnd : cands.Nodup)
    (hids : IdsRetrievable w.heap cands) :
    ∀ p ∈ openedCands w.heap cands,
      ((afterOpen w cands).heap p).ID = .ok (idOf (w.heap p)) := by
  intro p hp
  obtain ⟨hpc, hpo⟩ := (mem_openedCands _ _ _).mp hp
  rw [afterOpen_heap w cands hnd, if_pos hpc, Device.Open_ID]
  exact hids p hpc hpo

theorem matchLoop_result (pattern : String) (re : Regexp) (w : World) (cands : List Nat)
    (hnd : cands.Nodup) (hids : IdsRetrievable w.heap cands) :
    (matchLoop pattern re (openLoop w [] cands).1 [] [] 0 (openLoop w [] cands).2).2
      = .ok (keptCands pattern re w.heap cands,
          (keptCands pattern re w.heap cands).map (fun p => idOf (w.heap p))) := by
  rw [openLoop_found w cands hnd]
  have h := (matchLoop_spec pattern re (fun p => idOf (w.heap p)) (openedCands w.heap cands)
    (openedCands_nodup _ _ hnd) (openLoop w [] cands).1 [] [] 0
    (opened_ids w cands hnd hids)).1
  simpa [keptCands] using h

theorem afterMatch_heap (pattern : String) (re : Regexp) (w : World) (cands : List Nat)
    (hnd : cands.Nodup) (hids : IdsRetrievable w.heap cands) (p : Nat) :
    (afterMatch pattern re w cands).heap p
      = if p ∈ openedCands w.heap cands ∧ patternMatches pattern re (idOf (w.heap p)) = false
        then (w.heap p).Open.1.Close.Done
        else if p ∈ cands then (w.heap p).Open.1 else w.heap p := by
  unfold afterMatch
  rw [openLoop_found w cands hnd]
  have h := (matchLoop_spec pattern re (fun p => idOf (w.heap p)) (openedCands w.heap cands)
    (openedCands_nodup _ _ hnd) (openLoop w [] cands).1 [] [] 0
    (opened_ids w cands hnd hids)).2.1 p
  rw [h]
  have h1 := afterOpen_heap w cands hnd p
  unfold afterOpen at h1
  rw [h1]
  by_cases hc : p ∈ openedCands w.heap cands ∧
      patternMatches pattern re (idOf (w.heap p)) = false
  · have hpc : p ∈ cands := ((mem_openedCands _ _ _).mp hc.1).1
    simp [hc, hpc]
  · simp [hc]

theorem afterMatch_trace (pattern : String) (re : Regexp) (w : World) (cands : List Nat)
    (hnd : cands.Nodup) (hids : IdsRetrievable w.heap cands) :
    (afterMatch pattern re w cands).trace
      = w.trace ++ cands.map (fun p => (⟨p, .Open⟩ : Event))
        ++ (openedCands w.heap cands).flatMap
            (matchCalls (fun p => patternMatches pattern re (idOf (w.heap p)))) := by
  unfold afterMatch
  rw [openLoop_found w cands hnd]
  have h := (matchLoop_spec pattern re (fun p => idOf (w.heap p)) (openedCands w.heap cands)
    (openedCands_nodup _ _ hnd) (openLoop w [] cands).1 [] [] 0
    (opened_ids w cands hnd hids)).2.2
  rw [h]
  have h1 := afterOpen_trace w cands hnd
  unfold afterOpen at h1
  rw [h1]

/-- Under retrievable identities selectDevice either finds no device that
opens or hands the kept candidates to the last part of the function. -/
theorem selectDevice_eq (compile : String → Except String Regexp) (w : World)
    (cands : List Nat) (pattern : String) (re : Regexp) (hnd : cands.Nodup)
    (hc : compile pattern = .ok re) (hids : IdsRetrievable w.heap cands) :
    selectDevice compile w cands pattern
      = if (openedCands w.heap cands).length = 0
        then ⟨.error .noDevicesFound, afterOpen w cands⟩
        else finishSelect (afterMatch pattern re w cands) (keptCands pattern re w.heap cands)
          ((keptCands pattern re w.heap cands).map (fun p => idOf (w.heap p))) := by
  unfold selectDevice afterMatch afterOpen
  rw [hc]
  simp only []
  rw [matchLoop_result pattern re w cands hnd hids]
  simp only []
  rw [openLoop_found w cands hnd]

/-! ## The last part of selectDevice -/

theorem Device.Open_configValue (d : Device) : d.Open.1.configValue = d.configValue := by
  unfold Device.Open
  cases d.dev.openErr <;> rfl

theorem closedAndReleased_of_release (d : Device) :
    ClosedAndReleased d d.Open.1.Close.Done := by
  constructor
  · rfl
  · show d.Open.1.dev.refs - 1 = d.dev.refs - 1
    rw [Device.Open_dev]

theorem finishSelect_nil (w : World) (ids : List String) :
    finishSelect w [] ids = ⟨.error .noDeviceMatched, w⟩ := by
  simp [finishSelect]

theorem finishSelect_many (w : World) (found : List Nat) (ids : List String)
    (h : 1 < found.length) :
    finishSelect w found ids = ⟨.error (.moreThanOne ids), closeAll w found⟩ := by
  have h0 : found.length ≠ 0 := by omega
  simp [finishSelect, h0, h]

theorem finishSelect_get_err (w : World) (c : Nat) (ids : List String) (e : String)
    (hget : (w.heap c).dev.getConfigErr = some e) :
    finishSelect w [c] ids
      = ⟨.error (.getConfiguration (ids.headD "") e), w.log c .GetConfiguration⟩ := by
  simp [finishSelect, World.GetConfiguration, Device.GetConfiguration, hget]

theorem finishSelect_same (w : World) (c : Nat) (ids : List String)
    (hget : (w.heap c).dev.getConfigErr = none)
    (hcfg : (w.heap c).dev.config = (w.heap c).configValue) :
    finishSelect w [c] ids = ⟨.ok c, w.log c .GetConfiguration⟩ := by
  simp [finishSelect, World.GetConfiguration, Device.GetConfiguration, hget, hcfg, World.log]

theorem finishSelect_set_ok (w : World) (c : Nat) (ids : List String)
    (hget : (w.heap c).dev.getConfigErr = none)
    (hcfg : (w.heap c).dev.config ≠ (w.heap c).configValue)
    (hset : (w.heap c).dev.setConfigErr = none) :
    finishSelect w [c] ids
      = ⟨.ok c, (w.log c .GetConfiguration).call c (.SetConfiguration (w.heap c).configValue)
          { w.heap c with dev := { (w.heap c).dev with config := (w.heap c).configValue } }⟩ := by
  simp [finishSelect, World.GetConfiguration, Device.GetConfiguration, hget, hcfg, World.log,
    World.SetConfiguration, Device.SetConfiguration, hset]

theorem finishSelect_set_err (w : World) (c : Nat) (ids : List String) (e : String)
    (hget : (w.heap c).dev.getConfigErr = none)
    (hcfg : (w.heap c).dev.config ≠ (w.heap c).configValue)
    (hset : (w.heap c).dev.setConfigErr = some e) :
    finishSelect w [c] ids
      = ⟨.error (.setConfiguration (ids.headD "") e),
          (w.log c .GetConfiguration).call c (.SetConfiguration (w.heap c).configValue)
            (w.heap c)⟩ := by
  simp [finishSelect, World.GetConfiguration, Device.GetConfiguration, hget, hcfg, World.log,
    World.SetConfiguration, Device.SetConfiguration, hset]

theorem filter_eq_singleton (l : List Nat) (q : Nat → Bool) (c : Nat) (hnd : l.Nodup)
    (hmem : c ∈ l) (hq : q c = true) (huniq : ∀ p ∈ l, q p = true → p = c) :
    l.filter q = [c] := by
  induction l with
  | nil => simp at hmem
  | cons a rest ih =>
    have ha : a ∉ rest := (List.nodup_cons.mp hnd).1
    rcases List.mem_cons.mp hmem with rfl | hin
    · have hrest : rest.filter q = [] := by
        rw [List.filter_eq_nil_iff]
        intro p hp hqp
        have := huniq p (List.mem_cons_of_mem _ hp) hqp
        exact ha (this ▸ hp)
      simp [List.filter_cons, hq, hrest]
    · have hne : q a = false := by
        cases hqa : q a with
        | false => rfl
        | true =>
          have := huniq a (List.mem_cons_self _ _) hqa
          exact absurd (this ▸ hin) ha
      simp only [List.filter_cons, hne]
      exact ih (List.nodup_cons.mp hnd).2 hin
        (fun p hp hqp => huniq p (List.mem_cons_of_mem _ hp) hqp)

theorem keptCands_singleton (pattern : String) (re : Regexp) (h : Heap) (cands : List Nat)
    (c : Nat) (hnd : cands.Nodup) (hmem : c ∈ cands) (hopen : canOpen (h c) = true)
    (hmatch : patternMatches pattern re (idOf (h c)) = true)
    (huniq : ∀ p ∈ cands, canOpen (h p) = true →
      patternMatches pattern re (idOf (h p)) = true → p = c) :
    keptCands pattern re h cands = [c] := by
  unfold keptCands
  apply filter_eq_singleton _ _ c (openedCands_nodup h cands hnd)
    ((mem_openedCands _ _ _).mpr ⟨hmem, hopen⟩) hmatch
  intro p hp hq
  obtain ⟨hpc, hpo⟩ := (mem_openedCands _ _ _).mp hp
  exact huniq p hpc hpo hq

theorem afterMatch_heap_kept (pattern : String) (re : Regexp) (w : World) (cands : List Nat)
    (hnd : cands.Nodup) (hids : IdsRetrievable w.heap cands) (c : Nat) (hmem : c ∈ cands)
    (hmatch : patternMatches pattern re (idOf (w.heap c)) = true) :
    (afterMatch pattern re w cands).heap c = (w.heap c).Open.1 := by
  rw [afterMatch_heap pattern re w cands hnd hids c]
  simp [hmatch, hmem]

theorem afterMatch_heap_rejected (pattern : String) (re : Regexp) (w : World)
    (cands : List Nat) (hnd : cands.Nodup) (hids : IdsRetrievable w.heap cands) (p : Nat)
    (hmem : p ∈ cands) (hopen : canOpen (w.heap p) = true)
    (hmatch : patternMatches pattern re (idOf (w.heap p)) = false) :
    (afterMatch pattern re w cands).heap p = (w.heap p).Open.1.Close.Done := by
  rw [afterMatch_heap pattern re w cands hnd hids p]
  simp [hmatch, (mem_openedCands _ _ _).mpr ⟨hmem, hopen⟩]

/-- C2: when the candidates are distinct, the pattern is valid, the identity of
every opened candidate can be retrieved, exactly one opened candidate passes the
test of selectDevice and the configuration query and set succeed, selectDevice
returns that candidate without error, the candidate is still open and holds its
reference, and every other candidate that was opened is closed and released. -/
theorem selectDevice_unique_match (compile : String → Except String Regexp) (w : World)
    (cands : List Nat) (pattern : String) (re : Regexp) (c : Nat)
    (hnd : cands.Nodup) (hc : compile pattern = .ok re)
    (hids : IdsRetrievable w.heap cands)
    (hmem : c ∈ cands) (hopen : canOpen (w.heap c) = true)
    (hmatch : patternMatches pattern re (idOf (w.heap c)) = true)
    (huniq : ∀ p ∈ cands, canOpen (w.heap p) = true →
      patternMatches pattern re (idOf (w.heap p)) = true → p = c)
    (hget : (w.heap c).dev.getConfigErr = none)
    (hset : (w.heap c).dev.config ≠ (w.heap c).configValue →
      (w.heap c).dev.setConfigErr = none) :
    (selectDevice compile w cands pattern).ret = .ok c ∧
    ((selectDevice compile w cands pattern).world.heap c).opened = true ∧
    ((selectDevice compile w cands pattern).world.heap c).dev.refs = (w.heap c).dev.refs ∧
    ∀ p ∈ cands, p ≠ c → canOpen (w.heap p) = true →
      ClosedAndReleased (w.heap p) ((selectDevice compile w cands pattern).world.heap p) := by
  have hkept := keptCands_singleton pattern re w.heap cands c hnd hmem hopen hmatch huniq
  have hopened : (openedCands w.heap cands).length ≠ 0 := by
    have : c ∈ openedCands w.heap cands := (mem_openedCands _ _ _).mpr ⟨hmem, hopen⟩
    intro h0
    rw [List.length_eq_zero] at h0
    rw [h0] at this
    simp at this
  have hheapc := afterMatch_heap_kept pattern re w cands hnd hids c hmem hmatch
  have hrej : ∀ p ∈ cands, p ≠ c → canOpen (w.heap p) = true →
      (afterMatch pattern re w cands).heap p = (w.heap p).Open.1.Close.Done := by
    intro p hp hne hpo
    apply afterMatch_heap_rejected pattern re w cands hnd hids p hp hpo
    cases hm : patternMatches pattern re (idOf (w.heap p)) with
    | false => rfl
    | true => exact absurd (huniq p hp hpo hm) hne
  have hopenc : (w.heap c).dev.openErr = none := by
    simpa [canOpen] using hopen
  have hget2 : ((afterMatch pattern re w cands).heap c).dev.getConfigErr = none := by
    rw [hheapc, Device.Open_dev]; exact hget
  rw [selectDevice_eq compile w cands pattern re hnd hc hids, if_neg hopened, hkept]
  by_cases hcfg : (w.heap c).dev.config = (w.heap c).configValue
  · have hcfg2 : ((afterMatch pattern re w cands).heap c).dev.config
        = ((afterMatch pattern re w cands).heap c).configValue := by
      rw [hheapc, Device.Open_dev, Device.Open_configValue]; exact hcfg
    rw [finishSelect_same _ c _ hget2 hcfg2]
    refine ⟨rfl, ?_, ?_, ?_⟩
    · show ((afterMatch pattern re w cands).heap c).opened = true
      rw [hheapc]; exact Device.Open_opened_of_ok _ hopenc
    · show ((afterMatch pattern re w cands).heap c).dev.refs = _
      rw [hheapc, Device.Open_dev]
    · intro p hp hne hpo
      show ClosedAndReleased _ ((afterMatch pattern re w cands).heap p)
      rw [hrej p hp hne hpo]
      exact closedAndReleased_of_release _
  · have hcfg2 : ((afterMatch pattern re w cands).heap c).dev.config
        ≠ ((afterMatch pattern re w cands).heap c).configValue := by
      rw [hheapc, Device.Open_dev, Device.Open_configValue]; exact hcfg
    have hset2 : ((afterMatch pattern re w cands).heap c).dev.setConfigErr = none := by
      rw [hheapc, Device.Open_dev]; exact hset hcfg
    rw [finishSelect_set_ok _ c _ hget2 hcfg2 hset2]
    refine ⟨rfl, ?_, ?_, ?_⟩
    · simp only [World.call, World.log, Heap.set_same]
      rw [hheapc]; exact Device.Open_opened_of_ok _ hopenc
    · simp only [World.call, World.log, Heap.set_same]
      rw [hheapc, Device.Open_dev]
    · intro p hp hne hpo
      simp only [World.call, World.log, Heap.set_other _ _ _ _ hne]
      rw [hrej p hp hne hpo]
      exact closedAndReleased_of_release _

/-- Witness of C2: of the three sample candidates only the tablet matches Nexus. -/
theorem selectDevice_unique_match_witness :
    (selectDevice sampleCompile ⟨sampleHeap, []⟩ [0, 1, 2] "Nexus").ret = .ok 1 ∧
    ((selectDevice sampleCompile ⟨sampleHeap, []⟩ [0, 1, 2] "Nexus").world.heap 1).opened
      = true ∧
    ((selectDevice sampleCompile ⟨sampleHeap, []⟩ [0, 1, 2] "Nexus").world.heap 1).dev.refs
      = (sampleHeap 1).dev.refs ∧
    ∀ p ∈ [0, 1, 2], p ≠ 1 → canOpen (sampleHeap p) = true →
      ClosedAndReleased (sampleHeap p)
        ((selectDevice sampleCompile ⟨sampleHeap, []⟩ [0, 1, 2] "Nexus").world.heap p) :=
  selectDevice_unique_match sampleCompile ⟨sampleHeap, []⟩ [0, 1, 2] "Nexus" (literal "Nexus") 1
    (by decide) rfl (by decide) (by decide) (by decide) (by decide) (by decide)
    (by decide) (by decide)

theorem keptCands_eq_filter (pattern : String) (re : Regexp) (h : Heap) (cands : List Nat) :
    keptCands pattern re h cands
      = cands.filter (fun p => canOpen (h p) && patternMatches pattern re (idOf (h p))) := by
  unfold keptCands openedCands
  rw [List.filter_filter]
  congr 1
  funext p
  exact Bool.and_comm _ _

theorem mem_keptCands (pattern : String) (re : Regexp) (h : Heap) (cands : List Nat)
    (p : Nat) :
    p ∈ keptCands pattern re h cands ↔
      p ∈ cands ∧ canOpen (h p) = true ∧ patternMatches pattern re (idOf (h p)) = true := by
  unfold keptCands
  rw [List.mem_filter, mem_openedCands, and_assoc]

theorem keptCands_nodup (pattern : String) (re : Regexp) (h : Heap) (cands : List Nat)
    (hnd : cands.Nodup) : (keptCands pattern re h cands).Nodup :=
  (openedCands_nodup h cands hnd).filter _

theorem Device.Open_opened_of_closed (d : Device) (e : String)
    (herr : d.dev.openErr = some e) (hcl : d.opened = false) : d.Open.1.opened = false := by
  rw [Device.Open_fst_of_err d e herr]; exact hcl

/-- After the second loop of selectDevice every candidate that was not kept has
its handle unset, provided no handle was set before the call. -/
theorem afterMatch_not_kept_closed (pattern : String) (re : Regexp) (w : World)
    (cands : List Nat) (hnd : cands.Nodup) (hids : IdsRetrievable w.heap cands)
    (hclosed : ∀ p ∈ cands, (w.heap p).opened = false) (p : Nat) (hp : p ∈ cands)
    (hnk : p ∉ keptCands pattern re w.heap cands) :
    ((afterMatch pattern re w cands).heap p).opened = false := by
  rw [afterMatch_heap pattern re w cands hnd hids p]
  cases hopen : (w.heap p).dev.openErr with
  | some e =>
    have hno : p ∉ openedCands w.heap cands := by
      rw [mem_openedCands]
      rintro ⟨_, hco⟩
      simp [canOpen, hopen] at hco
    simp only [hno, false_and, if_false, if_pos hp]
    exact Device.Open_opened_of_closed _ e hopen (hclosed p hp)
  | none =>
    have hco : canOpen (w.heap p) = true := by simp [canOpen, hopen]
    have hm : patternMatches pattern re (idOf (w.heap p)) = false := by
      cases hm : patternMatches pattern re (idOf (w.heap p)) with
      | false => rfl
      | true => exact absurd ((mem_keptCands _ _ _ _ _).mpr ⟨hp, hco, hm⟩) hnk
    simp only [(mem_openedCands _ _ _).mpr ⟨hp, hco⟩, hm, and_self, if_true]
    rfl

/-- C3: when the candidates are distinct and not yet opened, the pattern is
valid, the identity of every opened candidate can be retrieved and two or more
opened candidates pass the test, selectDevice returns no device and the error
whose message lists the identities of exactly those candidates, in the order of
the input list, and after the call no candidate handle is open. -/
theorem selectDevice_ambiguous (compile : String → Except String Regexp) (w : World)
    (cands : List Nat) (pattern : String) (re : Regexp)
    (hnd : cands.Nodup) (hc : compile pattern = .ok re)
    (hids : IdsRetrievable w.heap cands)
    (hclosed : ∀ p ∈ cands, (w.heap p).opened = false)
    (hmany : 2 ≤ (cands.filter (fun p => canOpen (w.heap p) &&
      patternMatches pattern re (idOf (w.heap p)))).length) :
    (selectDevice compile w cands pattern).ret
      = .error (.moreThanOne ((cands.filter (fun p => canOpen (w.heap p) &&
          patternMatches pattern re (idOf (w.heap p)))).map (fun p => idOf (w.heap p)))) ∧
    (SelectError.moreThanOne ((cands.filter (fun p => canOpen (w.heap p) &&
          patternMatches pattern re (idOf (w.heap p)))).map (fun p => idOf (w.heap p)))).Error
      = "mtp: more than 1 device: " ++ ",".intercalate
          ((cands.filter (fun p => canOpen (w.heap p) &&
            patternMatches pattern re (idOf (w.heap p)))).map (fun p => idOf (w.heap p))) ∧
    ∀ p ∈ cands, ((selectDevice compile w cands pattern).world.heap p).opened = false := by
  rw [← keptCands_eq_filter] at hmany ⊢
  have hopened : (openedCands w.heap cands).length ≠ 0 := by
    have hle : (keptCands pattern re w.heap cands).length ≤ (openedCands w.heap cands).length :=
      List.length_filter_le _ _
    omega
  rw [selectDevice_eq compile w cands pattern re hnd hc hids, if_neg hopened,
    finishSelect_many _ _ _ (by omega)]
  refine ⟨rfl, rfl, ?_⟩
  intro p hp
  show ((closeAll (afterMatch pattern re w cands) (keptCands pattern re w.heap cands)).heap p).opened
    = false
  rw [(closeAll_spec _ (keptCands_nodup pattern re w.heap cands hnd) _).1 p]
  by_cases hk : p ∈ keptCands pattern re w.heap cands
  · rw [if_pos hk]; rfl
  · rw [if_neg hk]
    exact afterMatch_not_kept_closed pattern re w cands hnd hids hclosed p hp hk

/-- Witness of C3: the phone and the tablet both match the letter G. -/
theorem selectDevice_ambiguous_witness :
    (selectDevice sampleCompile ⟨sampleHeap, []⟩ [0, 1, 2] "G").ret
      = .error (.moreThanOne (([0, 1, 2].filter (fun p => canOpen (sampleHeap p) &&
          patternMatches "G" (literal "G") (idOf (sampleHeap p)))).map
            (fun p => idOf (sampleHeap p)))) ∧
    (SelectError.moreThanOne (([0, 1, 2].filter (fun p => canOpen (sampleHeap p) &&
          patternMatches "G" (literal "G") (idOf (sampleHeap p)))).map
            (fun p => idOf (sampleHeap p)))).Error
      = "mtp: more than 1 device: " ++ ",".intercalate
          (([0, 1, 2].filter (fun p => canOpen (sampleHeap p) &&
            patternMatches "G" (literal "G") (idOf (sampleHeap p)))).map
              (fun p => idOf (sampleHeap p))) ∧
    ∀ p ∈ [0, 1, 2],
      ((selectDevice sampleCompile ⟨sampleHeap, []⟩ [0, 1, 2] "G").world.heap p).opened
        = false :=
  selectDevice_ambiguous sampleCompile ⟨sampleHeap, []⟩ [0, 1, 2] "G" (literal "G")
    (by decide) rfl (by decide) (by decide) (by decide)

/-- C4: when the candidates are distinct and not yet opened, the pattern is
valid, at least one candidate opens, the identity of every opened candidate can
be retrieved and none passes the test, selectDevice returns no device and the
error with the message no device matched, and after the call no candidate
handle is open. -/
theorem selectDevice_no_match (compile : String → Except String Regexp) (w : World)
    (cands : List Nat) (pattern : String) (re : Regexp)
    (hnd : cands.Nodup) (hc : compile pattern = .ok re)
    (hids : IdsRetrievable w.heap cands)
    (hclosed : ∀ p ∈ cands, (w.heap p).opened = false)
    (hsome : ∃ p ∈ cands, canOpen (w.heap p) = true)
    (hnone : ∀ p ∈ cands, canOpen (w.heap p) = true →
      patternMatches pattern re (idOf (w.heap p)) = false) :
    (selectDevice compile w cands pattern).ret = .error .noDeviceMatched ∧
    SelectError.noDeviceMatched.Error = "no device matched" ∧
    ∀ p ∈ cands, ((selectDevice compile w cands pattern).world.heap p).opened = false := by
  have hopened : (openedCands w.heap cands).length ≠ 0 := by
    obtain ⟨p, hp, hpo⟩ := hsome
    have : p ∈ openedCands w.heap cands := (mem_openedCands _ _ _).mpr ⟨hp, hpo⟩
    intro h0
    rw [List.length_eq_zero] at h0
    rw [h0] at this
    simp at this
  have hkept : keptCands pattern re w.heap cands = [] := by
    rw [List.eq_nil_iff_forall_not_mem]
    intro p hp
    obtain ⟨hpc, hpo, hm⟩ := (mem_keptCands _ _ _ _ _).mp hp
    rw [hnone p hpc hpo] at hm
    exact Bool.noConfusion hm
  rw [selectDevice_eq compile w cands pattern re hnd hc hids, if_neg hopened, hkept,
    List.map_nil, finishSelect_nil]
  refine ⟨rfl, rfl, ?_⟩
  intro p hp
  apply afterMatch_not_kept_closed pattern re w cands hnd hids hclosed p hp
  rw [hkept]
  exact List.not_mem_nil _

/-- Witness of C4: no sample candidate matches Pixel. -/
theorem selectDevice_no_match_witness :
    (selectDevice sampleCompile ⟨sampleHeap, []⟩ [0, 1, 2] "Pixel").ret
      = .error .noDeviceMatched ∧
    SelectError.noDeviceMatched.Error = "no device matched" ∧
    ∀ p ∈ [0, 1, 2],
      ((selectDevice sampleCompile ⟨sampleHeap, []⟩ [0, 1, 2] "Pixel").world.heap p).opened
        = false :=
  selectDevice_no_match sampleCompile ⟨sampleHeap, []⟩ [0, 1, 2] "Pixel" (literal "Pixel")
    (by decide) rfl (by decide) (by decide) (by decide) (by decide)

/-! ## The two loops of selectDeviceByFilter -/

theorem filterLoop_none (xs : List Nat) :
    ∀ (w : World) (found : List Nat), filterLoop none w found xs = (closeAll w xs, found) := by
  induction xs with
  | nil => intro w found; rfl
  | cons c rest ih =>
    intro w found
    unfold filterLoop closeAll
    exact ih _ _

theorem opened_filter (filter : Option Filter) (f : Filter) (hf : filter = some f) (w : World)
    (cands : List Nat) (hnd : cands.Nodup) :
    ∀ p ∈ openedCands w.heap cands,
      f ((afterOpen w cands).heap p) = filterKeeps filter w.heap p := by
  intro p hp
  obtain ⟨hpc, _⟩ := (mem_openedCands _ _ _).mp hp
  rw [afterOpen_heap w cands hnd, if_pos hpc, hf]
  rfl

theorem filterLoop_result (filter : Option Filter) (w : World) (cands : List Nat)
    (hnd : cands.Nodup) :
    (filterLoop filter (openLoop w [] cands).1 [] (openLoop w [] cands).2).2
      = keptByFilter filter w.heap cands := by
  rw [openLoop_found w cands hnd]
  cases hf : filter with
  | none =>
    rw [filterLoop_none]
    simp [keptByFilter, filterKeeps]
  | some f =>
    have h := (filterLoop_some_spec f (filterKeeps (some f) w.heap) (openedCands w.heap cands)
      (openedCands_nodup _ _ hnd) (openLoop w [] cands).1 []
      (opened_filter (some f) f rfl w cands hnd)).1
    simpa [keptByFilter] using h

theorem afterFilter_heap (filter : Option Filter) (w : World) (cands : List Nat)
    (hnd : cands.Nodup) (p : Nat) :
    (afterFilter filter w cands).heap p
      = if p ∈ openedCands w.heap cands ∧ filterKeeps filter w.heap p = false
        then (w.heap p).Open.1.Close.Done
        else if p ∈ cands then (w.heap p).Open.1 else w.heap p := by
  unfold afterFilter
  rw [openLoop_found w cands hnd]
  have h1 := afterOpen_heap w cands hnd p
  unfold afterOpen at h1
  cases hf : filter with
  | none =>
    rw [filterLoop_none]
    rw [(closeAll_spec _ (openedCands_nodup _ _ hnd) _).1 p, h1]
    by_cases hc : p ∈ openedCands w.heap cands
    · have hpc : p ∈ cands := ((mem_openedCands _ _ _).mp hc).1
      simp [hc, hpc, filterKeeps]
    · simp [hc]
  | some f =>
    have h := (filterLoop_some_spec f (filterKeeps (some f) w.heap) (openedCands w.heap cands)
      (openedCands_nodup _ _ hnd) (openLoop w [] cands).1 []
      (opened_filter (some f) f rfl w cands hnd)).2.1 p
    rw [h, h1]
    by_cases hc : p ∈ openedCands w.heap cands ∧ filterKeeps (some f) w.heap p = false
    · have hpc : p ∈ cands := ((mem_openedCands _ _ _).mp hc.1).1
      simp [hc, hpc]
    · simp [hc]

theorem afterFilter_trace_some (f : Filter) (w : World) (cands : List Nat)
    (hnd : cands.Nodup) :
    (afterFilter (some f) w cands).trace
      = w.trace ++ cands.map (fun p => (⟨p, .Open⟩ : Event))
        ++ (openedCands w.heap cands).flatMap (filterCalls (filterKeeps (some f) w.heap)) := by
  unfold afterFilter
  rw [openLoop_found w cands hnd]
  have h := (filterLoop_some_spec f (filterKeeps (some f) w.heap) (openedCands w.heap cands)
    (openedCands_nodup _ _ hnd) (openLoop w [] cands).1 []
    (opened_filter (some f) f rfl w cands hnd)).2.2
  rw [h]
  have h1 := afterOpen_trace w cands hnd
  unfold afterOpen at h1
  rw [h1]

theorem afterFilter_trace_none (w : World) (cands : List Nat) (hnd : cands.Nodup) :
    (afterFilter none w cands).trace
      = w.trace ++ cands.map (fun p => (⟨p, .Open⟩ : Event))
        ++ (openedCands w.heap cands).flatMap releaseCalls := by
  unfold afterFilter
  rw [openLoop_found w cands hnd, filterLoop_none]
  rw [(closeAll_spec _ (openedCands_nodup _ _ hnd) _).2]
  have h1 := afterOpen_trace w cands hnd
  unfold afterOpen at h1
  rw [h1]

/-- The function selectDeviceByFilter either finds no device that opens or hands
the kept candidates to the last part of the function. -/
theorem selectDeviceByFilter_eq (w : World) (cands : List Nat) (filter : Option Filter)
    (debug : Bool) (hnd : cands.Nodup) :
    selectDeviceByFilter w cands filter debug
      = if (openedCands w.heap cands).length = 0
        then ⟨.error .noDevicesFound, afterOpen w cands⟩
        else finishSelectByFilter (afterFilter filter w cands)
          (keptByFilter filter w.heap cands) := by
  unfold selectDeviceByFilter afterFilter afterOpen
  simp only []
  rw [filterLoop_result filter w cands hnd, openLoop_found w cands hnd]

theorem patternMatches_iff (pattern : String) (re : Regexp) (id : String) :
    patternMatches pattern re id = true ↔ (pattern = "" ∨ re.FindString id ≠ "") := by
  simp [patternMatches]

/-- What the second loop of selectDevice does with the test of line 123 when
every identity can be retrieved: an opened candidate is kept exactly when the
pattern is the empty string or FindString returns a non-empty string on its
identity; a kept candidate stays open, and a candidate that is not kept is
closed and released. -/
theorem selectDevice_keeps_iff (compile : String → Except String Regexp) (w : World)
    (cands : List Nat) (pattern : String) (re : Regexp)
    (hnd : cands.Nodup) (hc : compile pattern = .ok re)
    (hids : IdsRetrievable w.heap cands) :
    ∃ found ids,
      (matchLoop pattern re (openLoop w [] cands).1 [] [] 0 (openLoop w [] cands).2).2
        = .ok (found, ids) ∧
      ∀ p ∈ cands, canOpen (w.heap p) = true →
        (p ∈ found ↔ (pattern = "" ∨ re.FindString (idOf (w.heap p)) ≠ "")) ∧
        (p ∈ found → ((afterMatch pattern re w cands).heap p).opened = true) ∧
        (p ∉ found →
          ClosedAndReleased (w.heap p) ((afterMatch pattern re w cands).heap p)) := by
  refine ⟨keptCands pattern re w.heap cands, _, matchLoop_result pattern re w cands hnd hids, ?_⟩
  intro p hp hpo
  have hopenc : (w.heap p).dev.openErr = none := by
    simpa [canOpen] using hpo
  refine ⟨?_, ?_, ?_⟩
  · rw [mem_keptCands, ← patternMatches_iff]
    exact ⟨fun h => h.2.2, fun h => ⟨hp, hpo, h⟩⟩
  · intro hk
    rw [afterMatch_heap_kept pattern re w cands hnd hids p hp
      ((mem_keptCands _ _ _ _ _).mp hk).2.2]
    exact Device.Open_opened_of_ok _ hopenc
  · intro hk
    have hm : patternMatches pattern re (idOf (w.heap p)) = false := by
      cases hm : patternMatches pattern re (idOf (w.heap p)) with
      | false => rfl
      | true => exact absurd ((mem_keptCands _ _ _ _ _).mpr ⟨hp, hpo, hm⟩) hk
    rw [afterMatch_heap_rejected pattern re w cands hnd hids p hp hpo hm]
    exact closedAndReleased_of_release _

/-- The test of line 123 on the three sample candidates and the pattern
Nexus. -/
theorem selectDevice_keeps_iff_witness :
    ∃ found ids,
      (matchLoop "Nexus" (literal "Nexus") (openLoop ⟨sampleHeap, []⟩ [] [0, 1, 2]).1 [] [] 0
        (openLoop ⟨sampleHeap, []⟩ [] [0, 1, 2]).2).2 = .ok (found, ids) ∧
      ∀ p ∈ [0, 1, 2], canOpen (sampleHeap p) = true →
        (p ∈ found ↔
          ("Nexus" = "" ∨ (literal "Nexus").FindString (idOf (sampleHeap p)) ≠ "")) ∧
        (p ∈ found →
          ((afterMatch "Nexus" (literal "Nexus") ⟨sampleHeap, []⟩ [0, 1, 2]).heap p).opened
            = true) ∧
        (p ∉ found →
          ClosedAndReleased (sampleHeap p)
            ((afterMatch "Nexus" (literal "Nexus") ⟨sampleHeap, []⟩ [0, 1, 2]).heap p)) :=
  selectDevice_keeps_iff sampleCompile ⟨sampleHeap, []⟩ [0, 1, 2] "Nexus" (literal "Nexus")
    (by decide) rfl (by decide)

/-- C6, the code at the failing input: the pattern x* is valid and its
expression matches the identity Samsung Galaxy (the empty string at the start,
and the letter x further on), so the candidate matches the pattern; but
FindString returns the empty leftmost match, the test of line 123 fails, and
selectDevice closes and releases the candidate and returns the error no device
matched, alone or among the three sample candidates. -/
theorem selectDevice_keeps_iff_match_fails :
    (∃ re, sampleCompile "x*" = .ok re ∧ re.MatchString (idOf (sampleHeap 0)) = true ∧
      (matchLoop "x*" re (openLoop ⟨sampleHeap, []⟩ [] [0, 1, 2]).1 [] [] 0
        (openLoop ⟨sampleHeap, []⟩ [] [0, 1, 2]).2).2 = .ok ([], []) ∧
      ((afterMatch "x*" re ⟨sampleHeap, []⟩ [0, 1, 2]).heap 0).opened = false) ∧
    canOpen (sampleHeap 0) = true ∧ (sampleHeap 0).ID = .ok "Samsung Galaxy" ∧
    "x*" ≠ "" ∧ (selectDevice sampleCompile ⟨sampleHeap, []⟩ [0, 1, 2] "x*").ret
      = .error .noDeviceMatched ∧
    (canOpen (phoneHeap 0) = true ∧ (phoneHeap 0).ID = .ok "Samsung Galaxy" ∧
      (star 'x').MatchString "Samsung Galaxy" = true ∧
      (star 'x').FindString "Samsung Galaxy" = "" ∧
      (selectDevice sampleCompile ⟨phoneHeap, []⟩ [0] "x*").ret = .error .noDeviceMatched ∧
      ClosedAndReleased (phoneHeap 0)
        ((selectDevice sampleCompile ⟨phoneHeap, []⟩ [0] "x*").world.heap 0)) :=
  ⟨⟨star 'x', rfl, by decide, by decide, by decide⟩, by decide, by decide, by decide, by decide,
    by decide, by decide, by decide, by decide, by decide, by decide⟩

theorem finishSelect_one_ok (w : World) (c : Nat) (ids : List String) :
    (∃ d, (finishSelect w [c] ids).ret = .ok d) ↔ configurable (w.heap c) = true := by
  cases hget : (w.heap c).dev.getConfigErr with
  | some e =>
    rw [finishSelect_get_err w c ids e hget]
    simp [configurable, hget]
  | none =>
    by_cases hcfg : (w.heap c).dev.config = (w.heap c).configValue
    · rw [finishSelect_same w c ids hget hcfg]
      simp [configurable, hget, hcfg]
    · cases hset : (w.heap c).dev.setConfigErr with
      | some e =>
        rw [finishSelect_set_err w c ids e hget hcfg hset]
        simp [configurable, hget, hcfg, hset]
      | none =>
        rw [finishSelect_set_ok w c ids hget hcfg hset]
        simp [configurable, hget, hcfg, hset]

theorem finishSelect_one_not_many (w : World) (c : Nat) (ids ids2 : List String) :
    (finishSelect w [c] ids).ret ≠ .error (.moreThanOne ids2) := by
  cases hget : (w.heap c).dev.getConfigErr with
  | some e =>
    rw [finishSelect_get_err w c ids e hget]
    simp
  | none =>
    by_cases hcfg : (w.heap c).dev.config = (w.heap c).configValue
    · rw [finishSelect_same w c ids hget hcfg]
      simp
    · cases hset : (w.heap c).dev.setConfigErr with
      | some e =>
        rw [finishSelect_set_err w c ids e hget hcfg hset]
        simp
      | none =>
        rw [finishSelect_set_ok w c ids hget hcfg hset]
        simp

theorem configurable_Open (d : Device) : configurable d.Open.1 = configurable d := by
  unfold configurable
  rw [Device.Open_dev, Device.Open_configValue]

theorem keptCands_empty_pattern (re : Regexp) (h : Heap) (cands : List Nat) :
    keptCands "" re h cands = openedCands h cands := by
  unfold keptCands
  rw [List.filter_eq_self]
  intro p _
  simp [patternMatches]

/-- C7 (as amended): with the empty pattern, distinct candidates and
retrievable identities, the candidates kept by selectDevice are exactly the
opened ones and the matching step closes none; the call succeeds exactly when
one candidate opened and its configuration negotiation succeeds, and it is
ambiguous exactly when more than one candidate opened. -/
theorem selectDevice_empty_pattern (compile : String → Except String Regexp) (w : World)
    (cands : List Nat) (re : Regexp)
    (hnd : cands.Nodup) (hc : compile "" = .ok re) (hids : IdsRetrievable w.heap cands) :
    keptCands "" re w.heap cands = openedCands w.heap cands ∧
    (∀ p, (afterMatch "" re w cands).heap p = (afterOpen w cands).heap p) ∧
    ((∃ d, (selectDevice compile w cands "").ret = .ok d) ↔
      ∃ c, openedCands w.heap cands = [c] ∧ configurable (w.heap c) = true) ∧
    ((∃ ids, (selectDevice compile w cands "").ret = .error (.moreThanOne ids)) ↔
      1 < (openedCands w.heap cands).length) := by
  have hkept := keptCands_empty_pattern re w.heap cands
  refine ⟨hkept, ?_, ?_⟩
  · intro p
    rw [afterMatch_heap "" re w cands hnd hids p, afterOpen_heap w cands hnd p]
    simp [patternMatches]
  · rw [selectDevice_eq compile w cands "" re hnd hc hids, hkept]
    rcases hop : openedCands w.heap cands with _ | ⟨c, _ | ⟨c2, rest⟩⟩
    · simp
    · have hcmem : c ∈ cands := by
        have : c ∈ openedCands w.heap cands := by rw [hop]; simp
        exact ((mem_openedCands _ _ _).mp this).1
      have hheap : (afterMatch "" re w cands).heap c = (w.heap c).Open.1 :=
        afterMatch_heap_kept "" re w cands hnd hids c hcmem (by simp [patternMatches])
      have hne : ¬ ([c] : List Nat).length = 0 := by simp
      rw [if_neg hne]
      constructor
      · rw [List.map_singleton, finishSelect_one_ok, hheap, configurable_Open]
        simp
      · constructor
        · rintro ⟨ids, h⟩
          exact absurd h (finishSelect_one_not_many _ _ _ _)
        · intro h
          simp at h
    · have hne : ¬ (c :: c2 :: rest).length = 0 := by simp
      have hlt : 1 < (c :: c2 :: rest).length := by simp
      rw [if_neg hne, finishSelect_many _ _ _ hlt]
      simp

/-- Witness of C7: the empty pattern on the three sample candidates. -/
theorem selectDevice_empty_pattern_witness :
    keptCands "" (literal "") sampleHeap [0, 1, 2] = openedCands sampleHeap [0, 1, 2] ∧
    (∀ p, (afterMatch "" (literal "") ⟨sampleHeap, []⟩ [0, 1, 2]).heap p
      = (afterOpen ⟨sampleHeap, []⟩ [0, 1, 2]).heap p) ∧
    ((∃ d, (selectDevice sampleCompile ⟨sampleHeap, []⟩ [0, 1, 2] "").ret = .ok d) ↔
      ∃ c, openedCands sampleHeap [0, 1, 2] = [c] ∧ configurable (sampleHeap c) = true) ∧
    ((∃ ids, (selectDevice sampleCompile ⟨sampleHeap, []⟩ [0, 1, 2] "").ret
        = .error (.moreThanOne ids)) ↔
      1 < (openedCands sampleHeap [0, 1, 2]).length) :=
  selectDevice_empty_pattern sampleCompile ⟨sampleHeap, []⟩ [0, 1, 2] (literal "")
    (by decide) rfl (by decide)

/-- C7 (as stated) fails: with the empty pattern exactly one candidate of
stalledHeap opens and its identity is retrieved, but the call does not succeed,
because the configuration query fails. -/
theorem selectDevice_empty_pattern_one_opened_fails :
    (∃ re, sampleCompile "" = .ok re) ∧ IdsRetrievable stalledHeap [0] ∧
    openedCands stalledHeap [0] = [0] ∧
    (selectDevice sampleCompile ⟨stalledHeap, []⟩ [0] "").ret
      = .error (.getConfiguration "Samsung Galaxy" "pipe error") :=
  ⟨⟨literal "", rfl⟩, by decide, by decide, by decide⟩

/-! ## Configuration negotiation -/

theorem setConfigurationCalls_append (a b : List Event) :
    setConfigurationCalls (a ++ b) = setConfigurationCalls a ++ setConfigurationCalls b := by
  simp [setConfigurationCalls, List.filterMap_append]

theorem setConfigurationCalls_opens (xs : List Nat) :
    setConfigurationCalls (xs.map (fun p => (⟨p, .Open⟩ : Event))) = [] := by
  induction xs with
  | nil => rfl
  | cons c rest ih => simp [setConfigurationCalls]

theorem setConfigurationCalls_release (xs : List Nat) :
    setConfigurationCalls (xs.flatMap releaseCalls) = [] := by
  induction xs with
  | nil => rfl
  | cons c rest ih =>
    rw [List.flatMap_cons, setConfigurationCalls_append, ih]
    simp [setConfigurationCalls, releaseCalls]

theorem setConfigurationCalls_match (k : Nat → Bool) (xs : List Nat) :
    setConfigurationCalls (xs.flatMap (matchCalls k)) = [] := by
  induction xs with
  | nil => rfl
  | cons c rest ih =>
    rw [List.flatMap_cons, setConfigurationCalls_append, ih]
    cases hk : k c <;> simp [setConfigurationCalls, matchCalls, releaseCalls, hk]

theorem setConfigurationCalls_filter (k : Nat → Bool) (xs : List Nat) :
    setConfigurationCalls (xs.flatMap (filterCalls k)) = [] := by
  induction xs with
  | nil => rfl
  | cons c rest ih =>
    rw [List.flatMap_cons, setConfigurationCalls_append, ih]
    cases hk : k c <;> simp [setConfigurationCalls, filterCalls, releaseCalls, hk]

theorem afterMatch_setConfigurationCalls (pattern : String) (re : Regexp) (w : World)
    (cands : List Nat) (hnd : cands.Nodup) (hids : IdsRetrievable w.heap cands) :
    setConfigurationCalls (afterMatch pattern re w cands).trace
      = setConfigurationCalls w.trace := by
  rw [afterMatch_trace pattern re w cands hnd hids, setConfigurationCalls_append,
    setConfigurationCalls_append, setConfigurationCalls_opens, setConfigurationCalls_match]
  simp

theorem afterFilter_setConfigurationCalls (filter : Option Filter) (w : World)
    (cands : List Nat) (hnd : cands.Nodup) :
    setConfigurationCalls (afterFilter filter w cands).trace
      = setConfigurationCalls w.trace := by
  cases filter with
  | none =>
    rw [afterFilter_trace_none w cands hnd, setConfigurationCalls_append,
      setConfigurationCalls_append, setConfigurationCalls_opens,
      setConfigurationCalls_release]
    simp
  | some f =>
    rw [afterFilter_trace_some f w cands hnd, setConfigurationCalls_append,
      setConfigurationCalls_append, setConfigurationCalls_opens,
      setConfigurationCalls_filter]
    simp

theorem finishSelect_negotiated (w : World) (c : Nat) (ids : List String)
    (hget : (w.heap c).dev.getConfigErr = none) :
    Negotiated w c (finishSelect w [c] ids).world := by
  constructor
  · intro hcfg
    rw [finishSelect_same w c ids hget hcfg]
    simp [World.log, setConfigurationCalls_append, setConfigurationCalls, hcfg]
  · intro hcfg
    cases hset : (w.heap c).dev.setConfigErr with
    | some e =>
      rw [finishSelect_set_err w c ids e hget hcfg hset]
      simp [World.log, World.call, setConfigurationCalls_append, setConfigurationCalls]
    | none =>
      rw [finishSelect_set_ok w c ids hget hcfg hset]
      simp [World.log, World.call, setConfigurationCalls_append, setConfigurationCalls,
        Heap.set_same]

theorem finishSelectByFilter_negotiated (w : World) (c : Nat)
    (hget : (w.heap c).dev.getConfigErr = none) :
    Negotiated w c (finishSelectByFilter w [c]).world := by
  constructor
  · intro hcfg
    simp [finishSelectByFilter, World.GetConfiguration, Device.GetConfiguration, hget, hcfg,
      World.log, setConfigurationCalls_append, setConfigurationCalls]
  · intro hcfg
    cases hset : (w.heap c).dev.setConfigErr with
    | some e =>
      simp [finishSelectByFilter, World.GetConfiguration, Device.GetConfiguration, hget, hcfg,
        World.log, World.call, World.SetConfiguration, Device.SetConfiguration, hset,
        setConfigurationCalls_append, setConfigurationCalls]
    | none =>
      simp [finishSelectByFilter, World.GetConfiguration, Device.GetConfiguration, hget, hcfg,
        World.log, World.call, World.SetConfiguration, Device.SetConfiguration, hset,
        setConfigurationCalls_append, setConfigurationCalls, Heap.set_same]

theorem Negotiated.transfer (w w2 after : World) (c : Nat)
    (htrace : setConfigurationCalls w2.trace = setConfigurationCalls w.trace)
    (hdev : (w2.heap c).dev = (w.heap c).dev)
    (hcv : (w2.heap c).configValue = (w.heap c).configValue)
    (h : Negotiated w2 c after) : Negotiated w c after := by
  unfold Negotiated at h ⊢
  rw [htrace, hdev, hcv] at h
  exact h

/-- C8: for the single candidate that remains in selectDevice and in
selectDeviceByFilter, when the configuration query succeeds: if the active
configuration equals the required configValue the call adds no SetConfiguration
call; if it differs the call adds exactly one SetConfiguration call, on that
candidate and with configValue as argument, and when that call succeeds the
active configuration of the candidate is configValue afterwards. -/
theorem configuration_negotiation (compile : String → Except String Regexp) (w : World)
    (cands : List Nat) (pattern : String) (re : Regexp) (filter : Option Filter)
    (debug : Bool) (c : Nat) (hnd : cands.Nodup) :
    (compile pattern = .ok re → IdsRetrievable w.heap cands →
      keptCands pattern re w.heap cands = [c] → (w.heap c).dev.getConfigErr = none →
      Negotiated w c (selectDevice compile w cands pattern).world) ∧
    (keptByFilter filter w.heap cands = [c] → (w.heap c).dev.getConfigErr = none →
      Negotiated w c (selectDeviceByFilter w cands filter debug).world) := by
  constructor
  · intro hc hids hkept hget
    have hk : c ∈ keptCands pattern re w.heap cands := by rw [hkept]; simp
    obtain ⟨hmem, hopen, hmatch⟩ := (mem_keptCands _ _ _ _ _).mp hk
    have hopened : (openedCands w.heap cands).length ≠ 0 := by
      have : c ∈ openedCands w.heap cands := (mem_openedCands _ _ _).mpr ⟨hmem, hopen⟩
      intro h0
      rw [List.length_eq_zero] at h0
      rw [h0] at this
      simp at this
    have hheap := afterMatch_heap_kept pattern re w cands hnd hids c hmem hmatch
    rw [selectDevice_eq compile w cands pattern re hnd hc hids, if_neg hopened, hkept]
    apply Negotiated.transfer w (afterMatch pattern re w cands) _ c
      (afterMatch_setConfigurationCalls pattern re w cands hnd hids)
      (by rw [hheap, Device.Open_dev]) (by rw [hheap, Device.Open_configValue])
    apply finishSelect_negotiated
    rw [hheap, Device.Open_dev]
    exact hget
  · intro hkept hget
    have hk : c ∈ keptByFilter filter w.heap cands := by rw [hkept]; simp
    obtain ⟨hop, hkeep⟩ := List.mem_filter.mp hk
    obtain ⟨hmem, hopen⟩ := (mem_openedCands _ _ _).mp hop
    have hopened : (openedCands w.heap cands).length ≠ 0 := by
      intro h0
      rw [List.length_eq_zero] at h0
      rw [h0] at hop
      simp at hop
    have hheap : (afterFilter filter w cands).heap c = (w.heap c).Open.1 := by
      rw [afterFilter_heap filter w cands hnd c]
      simp [hkeep, hmem]
    rw [selectDeviceByFilter_eq w cands filter debug hnd, if_neg hopened, hkept]
    apply Negotiated.transfer w (afterFilter filter w cands) _ c
      (afterFilter_setConfigurationCalls filter w cands hnd)
      (by rw [hheap, Device.Open_dev]) (by rw [hheap, Device.Open_configValue])
    apply finishSelectByFilter_negotiated
    rw [hheap, Device.Open_dev]
    exact hget

/-- Witness of C8: a phone in configuration 2 that requires configuration 1,
selected by the empty pattern and by a filter. -/
theorem configuration_negotiation_witness :
    Negotiated ⟨phoneHeap, []⟩ 0 (selectDevice sampleCompile ⟨phoneHeap, []⟩ [0] "").world ∧
    Negotiated ⟨phoneHeap, []⟩ 0
      (selectDeviceByFilter ⟨phoneHeap, []⟩ [0] (some inSecondConfiguration) false).world :=
  ⟨(configuration_negotiation sampleCompile ⟨phoneHeap, []⟩ [0] "" (literal "")
      (some inSecondConfiguration) false 0 (by decide)).1 rfl (by decide) (by decide)
      (by decide),
    (configuration_negotiation sampleCompile ⟨phoneHeap, []⟩ [0] "" (literal "")
      (some inSecondConfiguration) false 0 (by decide)).2 (by decide) (by decide)⟩

/-! ## Predicate mode against pattern mode -/

theorem handleCalls_append (a b : List Event) :
    handleCalls (a ++ b) = handleCalls a ++ handleCalls b := by
  simp [handleCalls]

theorem handleCalls_match_filter (k : Nat → Bool) (xs : List Nat) :
    handleCalls (xs.flatMap (filterCalls k)) = handleCalls (xs.flatMap (matchCalls k)) := by
  induction xs with
  | nil => rfl
  | cons c rest ih =>
    rw [List.flatMap_cons, List.flatMap_cons, handleCalls_append, handleCalls_append, ih]
    cases hk : k c <;> simp [handleCalls, filterCalls, matchCalls, hk]

theorem closeAll_heap_congr (w w2 : World) (xs : List Nat) (hnd : xs.Nodup)
    (hheap : w2.heap = w.heap) : (closeAll w2 xs).heap = (closeAll w xs).heap := by
  funext p
  rw [(closeAll_spec xs hnd w2).1 p, (closeAll_spec xs hnd w).1 p, hheap]

theorem finish_refines (w w2 : World) (ks : List Nat) (ids : List String) (hnd : ks.Nodup)
    (hheap : w2.heap = w.heap) (htrace : handleCalls w2.trace = handleCalls w.trace) :
    branchOf (finishSelectByFilter w2 ks).ret = branchOf (finishSelect w ks ids).ret ∧
    (finishSelectByFilter w2 ks).world.heap = (finishSelect w ks ids).world.heap ∧
    handleCalls (finishSelectByFilter w2 ks).world.trace
      = handleCalls (finishSelect w ks ids).world.trace := by
  rcases ks with _ | ⟨c, _ | ⟨c2, rest⟩⟩
  · simp [finishSelectByFilter, finishSelect, branchOf, hheap, htrace]
  · cases hget : (w.heap c).dev.getConfigErr with
    | some e =>
      rw [finishSelect_get_err w c ids e hget]
      simp [finishSelectByFilter, World.GetConfiguration, Device.GetConfiguration, hheap, hget,
        branchOf, World.log, handleCalls_append, htrace]
    | none =>
      by_cases hcfg : (w.heap c).dev.config = (w.heap c).configValue
      · rw [finishSelect_same w c ids hget hcfg]
        simp [finishSelectByFilter, World.GetConfiguration, Device.GetConfiguration, hheap,
          hget, hcfg, branchOf, World.log, handleCalls_append, htrace]
      · cases hset : (w.heap c).dev.setConfigErr with
        | some e =>
          rw [finishSelect_set_err w c ids e hget hcfg hset]
          simp [finishSelectByFilter, World.GetConfiguration, Device.GetConfiguration, hheap,
            hget, hcfg, hset, branchOf, World.log, World.call, World.SetConfiguration,
            Device.SetConfiguration, handleCalls_append, htrace]
        | none =>
          rw [finishSelect_set_ok w c ids hget hcfg hset]
          simp [finishSelectByFilter, World.GetConfiguration, Device.GetConfiguration, hheap,
            hget, hcfg, hset, branchOf, World.log, World.call, World.SetConfiguration,
            Device.SetConfiguration, handleCalls_append, htrace]
  · have hlt : 1 < (c :: c2 :: rest).length := by simp
    rw [finishSelect_many w _ ids hlt]
    have h0 : (c :: c2 :: rest).length ≠ 0 := by simp
    simp only [finishSelectByFilter, h0, hlt, if_true, if_false]
    refine ⟨rfl, closeAll_heap_congr w w2 _ hnd hheap, ?_⟩
    rw [(closeAll_spec _ hnd w2).2, (closeAll_spec _ hnd w).2, handleCalls_append,
      handleCalls_append, htrace]

theorem keptByFilter_eq_keptCands (f : Filter) (pattern : String) (re : Regexp) (h : Heap)
    (cands : List Nat)
    (hf : ∀ p ∈ cands, canOpen (h p) = true →
      f (h p).Open.1 = patternMatches pattern re (idOf (h p))) :
    keptByFilter (some f) h cands = keptCands pattern re h cands := by
  unfold keptByFilter keptCands
  apply List.filter_congr
  intro p hp
  obtain ⟨hpc, hpo⟩ := (mem_openedCands _ _ _).mp hp
  exact hf p hpc hpo

theorem setConfigurationCalls_handleCalls (t : List Event) :
    setConfigurationCalls (handleCalls t) = setConfigurationCalls t := by
  induction t with
  | nil => rfl
  | cons e rest ih =>
    obtain ⟨p, call⟩ := e
    cases call <;>
      simp [handleCalls, setConfigurationCalls, List.filter_cons, List.filterMap_cons] at ih ⊢ <;>
      exact ih

theorem flatMap_filterCalls_congr (k1 k2 : Nat → Bool) (xs : List Nat)
    (h : ∀ p ∈ xs, k1 p = k2 p) :
    xs.flatMap (filterCalls k1) = xs.flatMap (filterCalls k2) := by
  induction xs with
  | nil => rfl
  | cons c rest ih =>
    rw [List.flatMap_cons, List.flatMap_cons, ih (fun p hp => h p (List.mem_cons_of_mem _ hp))]
    simp [filterCalls, h c (List.mem_cons_self _ _)]

/-- C9: for distinct candidates, a valid pattern and retrievable identities, a
predicate that returns on every opened candidate what the test of selectDevice
returns on its identity makes selectDeviceByFilter take the same branch as
selectDevice (with the same device on success), leave the same heap, so the
same handles open and closed, and make the same calls on handles and
references, configuration calls included, in the same order. -/
theorem filter_refines_pattern (compile : String → Except String Regexp) (w : World)
    (cands : List Nat) (pattern : String) (re : Regexp) (f : Filter) (debug : Bool)
    (hnd : cands.Nodup) (hc : compile pattern = .ok re)
    (hids : IdsRetrievable w.heap cands)
    (hf : ∀ p ∈ cands, canOpen (w.heap p) = true →
      f (w.heap p).Open.1 = patternMatches pattern re (idOf (w.heap p))) :
    branchOf (selectDeviceByFilter w cands (some f) debug).ret
      = branchOf (selectDevice compile w cands pattern).ret ∧
    (selectDeviceByFilter w cands (some f) debug).world.heap
      = (selectDevice compile w cands pattern).world.heap ∧
    handleCalls (selectDeviceByFilter w cands (some f) debug).world.trace
      = handleCalls (selectDevice compile w cands pattern).world.trace ∧
    setConfigurationCalls (selectDeviceByFilter w cands (some f) debug).world.trace
      = setConfigurationCalls (selectDevice compile w cands pattern).world.trace := by
  have hkept := keptByFilter_eq_keptCands f pattern re w.heap cands hf
  rw [selectDeviceByFilter_eq w cands (some f) debug hnd,
    selectDevice_eq compile w cands pattern re hnd hc hids]
  have hall : ∀ a b : SelectResult,
      (branchOf a.ret = branchOf b.ret ∧ a.world.heap = b.world.heap ∧
        handleCalls a.world.trace = handleCalls b.world.trace) →
      (branchOf a.ret = branchOf b.ret ∧ a.world.heap = b.world.heap ∧
        handleCalls a.world.trace = handleCalls b.world.trace ∧
        setConfigurationCalls a.world.trace = setConfigurationCalls b.world.trace) := by
    intro a b h
    refine ⟨h.1, h.2.1, h.2.2, ?_⟩
    rw [← setConfigurationCalls_handleCalls a.world.trace,
      ← setConfigurationCalls_handleCalls b.world.trace, h.2.2]
  apply hall
  by_cases hop : (openedCands w.heap cands).length = 0
  · rw [if_pos hop, if_pos hop]
    exact ⟨rfl, rfl, rfl⟩
  · rw [if_neg hop, if_neg hop, hkept]
    apply finish_refines _ _ _ _ (keptCands_nodup pattern re w.heap cands hnd)
    · funext p
      rw [afterFilter_heap (some f) w cands hnd p, afterMatch_heap pattern re w cands hnd hids p]
      by_cases hp : p ∈ openedCands w.heap cands
      · obtain ⟨hpc, hpo⟩ := (mem_openedCands _ _ _).mp hp
        have : filterKeeps (some f) w.heap p = patternMatches pattern re (idOf (w.heap p)) :=
          hf p hpc hpo
        rw [this]
      · simp [hp]
    · rw [afterFilter_trace_some f w cands hnd, afterMatch_trace pattern re w cands hnd hids,
        handleCalls_append, handleCalls_append, handleCalls_append, handleCalls_append,
        flatMap_filterCalls_congr (filterKeeps (some f) w.heap)
          (fun p => patternMatches pattern re (idOf (w.heap p))) (openedCands w.heap cands)
          (fun p hp => hf p ((mem_openedCands _ _ _).mp hp).1 ((mem_openedCands _ _ _).mp hp).2),
        handleCalls_match_filter]

/-- Witness of C9: the filter that applies the test for Nexus to the identity,
on the three sample candidates. -/
theorem filter_refines_pattern_witness :
    branchOf (selectDeviceByFilter ⟨sampleHeap, []⟩ [0, 1, 2]
        (some (patternFilter "Nexus" (literal "Nexus"))) false).ret
      = branchOf (selectDevice sampleCompile ⟨sampleHeap, []⟩ [0, 1, 2] "Nexus").ret ∧
    (selectDeviceByFilter ⟨sampleHeap, []⟩ [0, 1, 2]
        (some (patternFilter "Nexus" (literal "Nexus"))) false).world.heap
      = (selectDevice sampleCompile ⟨sampleHeap, []⟩ [0, 1, 2] "Nexus").world.heap ∧
    handleCalls (selectDeviceByFilter ⟨sampleHeap, []⟩ [0, 1, 2]
        (some (patternFilter "Nexus" (literal "Nexus"))) false).world.trace
      = handleCalls (selectDevice sampleCompile ⟨sampleHeap, []⟩ [0, 1, 2] "Nexus").world.trace ∧
    setConfigurationCalls (selectDeviceByFilter ⟨sampleHeap, []⟩ [0, 1, 2]
        (some (patternFilter "Nexus" (literal "Nexus"))) false).world.trace
      = setConfigurationCalls
          (selectDevice sampleCompile ⟨sampleHeap, []⟩ [0, 1, 2] "Nexus").world.trace :=
  filter_refines_pattern sampleCompile ⟨sampleHeap, []⟩ [0, 1, 2] "Nexus" (literal "Nexus")
    (patternFilter "Nexus" (literal "Nexus")) false (by decide) rfl (by decide) (by decide)

/-! ## Release of the candidates that are not selected -/

theorem branchOf_success (r : Except SelectError Nat) (p : Nat) :
    branchOf r = .success p ↔ r = .ok p := by
  cases r with
  | ok c => simp [branchOf]
  | error e => cases e <;> simp [branchOf]

theorem finishSelect_heap (w : World) (ks : List Nat) (ids : List String) (hnd : ks.Nodup)
    (p : Nat) :
    (p ∉ ks → (finishSelect w ks ids).world.heap p = w.heap p) ∧
    (p ∈ ks → branchOf (finishSelect w ks ids).ret ≠ .success p →
      (finishSelect w ks ids).world.heap p = (w.heap p).Close.Done ∨
      (ks = [p] ∧ branchOf (finishSelect w ks ids).ret = .configurationFailed ∧
        ((finishSelect w ks ids).world.heap p).opened = (w.heap p).opened)) := by
  rcases ks with _ | ⟨c, _ | ⟨c2, rest⟩⟩
  · simp [finishSelect_nil]
  · cases hget : (w.heap c).dev.getConfigErr with
    | some e =>
      rw [finishSelect_get_err w c ids e hget]
      constructor
      · intro _; rfl
      · intro hp _
        have hpc : p = c := by simpa using hp
        subst hpc
        exact Or.inr ⟨rfl, rfl, rfl⟩
    | none =>
      by_cases hcfg : (w.heap c).dev.config = (w.heap c).configValue
      · rw [finishSelect_same w c ids hget hcfg]
        constructor
        · intro _; rfl
        · intro hp hne
          have hpc : p = c := by simpa using hp
          subst hpc
          exact absurd rfl hne
      · cases hset : (w.heap c).dev.setConfigErr with
        | some e =>
          rw [finishSelect_set_err w c ids e hget hcfg hset]
          constructor
          · intro hp
            have hpc : p ≠ c := by simpa using hp
            simp [World.call, World.log, Heap.set_other _ _ _ _ hpc]
          · intro hp _
            have hpc : p = c := by simpa using hp
            subst hpc
            refine Or.inr ⟨rfl, rfl, ?_⟩
            simp [World.call, World.log, Heap.set_same]
        | none =>
          rw [finishSelect_set_ok w c ids hget hcfg hset]
          constructor
          · intro hp
            have hpc : p ≠ c := by simpa using hp
            simp [World.call, World.log, Heap.set_other _ _ _ _ hpc]
          · intro hp hne
            have hpc : p = c := by simpa using hp
            subst hpc
            exact absurd rfl hne
  · have hlt : 1 < (c :: c2 :: rest).length := by simp
    rw [finishSelect_many w _ ids hlt]
    constructor
    · intro hp
      show (closeAll w (c :: c2 :: rest)).heap p = w.heap p
      rw [(closeAll_spec _ hnd w).1 p, if_neg hp]
    · intro hp _
      left
      show (closeAll w (c :: c2 :: rest)).heap p = _
      rw [(closeAll_spec _ hnd w).1 p, if_pos hp]

theorem finishSelectByFilter_heap (w : World) (ks : List Nat) (hnd : ks.Nodup) (p : Nat) :
    (p ∉ ks → (finishSelectByFilter w ks).world.heap p = w.heap p) ∧
    (p ∈ ks → branchOf (finishSelectByFilter w ks).ret ≠ .success p →
      (finishSelectByFilter w ks).world.heap p = (w.heap p).Close.Done ∨
      (ks = [p] ∧ branchOf (finishSelectByFilter w ks).ret = .configurationFailed ∧
        ((finishSelectByFilter w ks).world.heap p).opened = (w.heap p).opened)) := by
  obtain ⟨hb, hh, _⟩ := finish_refines w w ks [] hnd rfl rfl
  rw [hb, hh]
  exact finishSelect_heap w ks [] hnd p

theorem openedCands_length_ne_zero (h : Heap) (cands : List Nat) (p : Nat) (hp : p ∈ cands)
    (hpo : canOpen (h p) = true) : (openedCands h cands).length ≠ 0 := by
  have : p ∈ openedCands h cands := (mem_openedCands _ _ _).mpr ⟨hp, hpo⟩
  intro h0
  rw [List.length_eq_zero] at h0
  rw [h0] at this
  simp at this

/-- C5 (as amended): for distinct candidates, selectDevice with an invalid
pattern leaves heap and trace as they are; on every return path of selectDevice
on which all identities are retrieved, and on every return path of
selectDeviceByFilter, every candidate that was opened and is not the returned
device has been closed and released when the call returns, except that the
single remaining candidate is left open when configuration negotiation
fails. -/
theorem not_selected_released (compile : String → Except String Regexp) (w : World)
    (cands : List Nat) (pattern : String) (filter : Option Filter) (debug : Bool)
    (hnd : cands.Nodup) :
    (∀ e, compile pattern = .error e →
      (selectDevice compile w cands pattern).world.heap = w.heap ∧
      (selectDevice compile w cands pattern).world.trace = w.trace) ∧
    (∀ re, compile pattern = .ok re → IdsRetrievable w.heap cands →
      ∀ p ∈ cands, canOpen (w.heap p) = true →
        (selectDevice compile w cands pattern).ret ≠ .ok p →
        ClosedAndReleased (w.heap p) ((selectDevice compile w cands pattern).world.heap p) ∨
        (keptCands pattern re w.heap cands = [p] ∧
          branchOf (selectDevice compile w cands pattern).ret = .configurationFailed ∧
          ((selectDevice compile w cands pattern).world.heap p).opened = true)) ∧
    (∀ p ∈ cands, canOpen (w.heap p) = true →
      (selectDeviceByFilter w cands filter debug).ret ≠ .ok p →
      ClosedAndReleased (w.heap p) ((selectDeviceByFilter w cands filter debug).world.heap p) ∨
      (keptByFilter filter w.heap cands = [p] ∧
        branchOf (selectDeviceByFilter w cands filter debug).ret = .configurationFailed ∧
        ((selectDeviceByFilter w cands filter debug).world.heap p).opened = true)) := by
  refine ⟨?_, ?_, ?_⟩
  · intro e he
    unfold selectDevice
    rw [he]
    exact ⟨rfl, rfl⟩
  · intro re hc hids p hp hpo
    have hopenc : (w.heap p).dev.openErr = none := by
      simpa [canOpen] using hpo
    rw [selectDevice_eq compile w cands pattern re hnd hc hids,
      if_neg (openedCands_length_ne_zero w.heap cands p hp hpo)]
    intro hret
    have hfin := finishSelect_heap (afterMatch pattern re w cands)
      (keptCands pattern re w.heap cands)
      ((keptCands pattern re w.heap cands).map (fun p => idOf (w.heap p)))
      (keptCands_nodup pattern re w.heap cands hnd) p
    by_cases hk : p ∈ keptCands pattern re w.heap cands
    · have hheap := afterMatch_heap_kept pattern re w cands hnd hids p hp
        ((mem_keptCands _ _ _ _ _).mp hk).2.2
      rcases hfin.2 hk (fun h => hret ((branchOf_success _ _).mp h)) with h | ⟨h1, h2, h3⟩
      · left
        rw [h, hheap]
        exact closedAndReleased_of_release _
      · right
        refine ⟨h1, h2, ?_⟩
        rw [h3, hheap]
        exact Device.Open_opened_of_ok _ hopenc
    · left
      rw [hfin.1 hk]
      have hm : patternMatches pattern re (idOf (w.heap p)) = false := by
        cases hm : patternMatches pattern re (idOf (w.heap p)) with
        | false => rfl
        | true => exact absurd ((mem_keptCands _ _ _ _ _).mpr ⟨hp, hpo, hm⟩) hk
      rw [afterMatch_heap_rejected pattern re w cands hnd hids p hp hpo hm]
      exact closedAndReleased_of_release _
  · intro p hp hpo
    have hopenc : (w.heap p).dev.openErr = none := by
      simpa [canOpen] using hpo
    have hpop : p ∈ openedCands w.heap cands := (mem_openedCands _ _ _).mpr ⟨hp, hpo⟩
    rw [selectDeviceByFilter_eq w cands filter debug hnd,
      if_neg (openedCands_length_ne_zero w.heap cands p hp hpo)]
    intro hret
    have hfin := finishSelectByFilter_heap (afterFilter filter w cands)
      (keptByFilter filter w.heap cands) ((openedCands_nodup _ _ hnd).filter _) p
    by_cases hk : p ∈ keptByFilter filter w.heap cands
    · have hkeep : filterKeeps filter w.heap p = true := (List.mem_filter.mp hk).2
      have hheap : (afterFilter filter w cands).heap p = (w.heap p).Open.1 := by
        rw [afterFilter_heap filter w cands hnd p]
        simp [hkeep, hp]
      rcases hfin.2 hk (fun h => hret ((branchOf_success _ _).mp h)) with h | ⟨h1, h2, h3⟩
      · left
        rw [h, hheap]
        exact closedAndReleased_of_release _
      · right
        refine ⟨h1, h2, ?_⟩
        rw [h3, hheap]
        exact Device.Open_opened_of_ok _ hopenc
    · left
      rw [hfin.1 hk]
      have hkeep : filterKeeps filter w.heap p = false := by
        cases hm : filterKeeps filter w.heap p with
        | false => rfl
        | true => exact absurd (List.mem_filter.mpr ⟨hpop, hm⟩) hk
      rw [afterFilter_heap filter w cands hnd p]
      simp only [hpop, hkeep, and_self, if_true]
      exact closedAndReleased_of_release _

/-- Witness of C5: the three sample candidates, the pattern Nexus and the nil
filter. -/
theorem not_selected_released_witness :
    (∀ p ∈ [0, 1, 2], canOpen (sampleHeap p) = true →
      (selectDevice sampleCompile ⟨sampleHeap, []⟩ [0, 1, 2] "Nexus").ret ≠ .ok p →
      ClosedAndReleased (sampleHeap p)
          ((selectDevice sampleCompile ⟨sampleHeap, []⟩ [0, 1, 2] "Nexus").world.heap p) ∨
        (keptCands "Nexus" (literal "Nexus") sampleHeap [0, 1, 2] = [p] ∧
          branchOf (selectDevice sampleCompile ⟨sampleHeap, []⟩ [0, 1, 2] "Nexus").ret
            = .configurationFailed ∧
          ((selectDevice sampleCompile ⟨sampleHeap, []⟩ [0, 1, 2] "Nexus").world.heap p).opened
            = true)) ∧
    (∀ p ∈ [0, 1, 2], canOpen (sampleHeap p) = true →
      (selectDeviceByFilter ⟨sampleHeap, []⟩ [0, 1, 2] none false).ret ≠ .ok p →
      ClosedAndReleased (sampleHeap p)
          ((selectDeviceByFilter ⟨sampleHeap, []⟩ [0, 1, 2] none false).world.heap p) ∨
        (keptByFilter none sampleHeap [0, 1, 2] = [p] ∧
          branchOf (selectDeviceByFilter ⟨sampleHeap, []⟩ [0, 1, 2] none false).ret
            = .configurationFailed ∧
          ((selectDeviceByFilter ⟨sampleHeap, []⟩ [0, 1, 2] none false).world.heap p).opened
            = true)) :=
  ⟨(not_selected_released sampleCompile ⟨sampleHeap, []⟩ [0, 1, 2] "Nexus" none false
      (by decide)).2.1 (literal "Nexus") rfl (by decide),
    (not_selected_released sampleCompile ⟨sampleHeap, []⟩ [0, 1, 2] "Nexus" none false
      (by decide)).2.2⟩

/-- C5 (as stated) fails: the only candidate of stalledHeap is opened, the
configuration query fails, and the call returns an error and no device while
the candidate is still open and still holds its reference; the same happens in
selectDeviceByFilter. -/
theorem not_selected_released_fails :
    canOpen (stalledHeap 0) = true ∧
    (selectDevice sampleCompile ⟨stalledHeap, []⟩ [0] "").ret
      = .error (.getConfiguration "Samsung Galaxy" "pipe error") ∧
    ((selectDevice sampleCompile ⟨stalledHeap, []⟩ [0] "").world.heap 0).opened = true ∧
    ¬ ClosedAndReleased (stalledHeap 0)
        ((selectDevice sampleCompile ⟨stalledHeap, []⟩ [0] "").world.heap 0) ∧
    (selectDeviceByFilter ⟨stalledHeap, []⟩ [0] (some (fun _ => true)) false).ret
      = .error (.getConfigurationByFilter "pipe error") ∧
    ¬ ClosedAndReleased (stalledHeap 0)
        ((selectDeviceByFilter ⟨stalledHeap, []⟩ [0] (some (fun _ => true)) false).world.heap 0) :=
  ⟨by decide, by decide, by decide, by decide, by decide, by decide⟩

/-- The return marked TODO in the second loop of selectDevice: when the
identity of the second opened candidate cannot be retrieved, the call returns
the error for index 1 and both candidates are left open. -/
theorem identify_failure_leaves_open :
    (selectDevice sampleCompile ⟨muteHeap, []⟩ [0, 1] "").ret = .error (.idDev 1 "stall") ∧
    ((selectDevice sampleCompile ⟨muteHeap, []⟩ [0, 1] "").world.heap 0).opened = true ∧
    ((selectDevice sampleCompile ⟨muteHeap, []⟩ [0, 1] "").world.heap 1).opened = true :=
  ⟨by decide, by decide, by decide⟩

/-- The example of the specification for C8: a device that requires
configuration 1 and is in configuration 2 is selected by the empty pattern with
one SetConfiguration call and ends in configuration 1. -/
theorem negotiation_example :
    (selectDevice sampleCompile ⟨phoneHeap, []⟩ [0] "").ret = .ok 0 ∧
    setConfigurationCalls (selectDevice sampleCompile ⟨phoneHeap, []⟩ [0] "").world.trace
      = [(0, 1)] ∧
    ((selectDevice sampleCompile ⟨phoneHeap, []⟩ [0] "").world.heap 0).dev.config = 1 :=
  ⟨by decide, by decide, by decide⟩

/-! ## References taken by the scanner -/

theorem scanConfigs_none_dev (d : UsbDevice) (dd : DeviceDescriptor) (idxs : List Nat) :
    ∀ f : List Nat, (scanConfigs d dd idxs f).cand = none → (scanConfigs d dd idxs f).dev = d := by
  induction idxs with
  | nil => intro f _; rfl
  | cons i rest ih =>
    intro f h
    unfold scanConfigs at h ⊢
    cases hc : d.GetConfigDescriptor i with
    | error e => rfl
    | ok cdecs =>
      rw [hc] at h
      simp only [] at h ⊢
      cases hs : scanInterfaces d dd cdecs cdecs.Interfaces with
      | some m => rw [hs] at h; simp at h
      | none =>
        rw [hs] at h
        simp only [] at h ⊢
        exact ih _ h

theorem hasMtpShape_of_usable (a : InterfaceDescriptor) (h : hasUsableShape a = true) :
    hasMtpShape a = true := by
  unfold hasUsableShape at h
  exact (Bool.and_eq_true _ _ ▸ h).1

theorem scan_some_found (d : UsbDevice) (dd : DeviceDescriptor) (m : Device)
    (hdd : d.GetDeviceDescriptor = .ok dd)
    (h : (candidateFromDeviceDescriptor d).cand = some m) :
    ∃ i cdecs a, i < dd.NumConfigurations ∧ d.GetConfigDescriptor i = .ok cdecs ∧
      a ∈ altSettingsOf cdecs ∧ hasUsableShape a = true ∧
      (∀ j, j < i → ∃ cj, d.GetConfigDescriptor j = .ok cj) ∧
      m.dev = d.Ref ∧ (candidateFromDeviceDescriptor d).dev = d.Ref := by
  unfold candidateFromDeviceDescriptor at h ⊢
  rw [hdd] at h ⊢
  simp only [] at h ⊢
  obtain ⟨pre, i, post, cdecs, a, hsplit, hpre, hi, hfind, hm, _, hdev⟩ :=
    scanConfigs_some d dd _ [] m h
  have hrange := range_split _ i pre post hsplit
  have hilt : i < dd.NumConfigurations := by
    have : i ∈ List.range dd.NumConfigurations := by rw [hsplit]; simp
    exact List.mem_range.mp this
  refine ⟨i, cdecs, a, hilt, hi, List.mem_of_find?_eq_some hfind, ?_, ?_, ?_, hdev⟩
  · rw [← rolesFilled_eq_usable]
    exact List.find?_some hfind
  · intro j hj
    have hjm : j ∈ pre ++ [i] := by rw [hrange]; exact List.mem_range.mpr (by omega)
    rcases List.mem_append.mp hjm with hjp | hji
    · obtain ⟨cj, hcj, _⟩ := hpre j hjp
      exact ⟨cj, hcj⟩
    · have : j = i := by simpa using hji
      omega
  · rw [hm]; rfl

/-- C11 (as amended): the scanner returns no candidate when the device
descriptor cannot be retrieved, when a configuration descriptor cannot be
retrieved and no alt-setting of an earlier configuration is accepted, and when
no alt-setting has the three-endpoint shape; it returns nothing but a candidate
or none, so it raises no error; it leaves the reference count of the device as
it is when it returns no candidate and takes exactly one reference, held by the
candidate, when it returns one. -/
theorem scan_without_candidate (d : UsbDevice) :
    (∀ e, d.GetDeviceDescriptor = .error e →
      (candidateFromDeviceDescriptor d).cand = none) ∧
    (∀ dd i e, d.GetDeviceDescriptor = .ok dd → i < dd.NumConfigurations →
      d.GetConfigDescriptor i = .error e →
      (∀ j cj, j < i → d.GetConfigDescriptor j = .ok cj →
        ∀ a ∈ altSettingsOf cj, hasUsableShape a = false) →
      (candidateFromDeviceDescriptor d).cand = none) ∧
    (∀ dd, d.GetDeviceDescriptor = .ok dd → ¬ SomeAltSetting hasMtpShape d dd →
      (candidateFromDeviceDescriptor d).cand = none) ∧
    ((candidateFromDeviceDescriptor d).cand = none →
      (candidateFromDeviceDescriptor d).dev.refs = d.refs) ∧
    (∀ m, (candidateFromDeviceDescriptor d).cand = some m →
      (candidateFromDeviceDescriptor d).dev.refs = d.refs + 1 ∧ m.dev.refs = d.refs + 1) := by
  refine ⟨?_, ?_, ?_, ?_, ?_⟩
  · intro e he
    unfold candidateFromDeviceDescriptor
    rw [he]
  · intro dd i e hdd hi hfail hbefore
    cases hcand : (candidateFromDeviceDescriptor d).cand with
    | none => rfl
    | some m =>
      exfalso
      obtain ⟨i0, cdecs, a, _, hi0, ha, hus, hearlier, _, _⟩ := scan_some_found d dd m hdd hcand
      rcases Nat.lt_trichotomy i i0 with hlt | heq | hgt
      · obtain ⟨cj, hcj⟩ := hearlier i hlt
        rw [hfail] at hcj
        exact Except.noConfusion hcj
      · subst heq
        rw [hfail] at hi0
        exact Except.noConfusion hi0
      · have := hbefore i0 cdecs hgt hi0 a ha
        rw [hus] at this
        exact Bool.noConfusion this
  · intro dd hdd hno
    cases hcand : (candidateFromDeviceDescriptor d).cand with
    | none => rfl
    | some m =>
      exfalso
      obtain ⟨i0, cdecs, a, hi0lt, hi0, ha, hus, _, _, _⟩ := scan_some_found d dd m hdd hcand
      obtain ⟨iface, hif, hai⟩ := (mem_altSettingsOf _ _).mp ha
      exact hno ⟨i0, cdecs, iface, a, hi0lt, hi0, hif, hai, hasMtpShape_of_usable a hus⟩
  · intro hnone
    unfold candidateFromDeviceDescriptor at hnone ⊢
    cases hdd : d.GetDeviceDescriptor with
    | error e => rfl
    | ok dd =>
      rw [hdd] at hnone
      simp only [] at hnone ⊢
      rw [scanConfigs_none_dev d dd _ [] hnone]
  · intro m hm
    cases hdd : d.GetDeviceDescriptor with
    | error e =>
      unfold candidateFromDeviceDescriptor at hm
      rw [hdd] at hm
      simp at hm
    | ok dd =>
      obtain ⟨_, _, _, _, _, _, _, _, hmdev, hdev⟩ := scan_some_found d dd m hdd hm
      rw [hdev, hmdev]
      exact ⟨rfl, rfl⟩

/-- Witness of C11: the second configuration of lostConfigDevice cannot be
retrieved and the first holds no accepted alt-setting. -/
theorem scan_without_candidate_witness :
    (candidateFromDeviceDescriptor lostConfigDevice).cand = none ∧
    (∀ m, (candidateFromDeviceDescriptor mtpDevice).cand = some m →
      (candidateFromDeviceDescriptor mtpDevice).dev.refs = mtpDevice.refs + 1 ∧
      m.dev.refs = mtpDevice.refs + 1) :=
  ⟨(scan_without_candidate lostConfigDevice).2.1 twoConfigDescr 1 "pipe error" rfl
      (by decide) rfl (by
        intro j cj hj hcj a ha
        have hj0 : j = 0 := by omega
        subst hj0
        have hc : cj = configOf [zeroSendAlt] := by
          have h2 : lostConfigDevice.GetConfigDescriptor 0
              = .ok (configOf [zeroSendAlt]) := rfl
          rw [h2] at hcj
          exact (Except.ok.inj hcj).symm
        subst hc
        have ha2 : a = zeroSendAlt := by
          simpa [altSettingsOf, configOf] using ha
        subst ha2
        decide),
    (scan_without_candidate mtpDevice).2.2.2.2⟩

/-- C11 (as stated) fails: the second configuration descriptor of
laterConfigLostDevice cannot be retrieved, but the scanner returns a candidate,
built from the first configuration, and never asks for the second. -/
theorem scan_without_candidate_fails :
    laterConfigLostDevice.GetDeviceDescriptor = .ok twoConfigDescr ∧
    (1 < twoConfigDescr.NumConfigurations ∧
      laterConfigLostDevice.GetConfigDescriptor 1 = .error "pipe error") ∧
    (candidateFromDeviceDescriptor laterConfigLostDevice).cand.isSome = true ∧
    (candidateFromDeviceDescriptor laterConfigLostDevice).fetched = [0] :=
  ⟨rfl, ⟨by decide, rfl⟩, by decide, by decide⟩

/-! ## FindDevices -/

theorem findLoop_spec (l : List UsbDevice) :
    ∀ (cands : List Device) (seen : List UsbDevice),
      findLoop l cands seen
        = (cands ++ l.filterMap foundCandidate,
            seen ++ l.map (fun d => (candidateFromDeviceDescriptor d).dev)) := by
  induction l with
  | nil => intro cands seen; simp [findLoop]
  | cons d rest ih =>
    intro cands seen
    unfold findLoop
    cases hc : (candidateFromDeviceDescriptor d).cand with
    | some cand =>
      simp only []
      rw [ih]
      simp [List.filterMap_cons, foundCandidate, hc]
    | none =>
      simp only []
      rw [ih]
      simp [List.filterMap_cons, foundCandidate, hc]

/-- C12 (as amended): FindDevices fails exactly when the retrieval of the
device list fails, with the error of the retrieval; otherwise it returns, in
the order of the list, the candidates the scanner makes of the listed devices,
devices without candidate skipped, each with the bus number and the path of its
device; Done is called on the list after the loop exactly when the list is not
empty, whatever the number of candidates, and then every listed device gives
back the reference of the list. -/
theorem findDevices_spec (c : Context) :
    (∀ e, (FindDevices c).ret = .error e ↔ c.GetDeviceList = .error e) ∧
    (∀ l, c.GetDeviceList = .ok l →
      (FindDevices c).ret = .ok ((l.filterMap foundCandidate).map
        (fun m => if l.length > 0 then m.afterListDone else m)) ∧
      (FindDevices c).released = decide (l.length > 0) ∧
      (FindDevices c).devices
        = l.map (fun d => (candidateFromDeviceDescriptor d).dev.Unref)) ∧
    (∀ d, foundCandidate d = (candidateFromDeviceDescriptor d).cand.map
      (fun cand => { cand with busNum := d.GetBusNumber, path := d.GetDevicePath })) := by
  refine ⟨?_, ?_, fun _ => rfl⟩
  · intro e
    unfold FindDevices
    cases hl : c.GetDeviceList with
    | error err => simp
    | ok l =>
      by_cases hlen : l.length > 0
      · simp [hlen]
      · simp [hlen]
  · intro l hl
    unfold FindDevices
    rw [hl]
    by_cases hlen : l.length > 0
    · simp [hlen, findLoop_spec, DeviceList.Done]
    · have hnil : l = [] := by
        cases l with
        | nil => rfl
        | cons a b => simp at hlen
      subst hnil
      simp [findLoop]

/-- Witness of C12: the bus with a plain device and an MTP device. -/
theorem findDevices_spec_witness :
    (FindDevices sampleBus).ret = .ok (([plainDevice, busMtpDevice].filterMap foundCandidate).map
      (fun m => if [plainDevice, busMtpDevice].length > 0 then m.afterListDone else m)) ∧
    (FindDevices sampleBus).released = decide ([plainDevice, busMtpDevice].length > 0) ∧
    (FindDevices sampleBus).devices
      = [plainDevice, busMtpDevice].map (fun d => (candidateFromDeviceDescriptor d).dev.Unref) :=
  (findDevices_spec sampleBus).2.1 [plainDevice, busMtpDevice] rfl

/-- C12 (as stated) fails: the device list of emptyBus is retrieved, it is
empty, and FindDevices returns without calling Done on it. -/
theorem findDevices_empty_list_not_released :
    emptyBus.GetDeviceList = .ok [] ∧ (∃ cands, (FindDevices emptyBus).ret = .ok cands) ∧
    (FindDevices emptyBus).released = false :=
  ⟨rfl, ⟨[], rfl⟩, rfl⟩

/-- On the sample bus FindDevices returns one candidate, on bus 1 at path 4.1,
which holds the reference the list held; the plain device is left with no
reference, and Done is called. -/
theorem findDevices_example :
    (∃ m, (FindDevices sampleBus).ret = .ok [m] ∧ m.busNum = 1 ∧ m.path = [4, 1] ∧
      m.ifaceDescr = mtpAlt ∧ m.dev.refs = 1) ∧
    (FindDevices sampleBus).devices.map (fun d => d.refs) = [0, 1] ∧
    (FindDevices sampleBus).released = true :=
  ⟨⟨({ buildCandidate busMtpDevice oneConfigDescr (configOf [mtpAlt]) mtpAlt with
        busNum := 1, path := [4, 1] } : Device).afterListDone,
    rfl, by decide⟩, by decide, by decide⟩

/-! ## Changes a selection cannot see -/

theorem view_set (g : Device → Device) (h : Heap) (q : Nat) (d : Device) :
    (fun p => g (h.set q d p)) = Heap.set (fun p => g (h p)) q (g d) := by
  funext p
  by_cases hp : p = q
  · simp [Heap.set, hp]
  · simp [Heap.set, hp]

theorem view_log (g : Device → Device) (τ : List Event → List Event) (hτ : KeepsCalls τ)
    (w : World) (p : Nat) (c : Call) :
    (w.view g τ).log p c = (w.log p c).view g τ := by
  simp [World.view, World.log, hτ _ _]

theorem view_call (g : Device → Device) (τ : List Event → List Event) (hτ : KeepsCalls τ)
    (w : World) (p : Nat) (c : Call) (d : Device) :
    (w.view g τ).call p c (g d) = (w.call p c d).view g τ := by
  simp [World.view, World.call, hτ _ _, view_set]

theorem view_Open (g : Device → Device) (τ : List Event → List Event) (hg : Unseen g)
    (hτ : KeepsCalls τ) (w : World) (p : Nat) :
    (w.view g τ).Open p = ((w.Open p).1.view g τ, (w.Open p).2) := by
  unfold World.Open
  have h1 : ((w.view g τ).heap p) = g (w.heap p) := rfl
  rw [h1, hg.open_fst, hg.open_snd, view_call g τ hτ]

theorem view_Close (g : Device → Device) (τ : List Event → List Event) (hg : Unseen g)
    (hτ : KeepsCalls τ) (w : World) (p : Nat) :
    (w.view g τ).Close p = (w.Close p).view g τ := by
  unfold World.Close
  have h1 : ((w.view g τ).heap p) = g (w.heap p) := rfl
  rw [h1, hg.close, view_call g τ hτ]

theorem view_Done (g : Device → Device) (τ : List Event → List Event) (hg : Unseen g)
    (hτ : KeepsCalls τ) (w : World) (p : Nat) :
    (w.view g τ).Done p = (w.Done p).view g τ := by
  unfold World.Done
  have h1 : ((w.view g τ).heap p) = g (w.heap p) := rfl
  rw [h1, hg.done, view_call g τ hτ]

theorem view_ID (g : Device → Device) (τ : List Event → List Event) (hg : Unseen g)
    (hτ : KeepsCalls τ) (w : World) (p : Nat) :
    (w.view g τ).ID p = ((w.ID p).1.view g τ, (w.ID p).2) := by
  unfold World.ID
  have h1 : ((w.view g τ).heap p) = g (w.heap p) := rfl
  rw [h1, hg.id, view_log g τ hτ]

theorem view_GetConfiguration (g : Device → Device) (τ : List Event → List Event)
    (hg : Unseen g) (hτ : KeepsCalls τ) (w : World) (p : Nat) :
    (w.view g τ).GetConfiguration p
      = ((w.GetConfiguration p).1.view g τ, (w.GetConfiguration p).2) := by
  unfold World.GetConfiguration
  have h1 : ((w.view g τ).heap p) = g (w.heap p) := rfl
  rw [h1, hg.getConfiguration, view_log g τ hτ]

theorem view_SetConfiguration (g : Device → Device) (τ : List Event → List Event)
    (hg : Unseen g) (hτ : KeepsCalls τ) (w : World) (p v : Nat) :
    (w.view g τ).SetConfiguration p v
      = ((w.SetConfiguration p v).1.view g τ, (w.SetConfiguration p v).2) := by
  unfold World.SetConfiguration
  have h1 : ((w.view g τ).heap p) = g (w.heap p) := rfl
  rw [h1, hg.setConfiguration_fst, hg.setConfiguration_snd, view_call g τ hτ]

theorem view_openLoop (g : Device → Device) (τ : List Event → List Event) (hg : Unseen g)
    (hτ : KeepsCalls τ) (xs : List Nat) :
    ∀ (w : World) (found : List Nat),
      openLoop (w.view g τ) found xs
        = ((openLoop w found xs).1.view g τ, (openLoop w found xs).2) := by
  induction xs with
  | nil => intro w found; rfl
  | cons c rest ih =>
    intro w found
    unfold openLoop
    rw [view_Open g τ hg hτ]
    cases (w.Open c).2 with
    | some e => exact ih _ _
    | none => exact ih _ _

theorem view_closeAll (g : Device → Device) (τ : List Event → List Event) (hg : Unseen g)
    (hτ : KeepsCalls τ) (xs : List Nat) :
    ∀ w : World, closeAll (w.view g τ) xs = (closeAll w xs).view g τ := by
  induction xs with
  | nil => intro w; rfl
  | cons c rest ih =>
    intro w
    unfold closeAll
    rw [view_Close g τ hg hτ, view_Done g τ hg hτ]
    exact ih _

theorem view_matchLoop (g : Device → Device) (τ : List Event → List Event) (hg : Unseen g)
    (hτ : KeepsCalls τ) (pattern : String) (re : Regexp) (xs : List Nat) :
    ∀ (w : World) (found : List Nat) (ids : List String) (i : Nat),
      matchLoop pattern re (w.view g τ) found ids i xs
        = ((matchLoop pattern re w found ids i xs).1.view g τ,
            (matchLoop pattern re w found ids i xs).2) := by
  induction xs with
  | nil => intro w found ids i; rfl
  | cons c rest ih =>
    intro w found ids i
    unfold matchLoop
    rw [view_ID g τ hg hτ]
    cases (w.ID c).2 with
    | error e => rfl
    | ok id =>
      simp only []
      by_cases hk : patternMatches pattern re id = true
      · simp only [hk, if_true]
        exact ih _ _ _ _
      · simp only [hk, if_false]
        rw [view_Close g τ hg hτ, view_Done g τ hg hτ]
        exact ih _ _ _ _

theorem view_filterLoop (g : Device → Device) (τ : List Event → List Event) (hg : Unseen g)
    (hτ : KeepsCalls τ) (filter : Option Filter)
    (hf : ∀ f, filter = some f → ∀ d, f (g d) = f d) (xs : List Nat) :
    ∀ (w : World) (found : List Nat),
      filterLoop filter (w.view g τ) found xs
        = ((filterLoop filter w found xs).1.view g τ, (filterLoop filter w found xs).2) := by
  induction xs with
  | nil => intro w found; rfl
  | cons c rest ih =>
    intro w found
    unfold filterLoop
    cases filter with
    | none =>
      simp only []
      rw [view_Close g τ hg hτ, view_Done g τ hg hτ]
      exact ih _ _
    | some f =>
      simp only []
      have h1 : f ((w.view g τ).heap c) = f (w.heap c) := hf f rfl _
      rw [h1]
      by_cases hk : f (w.heap c) = true
      · simp only [hk, if_true]
        rw [view_log g τ hτ]
        exact ih _ _
      · simp only [hk, if_false]
        rw [view_log g τ hτ, view_Close g τ hg hτ, view_Done g τ hg hτ]
        exact ih _ _

theorem view_finishSelect (g : Device → Device) (τ : List Event → List Event) (hg : Unseen g)
    (hτ : KeepsCalls τ) (w : World) (found : List Nat) (ids : List String) :
    finishSelect (w.view g τ) found ids = (finishSelect w found ids).view g τ := by
  unfold finishSelect
  by_cases h0 : found.length = 0
  · simp only [h0, if_true]; rfl
  · by_cases h1 : found.length > 1
    · simp only [h0, h1, if_true, if_false]
      rw [view_closeAll g τ hg hτ]; rfl
    · simp only [h0, h1, if_false]
      rw [view_GetConfiguration g τ hg hτ]
      cases hget : (w.GetConfiguration (found.headD 0)).2 with
      | error e => rfl
      | ok config =>
        simp only []
        have hcv : (((w.GetConfiguration (found.headD 0)).1.view g τ).heap (found.headD 0)).configValue
            = ((w.GetConfiguration (found.headD 0)).1.heap (found.headD 0)).configValue :=
          hg.configValue _
        rw [hcv]
        by_cases hc : config = ((w.GetConfiguration (found.headD 0)).1.heap (found.headD 0)).configValue
        · simp only [hc, ne_eq, not_true_eq_false, if_false]; rfl
        · simp only [hc, ne_eq, not_false_eq_true, if_true]
          rw [view_SetConfiguration g τ hg hτ]
          cases ((w.GetConfiguration (found.headD 0)).1.SetConfiguration (found.headD 0)
            ((w.GetConfiguration (found.headD 0)).1.heap (found.headD 0)).configValue).2 with
          | some e => rfl
          | none => rfl

theorem view_finishSelectByFilter (g : Device → Device) (τ : List Event → List Event)
    (hg : Unseen g) (hτ : KeepsCalls τ) (w : World) (found : List Nat) :
    finishSelectByFilter (w.view g τ) found = (finishSelectByFilter w found).view g τ := by
  unfold finishSelectByFilter
  by_cases h0 : found.length = 0
  · simp only [h0, if_true]; rfl
  · by_cases h1 : found.length > 1
    · simp only [h0, h1, if_true, if_false]
      rw [view_closeAll g τ hg hτ]; rfl
    · simp only [h0, h1, if_false]
      rw [view_GetConfiguration g τ hg hτ]
      cases hget : (w.GetConfiguration (found.headD 0)).2 with
      | error e => rfl
      | ok config =>
        simp only []
        have hcv : (((w.GetConfiguration (found.headD 0)).1.view g τ).heap (found.headD 0)).configValue
            = ((w.GetConfiguration (found.headD 0)).1.heap (found.headD 0)).configValue :=
          hg.configValue _
        rw [hcv]
        by_cases hc : config = ((w.GetConfiguration (found.headD 0)).1.heap (found.headD 0)).configValue
        · simp only [hc, ne_eq, not_true_eq_false, if_false]; rfl
        · simp only [hc, ne_eq, not_false_eq_true, if_true]
          rw [view_SetConfiguration g τ hg hτ]
          cases ((w.GetConfiguration (found.headD 0)).1.SetConfiguration (found.headD 0)
            ((w.GetConfiguration (found.headD 0)).1.heap (found.headD 0)).configValue).2 with
          | some e => rfl
          | none => rfl

/-- A selection by pattern on a world seen through changes it cannot see gives
the same result, seen through the same changes. -/
theorem view_selectDevice (g : Device → Device) (τ : List Event → List Event) (hg : Unseen g)
    (hτ : KeepsCalls τ) (compile : String → Except String Regexp) (w : World)
    (cands : List Nat) (pattern : String) :
    selectDevice compile (w.view g τ) cands pattern
      = (selectDevice compile w cands pattern).view g τ := by
  unfold selectDevice
  cases compile pattern with
  | error e => rfl
  | ok re =>
    simp only []
    rw [view_openLoop g τ hg hτ]
    simp only []
    by_cases h0 : (openLoop w [] cands).2.length = 0
    · simp only [h0, if_true]; rfl
    · simp only [h0, if_false]
      rw [view_matchLoop g τ hg hτ]
      cases (matchLoop pattern re (openLoop w [] cands).1 [] [] 0 (openLoop w [] cands).2).2 with
      | error e => rfl
      | ok r =>
        simp only []
        exact view_finishSelect g τ hg hτ _ _ _

/-- A selection by filter on a world seen through changes that neither it nor
the filter can see gives the same result, seen through the same changes. -/
theorem view_selectDeviceByFilter (g : Device → Device) (τ : List Event → List Event)
    (hg : Unseen g) (hτ : KeepsCalls τ) (w : World) (cands : List Nat)
    (filter : Option Filter) (hf : ∀ f, filter = some f → ∀ d, f (g d) = f d) (debug : Bool) :
    selectDeviceByFilter (w.view g τ) cands filter debug
      = (selectDeviceByFilter w cands filter debug).view g τ := by
  unfold selectDeviceByFilter
  simp only []
  rw [view_openLoop g τ hg hτ]
  simp only []
  by_cases h0 : (openLoop w [] cands).2.length = 0
  · simp only [h0, if_true]; rfl
  · simp only [h0, if_false]
    rw [view_filterLoop g τ hg hτ filter hf]
    exact view_finishSelectByFilter g τ hg hτ _ _

/-! ## The exported functions -/

theorem unseen_eraseDebug : Unseen eraseDebug := by
  constructor
  · intro d; unfold Device.Open eraseDebug; cases d.dev.openErr <;> rfl
  · intro d; unfold Device.Open eraseDebug; cases d.dev.openErr <;> rfl
  · intro d; rfl
  · intro d; rfl
  · intro d; rfl
  · intro d; rfl
  · intro d v; unfold Device.SetConfiguration eraseDebug; cases d.dev.setConfigErr <;> rfl
  · intro d v; unfold Device.SetConfiguration eraseDebug; cases d.dev.setConfigErr <;> rfl
  · intro d; rfl

theorem keepsCalls_id : KeepsCalls id := fun _ _ => rfl

theorem setDebugging_length (b : Bool) (devs : List Device) :
    (setDebugging b devs).length = devs.length := by
  cases b <;> simp [setDebugging]

theorem eraseDebug_heapOf_setDebugging (b : Bool) (devs : List Device) (p : Nat) :
    eraseDebug (heapOf (setDebugging b devs) p) = eraseDebug (heapOf devs p) := by
  cases b with
  | false => rfl
  | true =>
    simp only [heapOf, setDebugging, if_true, List.getD_eq_getElem?_getD, List.getElem?_map]
    cases devs[p]? with
    | none => rfl
    | some d => rfl

theorem view_heapOf_setDebugging (b : Bool) (devs : List Device) :
    World.view eraseDebug id ⟨heapOf (setDebugging b devs), []⟩
      = World.view eraseDebug id ⟨heapOf devs, []⟩ := by
  unfold World.view
  simp only [id]
  congr 1
  funext p
  exact eraseDebug_heapOf_setDebugging b devs p

theorem selectDevice_setDebugging (compile : String → Except String Regexp)
    (devs : List Device) (pattern : String) (b : Bool) :
    (selectDevice compile ⟨heapOf (setDebugging b devs), []⟩
        (addressesOf (setDebugging b devs)) pattern).view eraseDebug id
      = (selectDevice compile ⟨heapOf devs, []⟩ (addressesOf devs) pattern).view
          eraseDebug id := by
  rw [← view_selectDevice eraseDebug id unseen_eraseDebug keepsCalls_id,
    ← view_selectDevice eraseDebug id unseen_eraseDebug keepsCalls_id,
    view_heapOf_setDebugging]
  unfold addressesOf
  rw [setDebugging_length]

/-- C16: with allowDebugging set, SelectDeviceWithDebugging sets the three debug
flags of every candidate returned by FindDevices and runs the selection by
pattern on the candidates so flagged; without it the candidates are left as
they are and the call is the call of SelectDevice; in both cases the returned
device or error, the calls made and every Device record up to its debug flags,
so every handle and reference count, are those of SelectDevice with the same
pattern on the same bus. -/
theorem debugging_sets_flags_only (compile : String → Except String Regexp) (c : Context)
    (pattern : String) (path : String) (allowDebugging : Bool) :
    (∀ devs : List Device, (setDebugging true devs).length = devs.length ∧
      ∀ m ∈ setDebugging true devs,
        m.USBDebug = true ∧ m.DataDebug = true ∧ m.MTPDebug = true) ∧
    (∀ devs : List Device, setDebugging false devs = devs) ∧
    ((∃ err, (FindDevices c).ret = .error err ∧
        SelectDeviceWithDebugging compile c pattern allowDebugging
          = ⟨.error (.findDevices err), ⟨heapOf [], []⟩⟩) ∨
      ((FindDevices c).ret = .ok [] ∧
        SelectDeviceWithDebugging compile c pattern allowDebugging
          = ⟨.error .noDevicesFound, ⟨heapOf [], []⟩⟩) ∨
      (∃ devs, (FindDevices c).ret = .ok devs ∧ devs ≠ [] ∧
        SelectDeviceWithDebugging compile c pattern allowDebugging
          = selectDevice compile ⟨heapOf (setDebugging allowDebugging devs), []⟩
              (addressesOf (setDebugging allowDebugging devs)) pattern)) ∧
    SelectDeviceWithDebugging compile c pattern false = SelectDevice compile c pattern path ∧
    (SelectDeviceWithDebugging compile c pattern allowDebugging).ret
      = (SelectDevice compile c pattern path).ret ∧
    (SelectDeviceWithDebugging compile c pattern allowDebugging).world.trace
      = (SelectDevice compile c pattern path).world.trace ∧
    ∀ p, eraseDebug ((SelectDeviceWithDebugging compile c pattern allowDebugging).world.heap p)
        = eraseDebug ((SelectDevice compile c pattern path).world.heap p) ∧
      ((SelectDeviceWithDebugging compile c pattern allowDebugging).world.heap p).opened
        = ((SelectDevice compile c pattern path).world.heap p).opened ∧
      ((SelectDeviceWithDebugging compile c pattern allowDebugging).world.heap p).dev.refs
        = ((SelectDevice compile c pattern path).world.heap p).dev.refs := by
  have hview : (SelectDeviceWithDebugging compile c pattern allowDebugging).view eraseDebug id
      = (SelectDevice compile c pattern path).view eraseDebug id := by
    unfold SelectDeviceWithDebugging SelectDevice
    cases (FindDevices c).ret with
    | error err => rfl
    | ok devs =>
      simp only []
      by_cases h0 : devs.length = 0
      · simp only [h0, if_true]
      · simp only [h0, if_false]
        exact selectDevice_setDebugging compile devs pattern allowDebugging
  have hheap : ∀ p,
      eraseDebug ((SelectDeviceWithDebugging compile c pattern allowDebugging).world.heap p)
        = eraseDebug ((SelectDevice compile c pattern path).world.heap p) := by
    intro p
    have := congrArg (fun r : SelectResult => r.world.heap p) hview
    exact this
  refine ⟨?_, fun _ => rfl, ?_, rfl, ?_, ?_, ?_⟩
  · intro devs
    refine ⟨setDebugging_length true devs, ?_⟩
    intro m hm
    simp only [setDebugging, if_true, List.mem_map] at hm
    obtain ⟨d, _, rfl⟩ := hm
    exact ⟨rfl, rfl, rfl⟩
  · unfold SelectDeviceWithDebugging
    cases hf : (FindDevices c).ret with
    | error err => exact Or.inl ⟨err, rfl, rfl⟩
    | ok devs =>
      cases devs with
      | nil => exact Or.inr (Or.inl ⟨rfl, rfl⟩)
      | cons d rest =>
        refine Or.inr (Or.inr ⟨d :: rest, rfl, by simp, ?_⟩)
        simp
  · have h := congrArg (fun r : SelectResult => r.ret) hview
    exact h
  · have h := congrArg (fun r : SelectResult => r.world.trace) hview
    exact h
  · intro p
    have h1 := congrArg (fun d : Device => d.opened) (hheap p)
    have h2 := congrArg (fun d : Device => d.dev.refs) (hheap p)
    exact ⟨hheap p, h1, h2⟩

/-- On the sample bus the call with debugging selects the device at address 0,
as SelectDevice does, and leaves it open with its three debug flags set. -/
theorem debugging_example :
    (SelectDeviceWithDebugging sampleCompile sampleBus "" true).ret = .ok 0 ∧
    (SelectDevice sampleCompile sampleBus "" "1-4.1").ret = .ok 0 ∧
    ((SelectDeviceWithDebugging sampleCompile sampleBus "" true).world.heap 0).opened = true ∧
    ((SelectDeviceWithDebugging sampleCompile sampleBus "" true).world.heap 0).USBDebug = true ∧
    ((SelectDeviceWithDebugging sampleCompile sampleBus "" true).world.heap 0).DataDebug = true ∧
    ((SelectDeviceWithDebugging sampleCompile sampleBus "" true).world.heap 0).MTPDebug = true ∧
    ((SelectDevice sampleCompile sampleBus "" "1-4.1").world.heap 0).USBDebug = false :=
  ⟨by decide, by decide, by decide, by decide, by decide, by decide, by decide⟩

/-- C19: the result of SelectDevice is the same for any two values of its path
argument, and the results of SelectDeviceByFilter and of selectDeviceByFilter
are the same for any two values of their debug argument: the same returned
device or error, the same heap, so the same handles, and the same calls. -/
theorem unused_arguments (compile : String → Except String Regexp) (c : Context)
    (w : World) (cands : List Nat) (pattern : String) (filter : Option Filter) :
    (∀ path1 path2 : String,
      SelectDevice compile c pattern path1 = SelectDevice compile c pattern path2) ∧
    (∀ debug1 debug2 : Bool,
      SelectDeviceByFilter c filter debug1 = SelectDeviceByFilter c filter debug2) ∧
    (∀ debug1 debug2 : Bool,
      selectDeviceByFilter w cands filter debug1 = selectDeviceByFilter w cands filter debug2) :=
  ⟨fun _ _ => rfl, fun _ _ => rfl, fun _ _ => rfl⟩

/-- C17: when the pattern is not a valid regular expression, selectDevice
returns the error of the compilation and no device, and makes no call: the
heap, so the handle and the reference count of every candidate, and the trace
are as before the call. -/
theorem selectDevice_invalid_pattern (compile : String → Except String Regexp) (w : World)
    (cands : List Nat) (pattern : String) (err : String)
    (hc : compile pattern = .error err) :
    (selectDevice compile w cands pattern).ret = .error (.compile err) ∧
    (SelectError.compile err).Error = err ∧
    (selectDevice compile w cands pattern).world = w := by
  unfold selectDevice
  rw [hc]
  exact ⟨rfl, rfl, rfl⟩

/-- Witness of C17: the unclosed bracket on the three sample candidates. -/
theorem selectDevice_invalid_pattern_witness :
    (selectDevice sampleCompile ⟨sampleHeap, []⟩ [0, 1, 2] "[").ret
      = .error (.compile "error parsing regexp") ∧
    (SelectError.compile "error parsing regexp").Error = "error parsing regexp" ∧
    (selectDevice sampleCompile ⟨sampleHeap, []⟩ [0, 1, 2] "[").world = ⟨sampleHeap, []⟩ :=
  selectDevice_invalid_pattern sampleCompile ⟨sampleHeap, []⟩ [0, 1, 2] "["
    "error parsing regexp" rfl

/-! ## The nil filter -/

theorem handleCalls_releaseCalls (xs : List Nat) :
    handleCalls (xs.flatMap releaseCalls) = xs.flatMap releaseCalls := by
  induction xs with
  | nil => rfl
  | cons c rest ih =>
    rw [List.flatMap_cons, handleCalls_append, ih]
    simp [handleCalls, releaseCalls]

theorem handleCalls_filterCalls_false (xs : List Nat) :
    handleCalls (xs.flatMap (filterCalls (fun _ => false))) = xs.flatMap releaseCalls := by
  induction xs with
  | nil => rfl
  | cons c rest ih =>
    rw [List.flatMap_cons, List.flatMap_cons, handleCalls_append, ih]
    simp [handleCalls, filterCalls, releaseCalls]

theorem keptByFilter_none (h : Heap) (cands : List Nat) : keptByFilter none h cands = [] := by
  unfold keptByFilter
  rw [List.filter_eq_nil_iff]
  intro p _
  simp [filterKeeps]

theorem keptByFilter_rejectAll (h : Heap) (cands : List Nat) :
    keptByFilter (some rejectAll) h cands = [] := by
  unfold keptByFilter
  rw [List.filter_eq_nil_iff]
  intro p _
  simp [filterKeeps, rejectAll]

theorem finishSelectByFilter_nil (w : World) :
    finishSelectByFilter w [] = ⟨.error .noDeviceMatched, w⟩ := by
  simp [finishSelectByFilter]

/-- C18: when selectDeviceByFilter is called with the nil filter on distinct
candidates of which at least one opens, it returns the error with the message
no device matched and every opened candidate is closed and released; the
returned error, the heap and the calls on handles and references are those of
the call with a filter that always returns false. -/
theorem selectDeviceByFilter_nil (w : World) (cands : List Nat) (debug : Bool)
    (hnd : cands.Nodup) (hsome : ∃ p ∈ cands, canOpen (w.heap p) = true) :
    (selectDeviceByFilter w cands none debug).ret = .error .noDeviceMatched ∧
    SelectError.noDeviceMatched.Error = "no device matched" ∧
    (∀ p ∈ cands, canOpen (w.heap p) = true →
      ClosedAndReleased (w.heap p) ((selectDeviceByFilter w cands none debug).world.heap p)) ∧
    (selectDeviceByFilter w cands none debug).ret
      = (selectDeviceByFilter w cands (some rejectAll) debug).ret ∧
    (selectDeviceByFilter w cands none debug).world.heap
      = (selectDeviceByFilter w cands (some rejectAll) debug).world.heap ∧
    handleCalls (selectDeviceByFilter w cands none debug).world.trace
      = handleCalls (selectDeviceByFilter w cands (some rejectAll) debug).world.trace := by
  obtain ⟨q, hq, hqo⟩ := hsome
  have hop := openedCands_length_ne_zero w.heap cands q hq hqo
  rw [selectDeviceByFilter_eq w cands none debug hnd,
    selectDeviceByFilter_eq w cands (some rejectAll) debug hnd, if_neg hop, if_neg hop,
    keptByFilter_none, keptByFilter_rejectAll, finishSelectByFilter_nil,
    finishSelectByFilter_nil]
  refine ⟨rfl, rfl, ?_, rfl, ?_, ?_⟩
  · intro p hp hpo
    show ClosedAndReleased _ ((afterFilter none w cands).heap p)
    rw [afterFilter_heap none w cands hnd p]
    have hpop : p ∈ openedCands w.heap cands := (mem_openedCands _ _ _).mpr ⟨hp, hpo⟩
    simp only [hpop, filterKeeps, and_self, if_true]
    exact closedAndReleased_of_release _
  · funext p
    show (afterFilter none w cands).heap p = (afterFilter (some rejectAll) w cands).heap p
    rw [afterFilter_heap none w cands hnd p, afterFilter_heap (some rejectAll) w cands hnd p]
    rfl
  · show handleCalls (afterFilter none w cands).trace
      = handleCalls (afterFilter (some rejectAll) w cands).trace
    have hk : filterKeeps (some rejectAll) w.heap = fun _ => false := by
      funext p
      rfl
    rw [afterFilter_trace_none w cands hnd, afterFilter_trace_some rejectAll w cands hnd, hk]
    simp only [handleCalls_append]
    rw [handleCalls_releaseCalls, handleCalls_filterCalls_false]

/-- Witness of C18: the nil filter on the three sample candidates. -/
theorem selectDeviceByFilter_nil_witness :
    (selectDeviceByFilter ⟨sampleHeap, []⟩ [0, 1, 2] none false).ret
      = .error .noDeviceMatched ∧
    SelectError.noDeviceMatched.Error = "no device matched" ∧
    (∀ p ∈ [0, 1, 2], canOpen (sampleHeap p) = true →
      ClosedAndReleased (sampleHeap p)
        ((selectDeviceByFilter ⟨sampleHeap, []⟩ [0, 1, 2] none false).world.heap p)) ∧
    (selectDeviceByFilter ⟨sampleHeap, []⟩ [0, 1, 2] none false).ret
      = (selectDeviceByFilter ⟨sampleHeap, []⟩ [0, 1, 2] (some rejectAll) false).ret ∧
    (selectDeviceByFilter ⟨sampleHeap, []⟩ [0, 1, 2] none false).world.heap
      = (selectDeviceByFilter ⟨sampleHeap, []⟩ [0, 1, 2] (some rejectAll) false).world.heap ∧
    handleCalls (selectDeviceByFilter ⟨sampleHeap, []⟩ [0, 1, 2] none false).world.trace
      = handleCalls
          (selectDeviceByFilter ⟨sampleHeap, []⟩ [0, 1, 2] (some rejectAll) false).world.trace :=
  selectDeviceByFilter_nil ⟨sampleHeap, []⟩ [0, 1, 2] false (by decide) (by decide)

/-! ## Failure of configuration negotiation -/

theorem finishSelectByFilter_get_err (w : World) (c : Nat) (e : String)
    (hget : (w.heap c).dev.getConfigErr = some e) :
    finishSelectByFilter w [c]
      = ⟨.error (.getConfigurationByFilter e), w.log c .GetConfiguration⟩ := by
  simp [finishSelectByFilter, World.GetConfiguration, Device.GetConfiguration, hget]

theorem finishSelectByFilter_set_err (w : World) (c : Nat) (e : String)
    (hget : (w.heap c).dev.getConfigErr = none)
    (hcfg : (w.heap c).dev.config ≠ (w.heap c).configValue)
    (hset : (w.heap c).dev.setConfigErr = some e) :
    finishSelectByFilter w [c]
      = ⟨.error (.setConfigurationByFilter c e),
          (w.log c .GetConfiguration).call c (.SetConfiguration (w.heap c).configValue)
            (w.heap c)⟩ := by
  simp [finishSelectByFilter, World.GetConfiguration, Device.GetConfiguration, hget, hcfg,
    World.log, World.SetConfiguration, Device.SetConfiguration, hset]

theorem not_configurable (d : Device) (h : configurable d = false) :
    (∃ e, d.dev.getConfigErr = some e) ∨
    (d.dev.getConfigErr = none ∧ d.dev.config ≠ d.configValue ∧
      ∃ e, d.dev.setConfigErr = some e) := by
  unfold configurable at h
  cases hget : d.dev.getConfigErr with
  | some e => exact Or.inl ⟨e, rfl⟩
  | none =>
    right
    rw [hget] at h
    simp only [Option.isNone_none, Bool.true_and, Bool.or_eq_false_iff] at h
    refine ⟨rfl, ?_, ?_⟩
    · intro hc
      rw [hc] at h
      simp at h
    · cases hset : d.dev.setConfigErr with
      | some e => exact ⟨e, rfl⟩
      | none =>
        rw [hset] at h
        simp at h

theorem release_not_in_opens (xs : List Nat) (c : Nat) (call : Call) (hne : call ≠ .Open) :
    (⟨c, call⟩ : Event) ∉ xs.map (fun p => (⟨p, .Open⟩ : Event)) := by
  intro h
  obtain ⟨p, _, hp⟩ := List.mem_map.mp h
  have : Call.Open = call := congrArg Event.call hp
  exact hne this.symm

theorem release_in_matchCalls (k : Nat → Bool) (xs : List Nat) (c : Nat) (call : Call)
    (hcall : call = .Close ∨ call = .Done)
    (h : (⟨c, call⟩ : Event) ∈ xs.flatMap (matchCalls k)) : k c = false := by
  obtain ⟨p, _, hp⟩ := List.mem_flatMap.mp h
  unfold matchCalls at hp
  cases hk : k p with
  | true =>
    rw [hk] at hp
    simp only [if_true, List.mem_singleton, Event.mk.injEq] at hp
    rcases hcall with rfl | rfl <;> exact absurd hp.2 (by decide)
  | false =>
    rw [hk] at hp
    simp only [Bool.false_eq_true, if_false, releaseCalls, List.mem_cons, Event.mk.injEq,
      List.mem_singleton, List.not_mem_nil, or_false] at hp
    rcases hp with hp | hp | hp
    · rcases hcall with rfl | rfl <;> exact absurd hp.2 (by decide)
    · rw [hp.1]; exact hk
    · rw [hp.1]; exact hk

theorem release_in_filterCalls (k : Nat → Bool) (xs : List Nat) (c : Nat) (call : Call)
    (hcall : call = .Close ∨ call = .Done)
    (h : (⟨c, call⟩ : Event) ∈ xs.flatMap (filterCalls k)) : k c = false := by
  obtain ⟨p, _, hp⟩ := List.mem_flatMap.mp h
  unfold filterCalls at hp
  cases hk : k p with
  | true =>
    rw [hk] at hp
    simp only [if_true, List.mem_singleton, Event.mk.injEq] at hp
    rcases hcall with rfl | rfl <;> exact absurd hp.2 (by decide)
  | false =>
    rw [hk] at hp
    simp only [Bool.false_eq_true, if_false, releaseCalls, List.mem_cons, Event.mk.injEq,
      List.mem_singleton, List.not_mem_nil, or_false] at hp
    rcases hp with hp | hp | hp
    · rcases hcall with rfl | rfl <;> exact absurd hp.2 (by decide)
    · rw [hp.1]; exact hk
    · rw [hp.1]; exact hk

/-- The calls that configuration negotiation adds hold no Close and no Done. -/
theorem release_not_in_negotiation (c : Nat) (call : Call)
    (hcall : call = .Close ∨ call = .Done) (tail : List Event)
    (htail : tail = [⟨c, .GetConfiguration⟩] ∨
      ∃ v, tail = [⟨c, .GetConfiguration⟩, ⟨c, .SetConfiguration v⟩]) :
    (⟨c, call⟩ : Event) ∉ tail := by
  intro h
  rcases htail with rfl | ⟨v, rfl⟩
  · simp only [List.mem_singleton, Event.mk.injEq] at h
    rcases hcall with rfl | rfl <;> exact absurd h.2 (by decide)
  · simp only [List.mem_cons, Event.mk.injEq, List.mem_singleton, List.not_mem_nil,
      or_false] at h
    rcases h with h | h <;> rcases hcall with rfl | rfl <;> exact absurd h.2 (by simp)

theorem finishSelect_failure (w : World) (c : Nat) (ids : List String)
    (h : configurable (w.heap c) = false) :
    branchOf (finishSelect w [c] ids).ret = .configurationFailed ∧
    (∀ p, (finishSelect w [c] ids).world.heap p = w.heap p) ∧
    ∃ tail, (finishSelect w [c] ids).world.trace = w.trace ++ tail ∧
      (tail = [⟨c, .GetConfiguration⟩] ∨
        ∃ v, tail = [⟨c, .GetConfiguration⟩, ⟨c, .SetConfiguration v⟩]) := by
  rcases not_configurable _ h with ⟨e, hget⟩ | ⟨hget, hcfg, e, hset⟩
  · rw [finishSelect_get_err w c ids e hget]
    exact ⟨rfl, fun _ => rfl, [⟨c, .GetConfiguration⟩], rfl, Or.inl rfl⟩
  · rw [finishSelect_set_err w c ids e hget hcfg hset]
    refine ⟨rfl, ?_, [⟨c, .GetConfiguration⟩, ⟨c, .SetConfiguration (w.heap c).configValue⟩],
      ?_, Or.inr ⟨_, rfl⟩⟩
    · intro p
      by_cases hp : p = c
      · subst hp; simp [World.call, World.log, Heap.set_same]
      · simp [World.call, World.log, Heap.set_other _ _ _ _ hp]
    · simp [World.call, World.log]

theorem finishSelectByFilter_failure (w : World) (c : Nat)
    (h : configurable (w.heap c) = false) :
    branchOf (finishSelectByFilter w [c]).ret = .configurationFailed ∧
    (∀ p, (finishSelectByFilter w [c]).world.heap p = w.heap p) ∧
    ∃ tail, (finishSelectByFilter w [c]).world.trace = w.trace ++ tail ∧
      (tail = [⟨c, .GetConfiguration⟩] ∨
        ∃ v, tail = [⟨c, .GetConfiguration⟩, ⟨c, .SetConfiguration v⟩]) := by
  rcases not_configurable _ h with ⟨e, hget⟩ | ⟨hget, hcfg, e, hset⟩
  · rw [finishSelectByFilter_get_err w c e hget]
    exact ⟨rfl, fun _ => rfl, [⟨c, .GetConfiguration⟩], rfl, Or.inl rfl⟩
  · rw [finishSelectByFilter_set_err w c e hget hcfg hset]
    refine ⟨rfl, ?_, [⟨c, .GetConfiguration⟩, ⟨c, .SetConfiguration (w.heap c).configValue⟩],
      ?_, Or.inr ⟨_, rfl⟩⟩
    · intro p
      by_cases hp : p = c
      · subst hp; simp [World.call, World.log, Heap.set_same]
      · simp [World.call, World.log, Heap.set_other _ _ _ _ hp]
    · simp [World.call, World.log]

theorem branch_failed_is_error (r : Except SelectError Nat)
    (h : branchOf r = .configurationFailed) : ∃ e, r = .error e := by
  cases r with
  | ok c => simp [branchOf] at h
  | error e => exact ⟨e, rfl⟩

/-- C15: in selectDevice and in selectDeviceByFilter, on distinct candidates,
when exactly one candidate remains and configuration negotiation fails, because
the query fails or because the active configuration differs from the required
one and the set call fails, the call returns an error and no device, and the
remaining candidate is left open with its reference: the call makes no Close
and no Done on it. -/
theorem configuration_failure_leaves_open (compile : String → Except String Regexp)
    (w : World) (cands : List Nat) (pattern : String) (re : Regexp) (filter : Option Filter)
    (debug : Bool) (c : Nat) (hnd : cands.Nodup) :
    (compile pattern = .ok re → IdsRetrievable w.heap cands →
      keptCands pattern re w.heap cands = [c] → configurable (w.heap c) = false →
      (∃ e, (selectDevice compile w cands pattern).ret = .error e) ∧
      branchOf (selectDevice compile w cands pattern).ret = .configurationFailed ∧
      ((selectDevice compile w cands pattern).world.heap c).opened = true ∧
      ((selectDevice compile w cands pattern).world.heap c).dev.refs = (w.heap c).dev.refs ∧
      (⟨c, .Close⟩ : Event) ∉ callsMade w (selectDevice compile w cands pattern) ∧
      (⟨c, .Done⟩ : Event) ∉ callsMade w (selectDevice compile w cands pattern)) ∧
    (keptByFilter filter w.heap cands = [c] → configurable (w.heap c) = false →
      (∃ e, (selectDeviceByFilter w cands filter debug).ret = .error e) ∧
      branchOf (selectDeviceByFilter w cands filter debug).ret = .configurationFailed ∧
      ((selectDeviceByFilter w cands filter debug).world.heap c).opened = true ∧
      ((selectDeviceByFilter w cands filter debug).world.heap c).dev.refs
        = (w.heap c).dev.refs ∧
      (⟨c, .Close⟩ : Event) ∉ callsMade w (selectDeviceByFilter w cands filter debug) ∧
      (⟨c, .Done⟩ : Event) ∉ callsMade w (selectDeviceByFilter w cands filter debug)) := by
  constructor
  · intro hc hids hkept hconf
    have hk : c ∈ keptCands pattern re w.heap cands := by rw [hkept]; simp
    obtain ⟨hmem, hopen, hmatch⟩ := (mem_keptCands _ _ _ _ _).mp hk
    have hopenc : (w.heap c).dev.openErr = none := by simpa [canOpen] using hopen
    have hheap := afterMatch_heap_kept pattern re w cands hnd hids c hmem hmatch
    have hconf2 : configurable ((afterMatch pattern re w cands).heap c) = false := by
      rw [hheap, configurable_Open]; exact hconf
    obtain ⟨hb, hh, tail, ht, htail⟩ :=
      finishSelect_failure (afterMatch pattern re w cands) c
        ((keptCands pattern re w.heap cands).map (fun p => idOf (w.heap p))) hconf2
    have hsel := selectDevice_eq compile w cands pattern re hnd hc hids
    rw [if_neg (openedCands_length_ne_zero w.heap cands c hmem hopen), hkept] at hsel
    rw [hkept] at hb hh ht
    have hcalls : callsMade w (selectDevice compile w cands pattern)
        = cands.map (fun p => (⟨p, .Open⟩ : Event))
          ++ (openedCands w.heap cands).flatMap
              (matchCalls (fun p => patternMatches pattern re (idOf (w.heap p)))) ++ tail := by
      unfold callsMade
      rw [hsel, ht, afterMatch_trace pattern re w cands hnd hids, List.append_assoc,
        List.append_assoc, List.drop_left, ← List.append_assoc]
    have hno : ∀ call : Call, call = .Close ∨ call = .Done →
        (⟨c, call⟩ : Event) ∉ callsMade w (selectDevice compile w cands pattern) := by
      intro call hcall hin
      rw [hcalls] at hin
      rcases List.mem_append.mp hin with hin | hin
      · rcases List.mem_append.mp hin with hin | hin
        · exact release_not_in_opens cands c call
            (by rcases hcall with rfl | rfl <;> decide) hin
        · have := release_in_matchCalls _ _ c call hcall hin
          rw [hmatch] at this
          exact Bool.noConfusion this
      · exact release_not_in_negotiation c call hcall tail htail hin
    rw [hsel]
    refine ⟨branch_failed_is_error _ hb, hb, ?_, ?_, ?_, ?_⟩
    · rw [hh c, hheap]; exact Device.Open_opened_of_ok _ hopenc
    · rw [hh c, hheap, Device.Open_dev]
    · rw [← hsel]; exact hno .Close (Or.inl rfl)
    · rw [← hsel]; exact hno .Done (Or.inr rfl)
  · intro hkept hconf
    have hk : c ∈ keptByFilter filter w.heap cands := by rw [hkept]; simp
    obtain ⟨hop, hkeep⟩ := List.mem_filter.mp hk
    obtain ⟨hmem, hopen⟩ := (mem_openedCands _ _ _).mp hop
    have hopenc : (w.heap c).dev.openErr = none := by simpa [canOpen] using hopen
    have hheap : (afterFilter filter w cands).heap c = (w.heap c).Open.1 := by
      rw [afterFilter_heap filter w cands hnd c]
      simp [hkeep, hmem]
    have hconf2 : configurable ((afterFilter filter w cands).heap c) = false := by
      rw [hheap, configurable_Open]; exact hconf
    obtain ⟨hb, hh, tail, ht, htail⟩ :=
      finishSelectByFilter_failure (afterFilter filter w cands) c hconf2
    have hsel := selectDeviceByFilter_eq w cands filter debug hnd
    rw [if_neg (openedCands_length_ne_zero w.heap cands c hmem hopen), hkept] at hsel
    have hno : ∀ call : Call, call = .Close ∨ call = .Done →
        (⟨c, call⟩ : Event) ∉ callsMade w (selectDeviceByFilter w cands filter debug) := by
      intro call hcall hin
      unfold callsMade at hin
      rw [hsel, ht] at hin
      cases hfl : filter with
      | none =>
        rw [hfl] at hkeep
        simp [filterKeeps] at hkeep
      | some f =>
        rw [hfl] at hin hkeep
        rw [afterFilter_trace_some f w cands hnd, List.append_assoc, List.append_assoc,
          List.drop_left] at hin
        rcases List.mem_append.mp hin with hin | hin
        · exact release_not_in_opens cands c call
            (by rcases hcall with rfl | rfl <;> decide) hin
        · rcases List.mem_append.mp hin with hin | hin
          · have := release_in_filterCalls _ _ c call hcall hin
            rw [hkeep] at this
            exact Bool.noConfusion this
          · exact release_not_in_negotiation c call hcall tail htail hin
    rw [hsel]
    refine ⟨branch_failed_is_error _ hb, hb, ?_, ?_, ?_, ?_⟩
    · rw [hh c, hheap]; exact Device.Open_opened_of_ok _ hopenc
    · rw [hh c, hheap, Device.Open_dev]
    · rw [← hsel]; exact hno .Close (Or.inl rfl)
    · rw [← hsel]; exact hno .Done (Or.inr rfl)

/-- Witness of C15: a candidate whose configuration cannot be queried, selected
by the empty pattern, and one whose configuration cannot be set, selected by a
filter. -/
theorem configuration_failure_leaves_open_witness :
    ((∃ e, (selectDevice sampleCompile ⟨stalledHeap, []⟩ [0] "").ret = .error e) ∧
      branchOf (selectDevice sampleCompile ⟨stalledHeap, []⟩ [0] "").ret
        = .configurationFailed ∧
      ((selectDevice sampleCompile ⟨stalledHeap, []⟩ [0] "").world.heap 0).opened = true ∧
      ((selectDevice sampleCompile ⟨stalledHeap, []⟩ [0] "").world.heap 0).dev.refs
        = (stalledHeap 0).dev.refs ∧
      (⟨0, .Close⟩ : Event) ∉
        callsMade ⟨stalledHeap, []⟩ (selectDevice sampleCompile ⟨stalledHeap, []⟩ [0] "") ∧
      (⟨0, .Done⟩ : Event) ∉
        callsMade ⟨stalledHeap, []⟩ (selectDevice sampleCompile ⟨stalledHeap, []⟩ [0] "")) ∧
    ((∃ e, (selectDeviceByFilter ⟨lockedHeap, []⟩ [0] (some inSecondConfiguration) false).ret
        = .error e) ∧
      branchOf (selectDeviceByFilter ⟨lockedHeap, []⟩ [0] (some inSecondConfiguration) false).ret
        = .configurationFailed ∧
      ((selectDeviceByFilter ⟨lockedHeap, []⟩ [0] (some inSecondConfiguration)
        false).world.heap 0).opened = true ∧
      ((selectDeviceByFilter ⟨lockedHeap, []⟩ [0] (some inSecondConfiguration)
        false).world.heap 0).dev.refs = (lockedHeap 0).dev.refs ∧
      (⟨0, .Close⟩ : Event) ∉ callsMade ⟨lockedHeap, []⟩
        (selectDeviceByFilter ⟨lockedHeap, []⟩ [0] (some inSecondConfiguration) false) ∧
      (⟨0, .Done⟩ : Event) ∉ callsMade ⟨lockedHeap, []⟩
        (selectDeviceByFilter ⟨lockedHeap, []⟩ [0] (some inSecondConfiguration) false)) :=
  ⟨(configuration_failure_leaves_open sampleCompile ⟨stalledHeap, []⟩ [0] ""
      (literal "") none false 0 (by decide)).1 rfl (by decide) (by decide) (by decide),
    (configuration_failure_leaves_open sampleCompile ⟨lockedHeap, []⟩ [0] ""
      (literal "") (some inSecondConfiguration) false 0 (by decide)).2 (by decide) (by decide)⟩

/-! ## Failure of an identity retrieval -/

theorem matchLoop_fail (pattern : String) (re : Regexp) (ident : Nat → String)
    (pre : List Nat) (c : Nat) (post : List Nat) (err : String)
    (hnd : (pre ++ c :: post).Nodup) :
    ∀ (w : World) (found : List Nat) (ids : List String) (i : Nat),
      (∀ p ∈ pre, (w.heap p).ID = .ok (ident p)) → (w.heap c).ID = .error err →
      (matchLoop pattern re w found ids i (pre ++ c :: post)).2
        = .error (.idDev (i + pre.length) err) ∧
      (matchLoop pattern re w found ids i (pre ++ c :: post)).1.trace
        = w.trace ++ pre.flatMap (matchCalls (fun p => patternMatches pattern re (ident p)))
          ++ [⟨c, .ID⟩] := by
  induction pre with
  | nil =>
    intro w found ids i _ hfail
    simp only [List.nil_append]
    unfold matchLoop
    simp only [World.ID, hfail]
    simp [World.log]
  | cons a rest ih =>
    intro w found ids i hid hfail
    have hnd2 : (rest ++ c :: post).Nodup := (List.nodup_cons.mp hnd).2
    have ha : a ∉ rest ++ c :: post := (List.nodup_cons.mp hnd).1
    have hac : c ≠ a := fun h => ha (h ▸ by simp)
    have hida : (w.heap a).ID = .ok (ident a) := hid a (List.mem_cons_self _ _)
    simp only [List.cons_append]
    unfold matchLoop
    simp only [World.ID, hida]
    by_cases hk : patternMatches pattern re (ident a) = true
    · have hid1 : ∀ p ∈ rest, ((w.log a .ID).heap p).ID = .ok (ident p) :=
        fun p hp => hid p (List.mem_cons_of_mem _ hp)
      obtain ⟨ih1, ih2⟩ := ih hnd2 (w.log a .ID) (found ++ [a]) (ids ++ [ident a]) (i + 1)
        hid1 hfail
      simp only [hk, if_true]
      refine ⟨?_, ?_⟩
      · rw [ih1]; simp [Nat.add_assoc, Nat.add_comm 1]
      · rw [ih2]; simp [World.log, matchCalls, hk]
    · have hk2 : patternMatches pattern re (ident a) = false := by simpa using hk
      have hid1 : ∀ p ∈ rest,
          ((((w.log a .ID).Close a).Done a).heap p).ID = .ok (ident p) := by
        intro p hp
        have hne : p ≠ a := fun h => ha (h ▸ List.mem_append_left _ hp)
        rw [World.release_heap, if_neg hne]
        exact hid p (List.mem_cons_of_mem _ hp)
      have hfail1 : ((((w.log a .ID).Close a).Done a).heap c).ID = .error err := by
        rw [World.release_heap, if_neg hac]
        exact hfail
      obtain ⟨ih1, ih2⟩ := ih hnd2 (((w.log a .ID).Close a).Done a) found ids (i + 1)
        hid1 hfail1
      simp only [hk2, Bool.false_eq_true, if_false]
      refine ⟨?_, ?_⟩
      · rw [ih1]; simp [Nat.add_assoc, Nat.add_comm 1]
      · rw [ih2, World.release_trace]
        simp [World.log, matchCalls, hk2]

theorem mem_matchCalls (k : Nat → Bool) (xs : List Nat) (e : Event)
    (h : e ∈ xs.flatMap (matchCalls k)) :
    e.cand ∈ xs ∧ (e.call = .ID ∨ e.call = .Close ∨ e.call = .Done) := by
  obtain ⟨p, hp, he⟩ := List.mem_flatMap.mp h
  unfold matchCalls at he
  cases hk : k p with
  | true =>
    rw [hk] at he
    simp only [if_true, List.mem_singleton] at he
    subst he
    exact ⟨hp, Or.inl rfl⟩
  | false =>
    rw [hk] at he
    simp only [Bool.false_eq_true, if_false, releaseCalls, List.mem_cons, List.mem_singleton,
      List.not_mem_nil, or_false] at he
    rcases he with rfl | rfl | rfl
    · exact ⟨hp, Or.inl rfl⟩
    · exact ⟨hp, Or.inr (Or.inl rfl)⟩
    · exact ⟨hp, Or.inr (Or.inr rfl)⟩

/-- C14: in selectDevice, on distinct candidates and with a pattern that
compiled, when the identity of the opened candidate at index N of the list of
opened candidates cannot be retrieved and the identities of the opened
candidates before it can, the call returns no device and the error that names
the index N and the failure, whatever the pattern and whether or not earlier
candidates passed the test; the call identifies no later candidate and makes no
configuration call.  The index N is the length of pre, the opened candidates
before the failing one, c. -/
theorem selectDevice_identify_failure (compile : String → Except String Regexp) (w : World)
    (cands : List Nat) (pattern : String) (re : Regexp) (pre : List Nat) (c : Nat)
    (post : List Nat) (err : String)
    (hnd : cands.Nodup) (hc : compile pattern = .ok re)
    (hsplit : openedCands w.heap cands = pre ++ c :: post)
    (hpre : ∀ p ∈ pre, (w.heap p).ID = .ok (idOf (w.heap p)))
    (hfail : (w.heap c).ID = .error err) :
    (selectDevice compile w cands pattern).ret = .error (.idDev pre.length err) ∧
    (SelectError.idDev pre.length err).Error
      = "Id dev " ++ toString pre.length ++ ": " ++ err ∧
    callsMade w (selectDevice compile w cands pattern)
      = cands.map (fun p => (⟨p, .Open⟩ : Event))
        ++ pre.flatMap (matchCalls (fun p => patternMatches pattern re (idOf (w.heap p))))
        ++ [⟨c, .ID⟩] ∧
    (∀ p ∈ post, (⟨p, .ID⟩ : Event) ∉ callsMade w (selectDevice compile w cands pattern)) ∧
    (∀ e ∈ callsMade w (selectDevice compile w cands pattern),
      e.call ≠ .GetConfiguration ∧ ∀ v, e.call ≠ .SetConfiguration v) := by
  have hndo : (pre ++ c :: post).Nodup := by
    rw [← hsplit]; exact openedCands_nodup _ _ hnd
  have hmemc : ∀ p ∈ pre ++ c :: post, p ∈ cands := by
    intro p hp
    rw [← hsplit] at hp
    exact ((mem_openedCands _ _ _).mp hp).1
  have hid1 : ∀ p ∈ pre, ((openLoop w [] cands).1.heap p).ID = .ok (idOf (w.heap p)) := by
    intro p hp
    have := afterOpen_heap w cands hnd p
    unfold afterOpen at this
    rw [this, if_pos (hmemc p (List.mem_append_left _ hp)), Device.Open_ID]
    exact hpre p hp
  have hfail1 : ((openLoop w [] cands).1.heap c).ID = .error err := by
    have := afterOpen_heap w cands hnd c
    unfold afterOpen at this
    rw [this, if_pos (hmemc c (by simp)), Device.Open_ID]
    exact hfail
  obtain ⟨h1, h2⟩ := matchLoop_fail pattern re (fun p => idOf (w.heap p)) pre c post err hndo
    (openLoop w [] cands).1 [] [] 0 hid1 hfail1
  have hsel : selectDevice compile w cands pattern
      = ⟨.error (.idDev pre.length err),
          (matchLoop pattern re (openLoop w [] cands).1 [] [] 0 (pre ++ c :: post)).1⟩ := by
    unfold selectDevice
    rw [hc]
    simp only []
    rw [openLoop_found w cands hnd, hsplit, h1]
    simp
  have hcalls : callsMade w (selectDevice compile w cands pattern)
      = cands.map (fun p => (⟨p, .Open⟩ : Event))
        ++ pre.flatMap (matchCalls (fun p => patternMatches pattern re (idOf (w.heap p))))
        ++ [⟨c, .ID⟩] := by
    unfold callsMade
    rw [hsel]
    simp only []
    have h3 := afterOpen_trace w cands hnd
    unfold afterOpen at h3
    rw [h2, h3, List.append_assoc, List.append_assoc, List.drop_left, ← List.append_assoc]
  refine ⟨by rw [hsel], rfl, hcalls, ?_, ?_⟩
  · intro p hp hin
    rw [hcalls] at hin
    have hpp : p ∉ pre := by
      intro hpre2
      have hd := (List.nodup_append.mp hndo).2.2
      exact hd hpre2 (List.mem_cons_of_mem _ hp)
    have hpc : p ≠ c := by
      intro h
      have hd := (List.nodup_cons.mp (List.nodup_append.mp hndo).2.1).1
      exact hd (h ▸ hp)
    rcases List.mem_append.mp hin with hin | hin
    · rcases List.mem_append.mp hin with hin | hin
      · exact release_not_in_opens cands p .ID (by decide) hin
      · exact hpp (mem_matchCalls _ _ _ hin).1
    · simp only [List.mem_singleton, Event.mk.injEq] at hin
      exact hpc hin.1
  · intro e he
    rw [hcalls] at he
    rcases List.mem_append.mp he with he | he
    · rcases List.mem_append.mp he with he | he
      · obtain ⟨p, _, rfl⟩ := List.mem_map.mp he
        exact ⟨by simp, by simp⟩
      · rcases (mem_matchCalls _ _ _ he).2 with h | h | h <;> rw [h] <;> exact ⟨by simp, by simp⟩
    · simp only [List.mem_singleton] at he
      subst he
      exact ⟨by simp, by simp⟩

/-- Witness of C14: of three candidates that open, the second cannot be
identified. -/
theorem selectDevice_identify_failure_witness :
    (selectDevice sampleCompile ⟨muteHeap, []⟩ [0, 1, 2] "Nexus").ret
      = .error (.idDev [0].length "stall") ∧
    (SelectError.idDev [0].length "stall").Error
      = "Id dev " ++ toString [0].length ++ ": " ++ "stall" ∧
    callsMade ⟨muteHeap, []⟩ (selectDevice sampleCompile ⟨muteHeap, []⟩ [0, 1, 2] "Nexus")
      = [0, 1, 2].map (fun p => (⟨p, .Open⟩ : Event))
        ++ [0].flatMap (matchCalls
            (fun p => patternMatches "Nexus" (literal "Nexus") (idOf (muteHeap p))))
        ++ [⟨1, .ID⟩] ∧
    (∀ p ∈ [2], (⟨p, .ID⟩ : Event) ∉
      callsMade ⟨muteHeap, []⟩ (selectDevice sampleCompile ⟨muteHeap, []⟩ [0, 1, 2] "Nexus")) ∧
    (∀ e ∈ callsMade ⟨muteHeap, []⟩
        (selectDevice sampleCompile ⟨muteHeap, []⟩ [0, 1, 2] "Nexus"),
      e.call ≠ .GetConfiguration ∧ ∀ v, e.call ≠ .SetConfiguration v) :=
  selectDevice_identify_failure sampleCompile ⟨muteHeap, []⟩ [0, 1, 2] "Nexus"
    (literal "Nexus") [0] 1 [2] "stall" (by decide) rfl (by decide) (by decide) (by decide)

/-! ## Candidates that fail to open -/

theorem selectDevice_opened (compile : String → Except String Regexp) (w : World)
    (cands : List Nat) (pattern : String) (re : Regexp) (hc : compile pattern = .ok re) :
    selectDevice compile w cands pattern
      = selectOpened pattern re (openLoop w [] cands).1 (openLoop w [] cands).2 := by
  unfold selectDevice selectOpened
  rw [hc]

theorem selectDeviceByFilter_opened (w : World) (cands : List Nat) (filter : Option Filter)
    (debug : Bool) :
    selectDeviceByFilter w cands filter debug
      = selectOpenedByFilter filter (openLoop w [] cands).1 (openLoop w [] cands).2 := rfl

theorem unseen_id : Unseen id := by
  constructor <;> intros <;> rfl

theorem keepsCalls_append (t0 : List Event) : KeepsCalls (fun t => t0 ++ t) := by
  intro t e
  simp

theorem view_selectOpened (τ : List Event → List Event) (hτ : KeepsCalls τ)
    (pattern : String) (re : Regexp) (w : World) (found : List Nat) :
    selectOpened pattern re (w.view id τ) found
      = (selectOpened pattern re w found).view id τ := by
  unfold selectOpened
  by_cases h0 : found.length = 0
  · simp only [h0, if_true]; rfl
  · simp only [h0, if_false]
    rw [view_matchLoop id τ unseen_id hτ]
    cases (matchLoop pattern re w [] [] 0 found).2 with
    | error e => rfl
    | ok r =>
      simp only []
      exact view_finishSelect id τ unseen_id hτ _ _ _

theorem view_selectOpenedByFilter (τ : List Event → List Event) (hτ : KeepsCalls τ)
    (filter : Option Filter) (w : World) (found : List Nat) :
    selectOpenedByFilter filter (w.view id τ) found
      = (selectOpenedByFilter filter w found).view id τ := by
  unfold selectOpenedByFilter
  by_cases h0 : found.length = 0
  · simp only [h0, if_true]; rfl
  · simp only [h0, if_false]
    rw [view_filterLoop id τ unseen_id hτ filter (fun _ _ _ => rfl)]
    exact view_finishSelectByFilter id τ unseen_id hτ _ _

theorem world_as_view (w : World) :
    w = World.view id (fun t => w.trace ++ t) ⟨w.heap, []⟩ := by
  simp [World.view]

theorem openedCands_idem (h : Heap) (cands : List Nat) :
    openedCands h (openedCands h cands) = openedCands h cands := by
  unfold openedCands
  rw [List.filter_filter]
  simp

theorem openLoop_heap_opened (w : World) (cands : List Nat) (hnd : cands.Nodup) :
    (openLoop w [] (openedCands w.heap cands)).1.heap = (openLoop w [] cands).1.heap := by
  funext p
  have h1 := afterOpen_heap w cands hnd p
  have h2 := afterOpen_heap w (openedCands w.heap cands) (openedCands_nodup _ _ hnd) p
  unfold afterOpen at h1 h2
  rw [h1, h2]
  by_cases hp : p ∈ cands
  · by_cases hpo : canOpen (w.heap p) = true
    · simp [hp, (mem_openedCands _ _ _).mpr ⟨hp, hpo⟩]
    · have hno : p ∉ openedCands w.heap cands := fun h => hpo ((mem_openedCands _ _ _).mp h).2
      simp only [hp, hno, if_true, if_false]
      cases he : (w.heap p).dev.openErr with
      | none => simp [canOpen, he] at hpo
      | some e => exact (Device.Open_fst_of_err _ e he).symm
  · have hno : p ∉ openedCands w.heap cands := fun h => hp ((mem_openedCands _ _ _).mp h).1
    simp [hp, hno]

theorem matchLoop_error_idDev (pattern : String) (re : Regexp) (xs : List Nat) :
    ∀ (w : World) (found : List Nat) (ids : List String) (i : Nat) (e : SelectError),
      (matchLoop pattern re w found ids i xs).2 = .error e → ∃ j err, e = .idDev j err := by
  induction xs with
  | nil => intro w found ids i e h; simp [matchLoop] at h
  | cons c rest ih =>
    intro w found ids i e h
    unfold matchLoop at h
    cases hid : (w.ID c).2 with
    | error err =>
      rw [hid] at h
      simp only [Except.error.injEq] at h
      exact ⟨i, err, h.symm⟩
    | ok id =>
      rw [hid] at h
      simp only [] at h
      by_cases hk : patternMatches pattern re id = true
      · simp only [hk, if_true] at h
        exact ih _ _ _ _ _ h
      · simp only [hk, if_false] at h
        exact ih _ _ _ _ _ h

theorem finishSelect_ne_noDevicesFound (w : World) (found : List Nat) (ids : List String) :
    (finishSelect w found ids).ret ≠ .error .noDevicesFound := by
  rcases found with _ | ⟨c, _ | ⟨c2, rest⟩⟩
  · rw [finishSelect_nil]; simp
  · cases hget : (w.heap c).dev.getConfigErr with
    | some e => rw [finishSelect_get_err w c ids e hget]; simp
    | none =>
      by_cases hcfg : (w.heap c).dev.config = (w.heap c).configValue
      · rw [finishSelect_same w c ids hget hcfg]; simp
      · cases hset : (w.heap c).dev.setConfigErr with
        | some e => rw [finishSelect_set_err w c ids e hget hcfg hset]; simp
        | none => rw [finishSelect_set_ok w c ids hget hcfg hset]; simp
  · rw [finishSelect_many w _ ids (by simp)]; simp

theorem finishSelectByFilter_ne_noDevicesFound (w : World) (found : List Nat) :
    (finishSelectByFilter w found).ret ≠ .error .noDevicesFound := by
  rcases found with _ | ⟨c, _ | ⟨c2, rest⟩⟩
  · rw [finishSelectByFilter_nil]; simp
  · cases hget : (w.heap c).dev.getConfigErr with
    | some e => rw [finishSelectByFilter_get_err w c e hget]; simp
    | none =>
      by_cases hcfg : (w.heap c).dev.config = (w.heap c).configValue
      · simp [finishSelectByFilter, World.GetConfiguration, Device.GetConfiguration, hget, hcfg,
          World.log]
      · cases hset : (w.heap c).dev.setConfigErr with
        | some e => rw [finishSelectByFilter_set_err w c e hget hcfg hset]; simp
        | none =>
          simp [finishSelectByFilter, World.GetConfiguration, Device.GetConfiguration, hget,
            hcfg, World.log, World.SetConfiguration, Device.SetConfiguration, hset]
  · have h0 : (c :: c2 :: rest).length ≠ 0 := by simp
    have h1 : (c :: c2 :: rest).length > 1 := by simp
    simp only [finishSelectByFilter, h0, h1, if_true, if_false]
    simp

theorem selectOpened_noDevicesFound (pattern : String) (re : Regexp) (w : World)
    (found : List Nat) :
    (selectOpened pattern re w found).ret = .error .noDevicesFound ↔ found = [] := by
  unfold selectOpened
  by_cases h0 : found.length = 0
  · simp only [h0, if_true]
    exact ⟨fun _ => List.length_eq_zero.mp h0, fun _ => trivial⟩
  · simp only [h0, if_false]
    constructor
    · intro h
      exfalso
      cases hm : (matchLoop pattern re w [] [] 0 found).2 with
      | error e =>
        rw [hm] at h
        simp only [Except.error.injEq] at h
        obtain ⟨j, err, he⟩ := matchLoop_error_idDev pattern re found w [] [] 0 e hm
        rw [he] at h
        exact SelectError.noConfusion h
      | ok r =>
        rw [hm] at h
        exact finishSelect_ne_noDevicesFound _ _ _ h
    · intro h
      exact absurd (by rw [h]; rfl) h0

theorem selectOpenedByFilter_noDevicesFound (filter : Option Filter) (w : World)
    (found : List Nat) :
    (selectOpenedByFilter filter w found).ret = .error .noDevicesFound ↔ found = [] := by
  unfold selectOpenedByFilter
  by_cases h0 : found.length = 0
  · simp only [h0, if_true]
    exact ⟨fun _ => List.length_eq_zero.mp h0, fun _ => trivial⟩
  · simp only [h0, if_false]
    constructor
    · intro h
      exact absurd h (finishSelectByFilter_ne_noDevicesFound _ _)
    · intro h
      exact absurd (by rw [h]; rfl) h0

/-- C13 (as amended): on distinct candidates a candidate that fails to open
produces no error of its own: selectDevice and selectDeviceByFilter return the
same device or error, and leave the same heap, as on the sub-list of the
candidates that open; selectDevice with a valid pattern, and
selectDeviceByFilter, fail with the error no MTP devices found exactly when
that sub-list is empty, and then the only calls made are the Open calls, so no
identity is retrieved, no filter is called and no configuration call is
made. -/
theorem open_failures_are_skipped (compile : String → Except String Regexp) (w : World)
    (cands : List Nat) (pattern : String) (filter : Option Filter) (debug : Bool)
    (hnd : cands.Nodup) :
    ((selectDevice compile w cands pattern).ret
        = (selectDevice compile w (openedCands w.heap cands) pattern).ret ∧
      (selectDevice compile w cands pattern).world.heap
        = (selectDevice compile w (openedCands w.heap cands) pattern).world.heap) ∧
    ((selectDeviceByFilter w cands filter debug).ret
        = (selectDeviceByFilter w (openedCands w.heap cands) filter debug).ret ∧
      (selectDeviceByFilter w cands filter debug).world.heap
        = (selectDeviceByFilter w (openedCands w.heap cands) filter debug).world.heap) ∧
    (∀ re, compile pattern = .ok re →
      ((selectDevice compile w cands pattern).ret = .error .noDevicesFound ↔
        openedCands w.heap cands = [])) ∧
    ((selectDeviceByFilter w cands filter debug).ret = .error .noDevicesFound ↔
      openedCands w.heap cands = []) ∧
    SelectError.noDevicesFound.Error = "no MTP devices found" ∧
    (openedCands w.heap cands = [] →
      (∀ re, compile pattern = .ok re →
        callsMade w (selectDevice compile w cands pattern)
          = cands.map (fun p => (⟨p, .Open⟩ : Event))) ∧
      callsMade w (selectDeviceByFilter w cands filter debug)
        = cands.map (fun p => (⟨p, .Open⟩ : Event))) := by
  have hfound := openLoop_found w cands hnd
  have hfound2 := openLoop_found w (openedCands w.heap cands) (openedCands_nodup _ _ hnd)
  rw [openedCands_idem] at hfound2
  have hheap := openLoop_heap_opened w cands hnd
  have hA := world_as_view (openLoop w [] cands).1
  have hB := world_as_view (openLoop w [] (openedCands w.heap cands)).1
  rw [hheap] at hB
  refine ⟨?_, ?_, ?_, ?_, rfl, ?_⟩
  · cases hc : compile pattern with
    | error e =>
      unfold selectDevice
      rw [hc]
      exact ⟨rfl, rfl⟩
    | ok re =>
      rw [selectDevice_opened compile w cands pattern re hc,
        selectDevice_opened compile w _ pattern re hc, hfound, hfound2, hA, hB,
        view_selectOpened _ (keepsCalls_append _), view_selectOpened _ (keepsCalls_append _)]
      exact ⟨rfl, rfl⟩
  · rw [selectDeviceByFilter_opened, selectDeviceByFilter_opened, hfound, hfound2, hA, hB,
      view_selectOpenedByFilter _ (keepsCalls_append _),
      view_selectOpenedByFilter _ (keepsCalls_append _)]
    exact ⟨rfl, rfl⟩
  · intro re hc
    rw [selectDevice_opened compile w cands pattern re hc, hfound]
    exact selectOpened_noDevicesFound _ _ _ _
  · rw [selectDeviceByFilter_opened, hfound]
    exact selectOpenedByFilter_noDevicesFound _ _ _
  · intro hnone
    have htrace := afterOpen_trace w cands hnd
    unfold afterOpen at htrace
    constructor
    · intro re hc
      unfold callsMade
      rw [selectDevice_opened compile w cands pattern re hc, hfound, hnone]
      simp only [selectOpened, List.length_nil, if_true]
      rw [htrace, List.drop_left]
    · unfold callsMade
      rw [selectDeviceByFilter_opened, hfound, hnone]
      simp only [selectOpenedByFilter, List.length_nil, if_true]
      rw [htrace, List.drop_left]

/-- Witness of C13: the three sample candidates, of which the last cannot be
opened, with the pattern Nexus. -/
theorem open_failures_are_skipped_witness :
    ((selectDevice sampleCompile ⟨sampleHeap, []⟩ [0, 1, 2] "Nexus").ret
        = (selectDevice sampleCompile ⟨sampleHeap, []⟩
            (openedCands sampleHeap [0, 1, 2]) "Nexus").ret ∧
      (selectDevice sampleCompile ⟨sampleHeap, []⟩ [0, 1, 2] "Nexus").world.heap
        = (selectDevice sampleCompile ⟨sampleHeap, []⟩
            (openedCands sampleHeap [0, 1, 2]) "Nexus").world.heap) ∧
    ((selectDevice sampleCompile ⟨sampleHeap, []⟩ [0, 1, 2] "Nexus").ret
        = .error .noDevicesFound ↔ openedCands sampleHeap [0, 1, 2] = []) :=
  ⟨(open_failures_are_skipped sampleCompile ⟨sampleHeap, []⟩ [0, 1, 2] "Nexus" none false
      (by decide)).1,
    (open_failures_are_skipped sampleCompile ⟨sampleHeap, []⟩ [0, 1, 2] "Nexus" none false
      (by decide)).2.2.1 (literal "Nexus") rfl⟩

/-- C13 (as stated) fails: the only candidate given cannot be opened, so the
sub-list of the candidates that open is empty, but with the invalid pattern
selectDevice fails with the error of the compilation, not with the error no
MTP devices found, and does not even try to open the candidate. -/
theorem open_failures_invalid_pattern_fails :
    openedCands sampleHeap [2] = [] ∧
    (selectDevice sampleCompile ⟨sampleHeap, []⟩ [2] "[").ret
      = .error (.compile "error parsing regexp") ∧
    (selectDevice sampleCompile ⟨sampleHeap, []⟩ [2] "[").ret ≠ .error .noDevicesFound ∧
    callsMade ⟨sampleHeap, []⟩ (selectDevice sampleCompile ⟨sampleHeap, []⟩ [2] "[") = [] :=
  ⟨by decide, by decide, by decide, by decide⟩

end Mtp
